import Mathlib

/-!
# Bet settlement engine: ledger store and settlement orchestrator

A shallow embedding of `internal/repository/memory/bet_repo.go`,
`internal/service/bet_service.go`, `internal/model` and `pkg/errors`.

Modelling conventions

* Go pointers (`*model.Bet`, `*model.User`) are addresses into two memories of
  records.  The maps of the repository hold addresses, exactly as the Go maps
  hold pointers, so that two references to one record alias in the model as
  they do in the program.
* `float64` amounts are read as exact rationals.
* `time.Time` is `Option Nat`: `none` is the zero time, `time.Now()` is
  `some now` for the clock reading `now` handed to the operation.
* `uuid.New().String()` is the identifier `newID` handed to the operation.
* The mutex is not an object of the model: a region it protects is one step.
  An operation runs to completion on its own, except in the section on
  callers of `FindOrCreateUser` that run at the same time, where the regions
  of several callers are interleaved by a schedule.
-/

namespace BetSettlement

/-! ## Go maps with string keys -/

/-- A Go map with string keys, kept as an association list. -/
abbrev GoMap (α : Type) := List (String × α)

namespace GoMap

/-- The lookup `m[k]` with its presence flag. -/
def get {α : Type} : GoMap α → String → Option α
  | [], _ => none
  | (k', v) :: t, k => if k' = k then some v else get t k

/-- The assignment `m[k] = v`. -/
def set {α : Type} : GoMap α → String → α → GoMap α
  | [], k, v => [(k, v)]
  | (k', v') :: t, k, v => if k' = k then (k, v) :: t else (k', v') :: set t k v

/-- The builtin `delete(m, k)`. -/
def delete {α : Type} : GoMap α → String → GoMap α
  | [], _ => []
  | (k', v') :: t, k => if k' = k then delete t k else (k', v') :: delete t k

end GoMap

/-! ## internal/model -/

/-- An address of a record in memory. -/
abbrev Ptr := Nat

/-- A value of `time.Time`; `none` is the zero time. -/
abbrev Time := Option Nat

/-- The Go type `BetStatus`, a string. -/
abbrev BetStatus := String

def StatusPlaced : BetStatus := "PLACED"
def StatusWon : BetStatus := "WON"
def StatusLost : BetStatus := "LOST"

/-- The record `model.Bet`. -/
structure Bet where
  ID : String
  UserID : String
  EventID : String
  Odds : ℚ
  Amount : ℚ
  Status : BetStatus
  CreatedAt : Time
  SettledAt : Time
  deriving DecidableEq

/-- The record `model.User`. -/
structure User where
  ID : String
  Balance : ℚ
  CreatedAt : Time
  UpdatedAt : Time
  deriving DecidableEq

/-- The zero value of `model.Bet`. -/
def Bet.zero : Bet := ⟨"", "", "", 0, 0, "", none, none⟩

/-- The zero value of `model.User`. -/
def User.zero : User := ⟨"", 0, none, none⟩

/-- The request `model.PlaceBetRequest`. -/
structure PlaceBetRequest where
  UserID : String
  EventID : String
  Odds : ℚ
  Amount : ℚ
  deriving DecidableEq

/-- The request `model.CreateUserRequest`. -/
structure CreateUserRequest where
  UserID : String
  Name : String
  deriving DecidableEq

/-- The tags of `PlaceBetRequest`: both identifiers `required`, odds
`required,gt=1`, amount `required,gt=0`.  True when the request passes. -/
def PlaceBetRequest.Validate (p : PlaceBetRequest) : Bool :=
  decide (p.UserID ≠ "") && decide (p.EventID ≠ "") &&
  decide (p.Odds ≠ 0) && decide (1 < p.Odds) &&
  decide (p.Amount ≠ 0) && decide (0 < p.Amount)

/-- The tags of `CreateUserRequest`: both fields `required`. -/
def CreateUserRequest.Validate (req : CreateUserRequest) : Bool :=
  decide (req.UserID ≠ "") && decide (req.Name ≠ "")

/-! ## pkg/errors -/

/-- The errors of the program: the three kinds of `pkg/errors` and the
result of `fmt.Errorf`, without (`Errorf`) or with (`Wrapf`) an error
wrapped by `%w` at the end of the text. -/
inductive Error where
  | ErrorNotFound (Entity : String) (ID : String)
  | ErrorBadRequest (Message : String) (Field : String)
  | ErrorConflict (Message : String)
  | Errorf (text : String)
  | Wrapf (text : String) (wrapped : Error)
  deriving DecidableEq

/-- The method `Error()`. -/
def Error.errorString : Error → String
  | .ErrorNotFound e i => e ++ " with ID \x27" ++ i ++ "\x27 not found"
  | .ErrorBadRequest m f =>
      if f ≠ "" then "bad request: invalid field \x27" ++ f ++ "\x27 - " ++ m
      else "bad request: " ++ m
  | .ErrorConflict m => "conflict: " ++ m
  | .Errorf t => t
  | .Wrapf t e => t ++ e.errorString

/-- The type assertion `err.(*errors.ErrorNotFound)`. -/
def Error.isNotFound : Error → Bool
  | .ErrorNotFound _ _ => true
  | _ => false

/-- The type assertion `err.(*errors.ErrorBadRequest)`. -/
def Error.isBadRequest : Error → Bool
  | .ErrorBadRequest _ _ => true
  | _ => false

/-- The type assertion `err.(*errors.ErrorConflict)`. -/
def Error.isConflict : Error → Bool
  | .ErrorConflict _ => true
  | _ => false

/-- The hundredths of a magnitude, rounded to nearest with a tie going to the
even neighbour, as `strconv` rounds the digits of a float. -/
def roundHundredths (x : ℚ) : Nat :=
  let f : Nat := (Int.floor (x * 100)).natAbs
  let rest : ℚ := x * 100 - f
  if rest < 1 / 2 then f
  else if 1 / 2 < rest then f + 1
  else if f % 2 = 0 then f else f + 1

/-- The verb `%.2f` on an amount: the sign of the amount, then its magnitude
with two decimals, rounded to nearest with a tie going to the even digit
(`0.12` for 0.125); a small negative amount keeps its sign, as in `-0.00` for
-0.001.  Amounts are exact rationals here, so this is the text Go prints for
an amount that a `float64` holds exactly; the text is used only in the message
of the insufficient-balance error. -/
def fmt2 (q : ℚ) : String :=
  let a : Nat := roundHundredths |q|
  let frac : Nat := a % 100
  (if q < 0 then "-" else "") ++ toString (a / 100) ++ "." ++
    (if frac < 10 then "0" else "") ++ toString frac

/-! ## internal/repository/memory -/

/-- The program state: the two memories the pointers refer to, the next
unused address of each, and the three maps of `InMemoryBetRepository`. -/
structure InMemoryBetRepository where
  betMem : Ptr → Bet
  userMem : Ptr → User
  nextBet : Ptr
  nextUser : Ptr
  bets : GoMap Ptr
  betsByEvent : GoMap (List Ptr)
  users : GoMap Ptr

/-- A write through a pointer. -/
def store {α : Type} (mem : Ptr → α) (p : Ptr) (v : α) (q : Ptr) : α :=
  if q = p then v else mem q

/-- The constructor `NewInMemoryBetRepository` on an empty memory. -/
def NewInMemoryBetRepository : InMemoryBetRepository :=
  { betMem := fun _ => Bet.zero, userMem := fun _ => User.zero,
    nextBet := 0, nextUser := 0, bets := [], betsByEvent := [], users := [] }

/-- The allocation `&model.Bet{...}`. -/
def newBet (r : InMemoryBetRepository) (b : Bet) : Ptr × InMemoryBetRepository :=
  (r.nextBet, { r with betMem := store r.betMem r.nextBet b, nextBet := r.nextBet + 1 })

/-- The allocation `&model.User{...}`. -/
def newUser (r : InMemoryBetRepository) (u : User) : Ptr × InMemoryBetRepository :=
  (r.nextUser, { r with userMem := store r.userMem r.nextUser u, nextUser := r.nextUser + 1 })

/-- The method `InMemoryBetRepository.PlaceBet` (bet_repo.go 32-61). -/
def PlaceBet (r : InMemoryBetRepository) (bet : Ptr) (newID : String) (now : Nat) :
    Except Error Ptr × InMemoryBetRepository :=
  match r.users.get (r.betMem bet).UserID with
  | none => (.error (.ErrorNotFound "User" (r.betMem bet).UserID), r)
  | some user =>
    if (r.userMem user).Balance < (r.betMem bet).Amount then
      (.error (.ErrorBadRequest
        ("insufficient balance: current " ++ fmt2 (r.userMem user).Balance ++
          ", required " ++ fmt2 (r.betMem bet).Amount) ""), r)
    else
      let b : Bet := { r.betMem bet with
        ID := newID, Status := StatusPlaced, CreatedAt := some now }
      let r1 := { r with betMem := store r.betMem bet b }
      let r2 := { r1 with bets := r1.bets.set b.ID bet }
      let r3 := { r2 with betsByEvent :=
        r2.betsByEvent.set b.EventID (((r2.betsByEvent.get b.EventID).getD []) ++ [bet]) }
      let u : User := { r3.userMem user with
        Balance := (r3.userMem user).Balance - b.Amount, UpdatedAt := some now }
      let r4 := { r3 with userMem := store r3.userMem user u }
      let r5 := { r4 with users := r4.users.set u.ID user }
      (.ok bet, r5)

/-- The method `InMemoryBetRepository.FindBetsByEvent` (bet_repo.go 64-86). -/
def FindBetsByEvent (r : InMemoryBetRepository) (eventID : String) :
    Except Error (List Ptr) :=
  match r.betsByEvent.get eventID with
  | none => .ok []
  | some bets =>
    let placedBets := bets.filter (fun b => decide ((r.betMem b).Status = StatusPlaced))
    if placedBets.length = 0 then .ok [] else .ok placedBets

/-- The method `InMemoryBetRepository.UpdateBet` (bet_repo.go 89-123). -/
def UpdateBet (r : InMemoryBetRepository) (bet : Ptr) (now : Nat) :
    Option Error × InMemoryBetRepository :=
  match r.bets.get (r.betMem bet).ID with
  | none => (some (.ErrorNotFound "Bet" (r.betMem bet).ID), r)
  | some existingBet =>
    if (r.betMem existingBet).Status ≠ StatusPlaced then
      (some (.ErrorConflict ("bet " ++ (r.betMem bet).ID ++ " already settled with status " ++
        (r.betMem existingBet).Status)), r)
    else
      let b1 : Bet := { r.betMem existingBet with Status := (r.betMem bet).Status }
      let r1 := { r with betMem := store r.betMem existingBet b1 }
      let b2 : Bet := { r1.betMem existingBet with SettledAt := some now }
      let r2 := { r1 with betMem := store r1.betMem existingBet b2 }
      let r3 := { r2 with bets := r2.bets.set (r2.betMem bet).ID existingBet }
      if (r3.betMem bet).Status = StatusWon then
        match r3.users.get (r3.betMem existingBet).UserID with
        | none =>
          (some (.Errorf ("internal error: user " ++ (r3.betMem existingBet).UserID ++
            " not found for winning bet " ++ (r3.betMem bet).ID)), r3)
        | some user =>
          let payout := (r3.betMem existingBet).Amount * (r3.betMem existingBet).Odds
          let u : User := { r3.userMem user with
            Balance := (r3.userMem user).Balance + payout, UpdatedAt := some now }
          let r4 := { r3 with userMem := store r3.userMem user u }
          let r5 := { r4 with users := r4.users.set u.ID user }
          (none, r5)
      else (none, r3)

/-- The method `InMemoryBetRepository.CreateUser` (bet_repo.go 126-144). -/
def CreateUser (r : InMemoryBetRepository) (user : Ptr) (now : Nat) :
    Except Error Ptr × InMemoryBetRepository :=
  match r.users.get (r.userMem user).ID with
  | some _ =>
    (.error (.ErrorConflict ("user with ID \x27" ++ (r.userMem user).ID ++
      "\x27 already exists")), r)
  | none =>
    let u1 : User := { r.userMem user with CreatedAt := some now, UpdatedAt := some now }
    let u2 : User := if u1.Balance = 0 then { u1 with Balance := 1000 } else u1
    let r1 := { r with userMem := store r.userMem user u2 }
    let r2 := { r1 with users := r1.users.set u2.ID user }
    (.ok user, r2)

/-- The method `InMemoryBetRepository.GetUser` (bet_repo.go 147-156). -/
def GetUser (r : InMemoryBetRepository) (userID : String) : Except Error Ptr :=
  match r.users.get userID with
  | none => .error (.ErrorNotFound "User" userID)
  | some user => .ok user

/-- The method `InMemoryBetRepository.ListUsers` (bet_repo.go 159-168), in
the order of the association list. -/
def ListUsers (r : InMemoryBetRepository) : Except Error (List Ptr) :=
  .ok (r.users.map (fun kv => kv.2))

/-- The method `InMemoryBetRepository.UpdateUser` (bet_repo.go 171-184). -/
def UpdateUser (r : InMemoryBetRepository) (user : Ptr) (now : Nat) :
    Except Error Ptr × InMemoryBetRepository :=
  match r.users.get (r.userMem user).ID with
  | none => (.error (.ErrorNotFound "User" (r.userMem user).ID), r)
  | some existingUser =>
    let u : User := { r.userMem existingUser with UpdatedAt := some now }
    let r1 := { r with userMem := store r.userMem existingUser u }
    let r2 := { r1 with users := r1.users.set (r1.userMem user).ID existingUser }
    (.ok existingUser, r2)

/-- The method `InMemoryBetRepository.DeleteUser` (bet_repo.go 187-196). -/
def DeleteUser (r : InMemoryBetRepository) (userID : String) :
    Option Error × InMemoryBetRepository :=
  match r.users.get userID with
  | none => (some (.ErrorNotFound "User" userID), r)
  | some _ => (none, { r with users := r.users.delete userID })

/-- The method `InMemoryBetRepository.FindOrCreateUser` (bet_repo.go 200-227),
run without interference from other callers. -/
def FindOrCreateUser (r : InMemoryBetRepository) (userID : String) (now : Nat) :
    Except Error Ptr × InMemoryBetRepository :=
  match r.users.get userID with
  | some user => (.ok user, r)
  | none =>
    let (newUserPtr, r1) := newUser r { User.zero with ID := userID }
    match CreateUser r1 newUserPtr now with
    | (.ok createdUser, r2) => (.ok createdUser, r2)
    | (.error err, r2) =>
      if err.isConflict then
        match r2.users.get userID with
        | some user => (.ok user, r2)
        | none =>
          (.error (.Errorf ("failed to find or create user \x27" ++ userID ++
            "\x27 after conflict")), r2)
      else
        (.error (.Wrapf ("failed to create user \x27" ++ userID ++ "\x27: ") err), r2)

/-- The method `InMemoryBetRepository.GetUserBalance` (bet_repo.go 231-237). -/
def GetUserBalance (r : InMemoryBetRepository) (userID : String) : Except Error ℚ :=
  match GetUser r userID with
  | .error err => .error err
  | .ok user => .ok (r.userMem user).Balance

/-! ## internal/service -/

namespace BetService

/-- The method `BetService.PlaceBet` (bet_service.go 21-56).  The text of the
validator's own message is not modelled. -/
def PlaceBet (r : InMemoryBetRepository) (req : PlaceBetRequest) (newID : String)
    (now : Nat) : Except Error Ptr × InMemoryBetRepository :=
  if !req.Validate then
    (.error (.ErrorBadRequest "validation failed: " ""), r)
  else
    match FindOrCreateUser r req.UserID now with
    | (.error err, r1) => (.error (.Wrapf "could not ensure user exists: " err), r1)
    | (.ok _, r1) =>
      let (bet, r2) := newBet r1
        { Bet.zero with UserID := req.UserID, EventID := req.EventID,
                        Odds := req.Odds, Amount := req.Amount }
      match BetSettlement.PlaceBet r2 bet newID now with
      | (.error err, r3) =>
        if err.isBadRequest then (.error err, r3)
        else if err.isNotFound then (.error err, r3)
        else (.error (.Wrapf "failed to place bet: " err), r3)
      | (.ok createdBet, r3) => (.ok createdBet, r3)

/-- The assignment `bet.Status = settleStatus` through the pointer
(bet_service.go 91). -/
def setStatus (r : InMemoryBetRepository) (bet : Ptr) (settleStatus : BetStatus) :
    InMemoryBetRepository :=
  let b : Bet := { r.betMem bet with Status := settleStatus }
  { r with betMem := store r.betMem bet b }

/-- One turn of the loop of `SettleBetsForEvent` (bet_service.go 90-101): the
accumulator holds `firstError` and the store. -/
def settleStep (settleStatus : BetStatus) (now : Nat)
    (acc : Option Error × InMemoryBetRepository) (bet : Ptr) :
    Option Error × InMemoryBetRepository :=
  let r1 := setStatus acc.2 bet settleStatus
  match UpdateBet r1 bet now with
  | (some err, r2) =>
    if acc.1 = none then
      (some (.Wrapf ("failed to settle bet " ++ (r2.betMem bet).ID ++ ": ") err), r2)
    else (acc.1, r2)
  | (none, r2) => (acc.1, r2)

/-- The method `BetService.SettleBetsForEvent` (bet_service.go 59-109). -/
def SettleBetsForEvent (r : InMemoryBetRepository) (eventID : String) (result : String)
    (now : Nat) : Option Error × InMemoryBetRepository :=
  if result ≠ "win" ∧ result ≠ "lose" then
    (some (.ErrorBadRequest ("invalid settlement result \x27" ++ result ++
      "\x27, must be \x27win\x27 or \x27lose\x27") ""), r)
  else
    match FindBetsByEvent r eventID with
    | .error err =>
      if err.isNotFound then (some err, r)
      else (some (.Wrapf ("failed to find bets for event " ++ eventID ++ ": ") err), r)
    | .ok betsToSettle =>
      if betsToSettle.length = 0 then
        (some (.ErrorNotFound "Placed Bets for Event" eventID), r)
      else
        let settleStatus := if result = "win" then StatusWon else StatusLost
        betsToSettle.foldl (settleStep settleStatus now) (none, r)

/-- The method `BetService.CreateUser` (bet_service.go 112-132). -/
def CreateUser (r : InMemoryBetRepository) (req : CreateUserRequest) (now : Nat) :
    Except Error Ptr × InMemoryBetRepository :=
  if !req.Validate then
    (.error (.ErrorBadRequest "validation failed: " ""), r)
  else
    let (user, r1) := newUser r { User.zero with ID := req.UserID }
    match BetSettlement.CreateUser r1 user now with
    | (.error err, r2) =>
      if err.isConflict then (.error err, r2)
      else (.error (.Wrapf "failed to create user: " err), r2)
    | (.ok createdUser, r2) => (.ok createdUser, r2)

/-- The method `BetService.DeleteUser` (bet_service.go 188-201). -/
def DeleteUser (r : InMemoryBetRepository) (userID : String) :
    Option Error × InMemoryBetRepository :=
  if userID = "" then
    (some (.ErrorBadRequest "user ID cannot be empty" ""), r)
  else BetSettlement.DeleteUser r userID

end BetService

/-! ## More of internal/model and internal/service -/

/-- The request `model.SettleBetRequest`. -/
structure SettleBetRequest where
  Result : String
  deriving DecidableEq

/-- The tag of `SettleBetRequest`: `required,oneof=win lose`. -/
def SettleBetRequest.Validate (req : SettleBetRequest) : Bool :=
  decide (req.Result ≠ "") && (decide (req.Result = "win") || decide (req.Result = "lose"))

namespace BetService

/-- The method `BetService.GetUser` (bet_service.go 135-146). -/
def GetUser (r : InMemoryBetRepository) (userID : String) : Except Error Ptr :=
  if userID = "" then .error (.ErrorBadRequest "user ID cannot be empty" "")
  else BetSettlement.GetUser r userID

/-- The method `BetService.ListUsers` (bet_service.go 149-157). -/
def ListUsers (r : InMemoryBetRepository) : Except Error (List Ptr) :=
  match BetSettlement.ListUsers r with
  | .error err => .error (.Wrapf "failed to list users: " err)
  | .ok users => .ok users

/-- The method `BetService.UpdateUser` (bet_service.go 160-185).  The request
`model.UpdateUserRequest` has no field, so its validation always passes. -/
def UpdateUser (r : InMemoryBetRepository) (userID : String) (now : Nat) :
    Except Error Ptr × InMemoryBetRepository :=
  if userID = "" then (.error (.ErrorBadRequest "user ID cannot be empty" ""), r)
  else
    match BetSettlement.GetUser r userID with
    | .error err => (.error err, r)
    | .ok userToUpdate =>
      match BetSettlement.UpdateUser r userToUpdate now with
      | (.error err, r1) => (.error (.Wrapf "failed to update user: " err), r1)
      | (.ok updatedUser, r1) => (.ok updatedUser, r1)

/-- The method `BetService.GetUserBalance` (bet_service.go 206-214). -/
def GetUserBalance (r : InMemoryBetRepository) (userID : String) : Except Error ℚ :=
  match GetUser r userID with
  | .error err => .error err
  | .ok user => .ok (r.userMem user).Balance

end BetService

/-- A call of one method of `BetService`, with its arguments and with the
identifier and clock reading the call draws. -/
inductive ServiceOp where
  | PlaceBet (req : PlaceBetRequest) (newID : String) (now : Nat)
  | SettleBetsForEvent (eventID : String) (result : String) (now : Nat)
  | CreateUser (req : CreateUserRequest) (now : Nat)
  | GetUser (userID : String)
  | ListUsers
  | UpdateUser (userID : String) (now : Nat)
  | DeleteUser (userID : String)
  | GetUserBalance (userID : String)

/-- The store after one call of a method of `BetService`. -/
def ServiceOp.run (r : InMemoryBetRepository) : ServiceOp → InMemoryBetRepository
  | .PlaceBet req newID now => (BetService.PlaceBet r req newID now).2
  | .SettleBetsForEvent eventID result now =>
      (BetService.SettleBetsForEvent r eventID result now).2
  | .CreateUser req now => (BetService.CreateUser r req now).2
  | .GetUser _ => r
  | .ListUsers => r
  | .UpdateUser userID now => (BetService.UpdateUser r userID now).2
  | .DeleteUser userID => (BetService.DeleteUser r userID).2
  | .GetUserBalance _ => r

/-- The store after a sequence of calls of `BetService`, from the empty store. -/
def serviceRun (ops : List ServiceOp) : InMemoryBetRepository :=
  ops.foldl ServiceOp.run NewInMemoryBetRepository

/-! ## internal/handler -/

/-- An HTTP answer: the status code and the JSON object of the body. -/
structure Response where
  status : Nat
  body : List (String × String)
  deriving DecidableEq

namespace AppHandler

/-- The handler `AppHandler.SettleBet` (bet_handler.go 102-137): `eventID` is
the path parameter and `body` the parsed request, `none` when the parser
fails.  The text of the validator's own message is not modelled. -/
def SettleBet (r : InMemoryBetRepository) (eventID : String)
    (body : Option SettleBetRequest) (now : Nat) : Response × InMemoryBetRepository :=
  if eventID = "" then (⟨400, [("error", "Event ID is required")]⟩, r)
  else
    match body with
    | none => (⟨400, [("error", "Cannot parse JSON request body")]⟩, r)
    | some req =>
      if !req.Validate then (⟨400, [("error", "Validation failed: ")]⟩, r)
      else
        match BetService.SettleBetsForEvent r eventID req.Result now with
        | (some err, r1) =>
          if err.isNotFound then (⟨404, [("error", err.errorString)]⟩, r1)
          else if err.isBadRequest then (⟨400, [("error", err.errorString)]⟩, r1)
          else if err.isConflict then
            (⟨409, [("error", err.errorString),
              ("message", "Some bets might have been settled previously or failed.")]⟩, r1)
          else
            (⟨500, [("error", "Failed to settle all bets for event " ++ eventID ++
              ", potential partial success: " ++ err.errorString)]⟩, r1)
        | (none, r1) =>
          (⟨200, [("message", "Bets for event " ++ eventID ++
            " settled successfully with result \x27" ++ req.Result ++ "\x27")]⟩, r1)

end AppHandler

/-! ## The batch of a settlement, attempt by attempt -/

namespace BetService

/-- The target status of a settlement result (bet_service.go 83-86). -/
def settleStatusOf (result : String) : BetStatus :=
  if result = "win" then StatusWon else StatusLost

/-- One attempt of the batch: the status is written through the pointer and
`UpdateBet` is called on the bet. -/
def attempt (settleStatus : BetStatus) (now : Nat) (r : InMemoryBetRepository)
    (bet : Ptr) : Option Error × InMemoryBetRepository :=
  UpdateBet (setStatus r bet settleStatus) bet now

/-- The store after an attempt on every bet of the list, in order, whatever
the attempts return. -/
def attemptStore (settleStatus : BetStatus) (now : Nat) :
    InMemoryBetRepository → List Ptr → InMemoryBetRepository
  | r, [] => r
  | r, bet :: rest => attemptStore settleStatus now (attempt settleStatus now r bet).2 rest

/-- The outcome of the attempt on every bet of the list, in order: the ID of
the bet and the error of `UpdateBet`, if any. -/
def attemptLog (settleStatus : BetStatus) (now : Nat) :
    InMemoryBetRepository → List Ptr → List (String × Option Error)
  | _, [] => []
  | r, bet :: rest =>
    (((attempt settleStatus now r bet).2.betMem bet).ID, (attempt settleStatus now r bet).1) ::
      attemptLog settleStatus now (attempt settleStatus now r bet).2 rest

/-- The error reported for a batch: the error of the first failing attempt,
wrapped in a text that names the bet; none when no attempt failed. -/
def firstFailure : List (String × Option Error) → Option Error
  | [] => none
  | (id, some err) :: _ => some (.Wrapf ("failed to settle bet " ++ id ++ ": ") err)
  | (_, none) :: rest => firstFailure rest

end BetService

/-! ## Invariants -/

/-- No balance, stake or odds in memory is negative. -/
def AmountsNonneg (r : InMemoryBetRepository) : Prop :=
  (∀ q, 0 ≤ (r.userMem q).Balance) ∧ (∀ p, 0 ≤ (r.betMem p).Amount ∧ 0 ≤ (r.betMem p).Odds)

/-- The record `&model.Bet{...}` that `BetService.PlaceBet` builds from the
request (bet_service.go 36-41). -/
def betOfRequest (req : PlaceBetRequest) : Bet :=
  { Bet.zero with UserID := req.UserID, EventID := req.EventID,
                  Odds := req.Odds, Amount := req.Amount }

/-! ## Reachable stores and the invariant of the index -/

/-- The stores reached from the empty one through the operations of the
repository.  The caller may build records; `PlaceBet` receives a pointer to
any record that exists, be it new or one the store already holds (such as the
pointer an earlier `PlaceBet` returned), and draws an identifier that is not
in use; every other operation receives any pointer or ID. -/
inductive RepoReachable : InMemoryBetRepository → Prop where
  | empty : RepoReachable NewInMemoryBetRepository
  | allocBet (r : InMemoryBetRepository) (b : Bet) :
      RepoReachable r → RepoReachable (newBet r b).2
  | allocUser (r : InMemoryBetRepository) (u : User) :
      RepoReachable r → RepoReachable (newUser r u).2
  | placeBet (r : InMemoryBetRepository) (bet : Ptr) (newID : String) (now : Nat) :
      RepoReachable r → bet < r.nextBet → r.bets.get newID = none →
      RepoReachable (PlaceBet r bet newID now).2
  | updateBet (r : InMemoryBetRepository) (bet : Ptr) (now : Nat) :
      RepoReachable r → RepoReachable (UpdateBet r bet now).2
  | createUser (r : InMemoryBetRepository) (user : Ptr) (now : Nat) :
      RepoReachable r → RepoReachable (CreateUser r user now).2
  | updateUser (r : InMemoryBetRepository) (user : Ptr) (now : Nat) :
      RepoReachable r → RepoReachable (UpdateUser r user now).2
  | deleteUser (r : InMemoryBetRepository) (userID : String) :
      RepoReachable r → RepoReachable (DeleteUser r userID).2
  | findOrCreateUser (r : InMemoryBetRepository) (userID : String) (now : Nat) :
      RepoReachable r → RepoReachable (FindOrCreateUser r userID now).2

/-- The stores reached as in `RepoReachable` by runs in which no bet is
placed twice: a call of `PlaceBet` on a record that the store already holds
is one that fails.  Every other step is as in `RepoReachable`. -/
inductive RepoReachableOnce : InMemoryBetRepository → Prop where
  | empty : RepoReachableOnce NewInMemoryBetRepository
  | allocBet (r : InMemoryBetRepository) (b : Bet) :
      RepoReachableOnce r → RepoReachableOnce (newBet r b).2
  | allocUser (r : InMemoryBetRepository) (u : User) :
      RepoReachableOnce r → RepoReachableOnce (newUser r u).2
  | placeBet (r : InMemoryBetRepository) (bet : Ptr) (newID : String) (now : Nat) :
      RepoReachableOnce r → bet < r.nextBet → r.bets.get newID = none →
      ((∀ k, r.bets.get k ≠ some bet) ∨ (PlaceBet r bet newID now).1 ≠ .ok bet) →
      RepoReachableOnce (PlaceBet r bet newID now).2
  | updateBet (r : InMemoryBetRepository) (bet : Ptr) (now : Nat) :
      RepoReachableOnce r → RepoReachableOnce (UpdateBet r bet now).2
  | createUser (r : InMemoryBetRepository) (user : Ptr) (now : Nat) :
      RepoReachableOnce r → RepoReachableOnce (CreateUser r user now).2
  | updateUser (r : InMemoryBetRepository) (user : Ptr) (now : Nat) :
      RepoReachableOnce r → RepoReachableOnce (UpdateUser r user now).2
  | deleteUser (r : InMemoryBetRepository) (userID : String) :
      RepoReachableOnce r → RepoReachableOnce (DeleteUser r userID).2
  | findOrCreateUser (r : InMemoryBetRepository) (userID : String) (now : Nat) :
      RepoReachableOnce r → RepoReachableOnce (FindOrCreateUser r userID now).2

/-- The bets map and the index by event hold the same records, whatever
pointers `PlaceBet` received: every stored bet is below the allocation mark
and is in the index of its event; every record of an index carries the event
and is stored under its ID. -/
structure BetIndexMem (r : InMemoryBetRepository) : Prop where
  below : ∀ k p, r.bets.get k = some p → p < r.nextBet
  indexed : ∀ k p, r.bets.get k = some p →
    ∃ idx, r.betsByEvent.get (r.betMem p).EventID = some idx ∧ p ∈ idx
  event : ∀ e idx, r.betsByEvent.get e = some idx → ∀ p ∈ idx, (r.betMem p).EventID = e
  stored : ∀ e idx, r.betsByEvent.get e = some idx → ∀ p ∈ idx,
    r.bets.get (r.betMem p).ID = some p

/-- The bets map and the index by event hold the same records: every stored
bet is below the allocation mark, carries its key as ID and is in the index
of its event; every index has no record twice, and each of its records
carries the event and is stored under its ID. -/
structure BetIndexInv (r : InMemoryBetRepository) : Prop where
  below : ∀ k p, r.bets.get k = some p → p < r.nextBet
  keyed : ∀ k p, r.bets.get k = some p → (r.betMem p).ID = k
  indexed : ∀ k p, r.bets.get k = some p →
    ∃ idx, r.betsByEvent.get (r.betMem p).EventID = some idx ∧ p ∈ idx
  nodup : ∀ e idx, r.betsByEvent.get e = some idx → idx.Nodup
  event : ∀ e idx, r.betsByEvent.get e = some idx → ∀ p ∈ idx, (r.betMem p).EventID = e
  stored : ∀ e idx, r.betsByEvent.get e = some idx → ∀ p ∈ idx,
    r.bets.get (r.betMem p).ID = some p

/-- The part of the store that holds bets is the same in both stores. -/
def SameBets (r r' : InMemoryBetRepository) : Prop :=
  r'.betMem = r.betMem ∧ r'.bets = r.bets ∧ r'.betsByEvent = r.betsByEvent ∧
  r'.nextBet = r.nextBet

/-! ## Callers of FindOrCreateUser that run at the same time -/

/-- The place of one caller inside `FindOrCreateUser` (bet_repo.go 200-227),
between the critical sections of the mutex: before the first lookup, before
the call of `CreateUser` (the first lookup found nothing), before the second
lookup (`CreateUser` returned `ErrorConflict`), and after the return. -/
inductive Caller where
  | start
  | creating
  | rechecking
  | returned (result : Except Error Ptr)

/-- One critical section of a caller of `FindOrCreateUser`, run on the shared
store: the first lookup under `RLock`, the call of `CreateUser` on a new
record under `Lock`, or the second lookup under `RLock`. -/
def Caller.step (userID : String) (now : Nat) (r : InMemoryBetRepository) :
    Caller → Caller × InMemoryBetRepository
  | .start =>
    match r.users.get userID with
    | some user => (.returned (.ok user), r)
    | none => (.creating, r)
  | .creating =>
    let (newUserPtr, r1) := newUser r { User.zero with ID := userID }
    match CreateUser r1 newUserPtr now with
    | (.ok createdUser, r2) => (.returned (.ok createdUser), r2)
    | (.error err, r2) =>
      if err.isConflict then (.rechecking, r2)
      else
        (.returned (.error (.Wrapf ("failed to create user \x27" ++ userID ++ "\x27: ") err)),
          r2)
  | .rechecking =>
    match r.users.get userID with
    | some user => (.returned (.ok user), r)
    | none =>
      (.returned (.error (.Errorf ("failed to find or create user \x27" ++ userID ++
        "\x27 after conflict"))), r)
  | .returned result => (.returned result, r)

/-- True when the step from `c` to `c2` is a call of `CreateUser` that
succeeded. -/
def Caller.created : Caller → Caller → Bool
  | .creating, .returned (.ok _) => true
  | _, _ => false

/-- The number of critical sections a caller has still to run, at most. -/
def Caller.rank : Caller → Nat
  | .start => 3
  | .creating => 2
  | .rechecking => 1
  | .returned _ => 0

/-- The shared store, the callers of `FindOrCreateUser` that run at the same
time, and the count of calls of `CreateUser` that have succeeded. -/
structure Sys where
  repo : InMemoryBetRepository
  callers : List Caller
  creations : Nat

/-- One move of the scheduler: caller `e.1` runs its next critical section,
at clock reading `e.2`. -/
def Sys.step (userID : String) (s : Sys) (e : Nat × Nat) : Sys :=
  match s.callers[e.1]? with
  | none => s
  | some c =>
    { repo := (c.step userID e.2 s.repo).2,
      callers := s.callers.set e.1 (c.step userID e.2 s.repo).1,
      creations := s.creations + (if c.created (c.step userID e.2 s.repo).1 then 1 else 0) }

/-- A schedule, that is an interleaving of the critical sections of the
callers, run from a state. -/
def Sys.run (userID : String) (s : Sys) (schedule : List (Nat × Nat)) : Sys :=
  schedule.foldl (Sys.step userID) s

/-- The state in which `n` callers are about to call `FindOrCreateUser`. -/
def Sys.init (r : InMemoryBetRepository) (n : Nat) : Sys :=
  { repo := r, callers := List.replicate n .start, creations := 0 }

/-- What holds of the callers and the store at every moment, for callers
that started on the store `r0`, where the ID was not in the user map: either
no user has been created, the user map is that of `r0` and every caller is
before its lookup or before `CreateUser`; or one call of `CreateUser` has
succeeded, the user map is that of `r0` with the ID added, the record has the
ID and balance 1000, and every caller that has returned has returned it. -/
def Sys.Inv (r0 : InMemoryBetRepository) (userID : String) (n : Nat) (s : Sys) : Prop :=
  s.callers.length = n ∧
  ((s.repo.users = r0.users ∧ s.creations = 0 ∧
      ∀ c ∈ s.callers, c = .start ∨ c = .creating) ∨
   (∃ p, s.repo.users = r0.users.set userID p ∧ s.creations = 1 ∧
      p < s.repo.nextUser ∧ (s.repo.userMem p).ID = userID ∧
      (s.repo.userMem p).Balance = 1000 ∧
      ∀ c ∈ s.callers,
        c = .start ∨ c = .creating ∨ c = .rechecking ∨ c = .returned (.ok p)))

/-! ## Scenarios -/

/-- The scenario of the specification: user `u1` is created and places a
stake of 100 at odds 2 on event `e1`. -/
def scenario : InMemoryBetRepository :=
  (BetService.PlaceBet (BetService.CreateUser NewInMemoryBetRepository ⟨"u1", "Ann"⟩ 1).2
    ⟨"u1", "e1", 2, 100⟩ "b1" 2).2

/-- A store for the examples: user `u1` with balance 1000 is stored, and the
record at address 0 is a bet of 100 at odds 2 on `e1` that is not stored yet. -/
def storeA : InMemoryBetRepository :=
  { betMem := fun p => if p = 0 then ⟨"", "u1", "e1", 2, 100, "", none, none⟩ else Bet.zero,
    userMem := fun p => if p = 0 then ⟨"u1", 1000, some 1, some 1⟩ else User.zero,
    nextBet := 1, nextUser := 1, bets := [], betsByEvent := [], users := [("u1", 0)] }

/-- A store for the examples: as `storeA`, with a stake of 5000. -/
def storeB : InMemoryBetRepository :=
  { betMem := fun p => if p = 0 then ⟨"", "u1", "e1", 2, 5000, "", none, none⟩ else Bet.zero,
    userMem := fun p => if p = 0 then ⟨"u1", 1000, some 1, some 1⟩ else User.zero,
    nextBet := 1, nextUser := 1, bets := [], betsByEvent := [], users := [("u1", 0)] }

/-- The store of `scenario` after the repository has deleted user `u1`, with
a new record at address 1 that names bet `b1` and carries the target `WON`. -/
def orphanStore : InMemoryBetRepository :=
  (newBet (DeleteUser scenario "u1").2 { Bet.zero with ID := "b1", Status := StatusWon }).2

/-- The store of `scenario` with a new record at address 1 that names bet
`b1` and carries the target `WON`. -/
def settleStore : InMemoryBetRepository :=
  (newBet scenario { Bet.zero with ID := "b1", Status := StatusWon }).2

/-- The store of `scenario` with a new record at address 1 that names bet
`b1` and carries no status: `&model.Bet{ID: "b1"}`. -/
def blankStore : InMemoryBetRepository :=
  (newBet scenario { Bet.zero with ID := "b1" }).2

/-- A store reached through the repository alone: `FindOrCreateUser` for
`u1`, then `PlaceBet` on a record just built, 100 at odds 2 on `e1`. -/
def repoScenario : InMemoryBetRepository :=
  (PlaceBet
    (newBet (FindOrCreateUser NewInMemoryBetRepository "u1" 1).2
      ⟨"", "u1", "e1", 2, 100, "", none, none⟩).2
    (newBet (FindOrCreateUser NewInMemoryBetRepository "u1" 1).2
      ⟨"", "u1", "e1", 2, 100, "", none, none⟩).1 "b1" 2).2

/-- The store of `repoScenario` after `PlaceBet` has been called once more
on the pointer that the first call returned, with the new identifier `b2`. -/
def twiceStore : InMemoryBetRepository :=
  (PlaceBet repoScenario 0 "b2" 3).2

/-- The store of `settleStore` after `UpdateBet` on the record at address 1:
bet `b1` is settled as `WON` and its owner is credited. -/
def wonStore : InMemoryBetRepository :=
  (UpdateBet settleStore 1 3).2

/-- A bet record after settlement with status `s` at time `now`. -/
def Bet.settled (b : Bet) (s : BetStatus) (now : Nat) : Bet :=
  { b with Status := s, SettledAt := some now }

/-- A user record after a credit of `payout` at time `now`. -/
def User.credited (u : User) (payout : ℚ) (now : Nat) : User :=
  { u with Balance := u.Balance + payout, UpdatedAt := some now }

/-! ## Lemmas on maps and memory -/

theorem store_apply {α : Type} (mem : Ptr → α) (p : Ptr) (v : α) (q : Ptr) :
    store mem p v q = if q = p then v else mem q := rfl

theorem store_same {α : Type} (mem : Ptr → α) (p : Ptr) (v : α) :
    store mem p v p = v := by simp [store]

theorem store_other {α : Type} (mem : Ptr → α) (p : Ptr) (v : α) (q : Ptr) (h : q ≠ p) :
    store mem p v q = mem q := by simp [store, h]

theorem store_store {α : Type} (mem : Ptr → α) (p : Ptr) (v w : α) :
    store (store mem p v) p w = store mem p w := by
  funext q
  by_cases h : q = p <;> simp [store, h]

theorem store_self {α : Type} (mem : Ptr → α) (p : Ptr) :
    store mem p (mem p) = mem := by
  funext q
  by_cases h : q = p
  · subst h; simp [store]
  · simp [store, h]

namespace GoMap

theorem get_set {α : Type} (m : GoMap α) (k k' : String) (v : α) :
    (m.set k v).get k' = if k' = k then some v else m.get k' := by
  induction m with
  | nil =>
    by_cases h : k' = k
    · subst h; simp [set, get]
    · have h' : ¬ k = k' := fun e => h e.symm
      simp [set, get, h, h']
  | cons hd tl ih =>
    obtain ⟨a, b⟩ := hd
    by_cases hak : a = k
    · subst hak
      by_cases h : k' = a
      · subst h; simp [set, get]
      · have h' : ¬ a = k' := fun e => h e.symm
        simp [set, get, h, h']
    · by_cases h : k' = k
      · subst h
        simp [set, get, hak, ih]
      · by_cases hak' : a = k'
        · simp [set, get, hak, hak', h]
        · simp [set, get, hak, hak', h, ih]

theorem get_set_same {α : Type} (m : GoMap α) (k : String) (v : α) :
    (m.set k v).get k = some v := by simp [get_set]

theorem get_set_other {α : Type} (m : GoMap α) (k k' : String) (v : α) (h : k' ≠ k) :
    (m.set k v).get k' = m.get k' := by simp [get_set, h]

theorem set_get_self {α : Type} (m : GoMap α) (k : String) (v : α)
    (h : m.get k = some v) : m.set k v = m := by
  induction m with
  | nil => simp [get] at h
  | cons hd tl ih =>
    obtain ⟨a, b⟩ := hd
    by_cases hak : a = k
    · subst hak
      simp [get] at h
      simp [set, h]
    · simp [get, hak] at h
      simp [set, hak, ih h]

theorem get_delete {α : Type} (m : GoMap α) (k k' : String) :
    (m.delete k).get k' = if k' = k then none else m.get k' := by
  induction m with
  | nil => simp [delete, get]
  | cons hd tl ih =>
    obtain ⟨a, b⟩ := hd
    by_cases hak : a = k
    · subst hak
      by_cases h : k' = a
      · subst h; simp [delete, get, ih]
      · have h' : ¬ a = k' := fun e => h e.symm
        simp [delete, get, ih, h, h']
    · by_cases h : k' = k
      · subst h
        simp [delete, get, hak, ih]
      · by_cases hak' : a = k'
        · simp [delete, get, hak, hak', h]
        · simp [delete, get, hak, hak', h, ih]

end GoMap

/-! ## InMemoryBetRepository.PlaceBet -/

/-- C1, as the code has it: for every store and every bet argument whose
owner exists with a balance of at least the stake, `PlaceBet` succeeds and
returns the argument as a bet with status `PLACED`; the owner's balance is
the old one minus the stake, the bet is in the bets map under the generated
ID and is appended to the index of its event, every other user record keeps
its balance, and every bet stored before is still stored under its key and is
unchanged unless it is the very record that was passed as the argument, which
now carries the generated ID, the status `PLACED` and the new creation time.
The generated ID is assumed unused. -/
theorem C1_placeBet_success (r : InMemoryBetRepository) (bet user : Ptr)
    (newID : String) (now : Nat)
    (hUser : r.users.get (r.betMem bet).UserID = some user)
    (hBal : (r.betMem bet).Amount ≤ (r.userMem user).Balance)
    (hID : r.bets.get newID = none) :
    (PlaceBet r bet newID now).1 = .ok bet ∧
    (PlaceBet r bet newID now).2.betMem bet =
      { r.betMem bet with ID := newID, Status := StatusPlaced, CreatedAt := some now } ∧
    ((PlaceBet r bet newID now).2.betMem bet).Status = StatusPlaced ∧
    (PlaceBet r bet newID now).2.users.get (r.betMem bet).UserID = some user ∧
    ((PlaceBet r bet newID now).2.userMem user).Balance =
      (r.userMem user).Balance - (r.betMem bet).Amount ∧
    (PlaceBet r bet newID now).2.bets.get newID = some bet ∧
    (PlaceBet r bet newID now).2.betsByEvent.get (r.betMem bet).EventID =
      some ((r.betsByEvent.get (r.betMem bet).EventID).getD [] ++ [bet]) ∧
    (∀ e, e ≠ (r.betMem bet).EventID →
      (PlaceBet r bet newID now).2.betsByEvent.get e = r.betsByEvent.get e) ∧
    (∀ q, q ≠ user → (PlaceBet r bet newID now).2.userMem q = r.userMem q) ∧
    (∀ k, k ≠ (r.userMem user).ID →
      (PlaceBet r bet newID now).2.users.get k = r.users.get k) ∧
    (∀ k q, r.bets.get k = some q →
      (PlaceBet r bet newID now).2.bets.get k = some q ∧
      (q ≠ bet → (PlaceBet r bet newID now).2.betMem q = r.betMem q)) := by
  have hlt : ¬ (r.userMem user).Balance < (r.betMem bet).Amount := not_lt.mpr hBal
  simp only [PlaceBet, hUser, hlt, if_false]
  refine ⟨trivial, ?_, ?_, ?_, ?_, ?_, ?_, ?_, ?_, ?_, ?_⟩
  · simp [store_same]
  · simp [store_same]
  · simp only [GoMap.get_set, store_same]
    split <;> simp [hUser]
  · simp [store_same]
  · simp [GoMap.get_set_same]
  · simp [GoMap.get_set_same, store_same]
  · intro e he
    simp [GoMap.get_set, store_same, he]
  · intro q hq
    simp [store_other, hq]
  · intro k hk
    simp [GoMap.get_set, store_same, hk]
  · intro k q hq
    have hk : k ≠ newID := by
      intro e; subst e; rw [hID] at hq; cases hq
    refine ⟨by simp [GoMap.get_set, hk, hq], fun hqb => ?_⟩
    simp [store_other, hqb]

/-- C1 at a concrete store: `u1` holds 1000 and stakes 100 on `e1`. -/
theorem C1_placeBet_success_witness :
    (PlaceBet storeA 0 "b1" 2).1 = .ok 0 ∧
    ((PlaceBet storeA 0 "b1" 2).2.betMem 0).Status = StatusPlaced ∧
    ((PlaceBet storeA 0 "b1" 2).2.userMem 0).Balance =
      (storeA.userMem 0).Balance - (storeA.betMem 0).Amount ∧
    (PlaceBet storeA 0 "b1" 2).2.bets.get "b1" = some 0 := by
  have h := C1_placeBet_success storeA 0 0 "b1" 2 (by decide)
    (by simp [storeA]; norm_num) (by decide)
  exact ⟨h.1, h.2.2.1, h.2.2.2.2.1, h.2.2.2.2.2.1⟩

/-- C2: when the owner exists with a balance below the stake, `PlaceBet`
fails with `ErrorBadRequest` (insufficient balance) and the whole store is as
before: balances, the bets map and the index by event. -/
theorem C2_placeBet_insufficient (r : InMemoryBetRepository) (bet user : Ptr)
    (newID : String) (now : Nat)
    (hUser : r.users.get (r.betMem bet).UserID = some user)
    (hBal : (r.userMem user).Balance < (r.betMem bet).Amount) :
    (PlaceBet r bet newID now).1 = .error (.ErrorBadRequest
      ("insufficient balance: current " ++ fmt2 (r.userMem user).Balance ++
        ", required " ++ fmt2 (r.betMem bet).Amount) "") ∧
    (PlaceBet r bet newID now).2 = r := by
  simp [PlaceBet, hUser, hBal]

/-- C2 at a concrete store: `u1` holds 1000 and stakes 5000. -/
theorem C2_placeBet_insufficient_witness :
    (PlaceBet storeB 0 "b1" 2).1 = .error (.ErrorBadRequest
      ("insufficient balance: current " ++ fmt2 (storeB.userMem 0).Balance ++
        ", required " ++ fmt2 (storeB.betMem 0).Amount) "") ∧
    (PlaceBet storeB 0 "b1" 2).2 = storeB :=
  C2_placeBet_insufficient storeB 0 0 "b1" 2 (by decide) (by simp [storeB]; norm_num)

/-! ## The scenario, evaluated -/

theorem createUser_u1 :
    (BetService.CreateUser NewInMemoryBetRepository ⟨"u1", "Ann"⟩ 1).2 =
    { betMem := fun _ => Bet.zero,
      userMem := store (fun _ => User.zero) 0 ⟨"u1", 1000, some 1, some 1⟩,
      nextBet := 0, nextUser := 1, bets := [], betsByEvent := [], users := [("u1", 0)] } := by
  simp [BetService.CreateUser, CreateUser, newUser, NewInMemoryBetRepository, GoMap.get,
    GoMap.set, store_same, CreateUserRequest.Validate, User.zero, Error.isConflict]
  funext q
  simp [store_apply]
  split <;> rfl

theorem scenario_eq : scenario =
    { betMem := store (fun _ => Bet.zero) 0 ⟨"b1", "u1", "e1", 2, 100, "PLACED", some 2, none⟩,
      userMem := store (fun _ => User.zero) 0 ⟨"u1", 900, some 1, some 2⟩,
      nextBet := 1, nextUser := 1, bets := [("b1", 0)], betsByEvent := [("e1", [0])],
      users := [("u1", 0)] } := by
  rw [scenario, createUser_u1]
  simp [BetService.PlaceBet, FindOrCreateUser, PlaceBet, newBet, GoMap.get, GoMap.set,
    store_same, PlaceBetRequest.Validate, Bet.zero, Error.isConflict, StatusPlaced]
  norm_num
  constructor
  · funext q
    simp [store_apply]
    split <;> rfl
  · funext q
    simp [store_apply]
    split <;> rfl

theorem settleStore_eq : settleStore =
    { betMem := store (store (fun _ => Bet.zero) 0
        ⟨"b1", "u1", "e1", 2, 100, "PLACED", some 2, none⟩) 1
        ⟨"b1", "", "", 0, 0, "WON", none, none⟩,
      userMem := store (fun _ => User.zero) 0 ⟨"u1", 900, some 1, some 2⟩,
      nextBet := 2, nextUser := 1, bets := [("b1", 0)], betsByEvent := [("e1", [0])],
      users := [("u1", 0)] } := by
  rw [settleStore, scenario_eq]
  simp [newBet, Bet.zero, StatusWon]

theorem orphanStore_eq : orphanStore =
    { betMem := store (store (fun _ => Bet.zero) 0
        ⟨"b1", "u1", "e1", 2, 100, "PLACED", some 2, none⟩) 1
        ⟨"b1", "", "", 0, 0, "WON", none, none⟩,
      userMem := store (fun _ => User.zero) 0 ⟨"u1", 900, some 1, some 2⟩,
      nextBet := 2, nextUser := 1, bets := [("b1", 0)], betsByEvent := [("e1", [0])],
      users := [] } := by
  rw [orphanStore, scenario_eq]
  simp [newBet, DeleteUser, GoMap.get, GoMap.delete, Bet.zero, StatusWon]

/-- C1 fails as stated: in the scenario bet `b1` is stored at address 0 and
its owner `u1` holds 900.  `PlaceBet` on that stored record, the pointer that
the first `PlaceBet` returned, with the unused ID `b2` succeeds; the record
that is still stored under `b1` then carries the ID `b2` and a new creation
time, so a bet that was stored before is not unchanged. -/
theorem C1_placeBet_counterexample :
    scenario.users.get (scenario.betMem 0).UserID = some 0 ∧
    (scenario.betMem 0).Amount ≤ (scenario.userMem 0).Balance ∧
    scenario.bets.get "b2" = none ∧
    scenario.bets.get "b1" = some 0 ∧
    (PlaceBet scenario 0 "b2" 3).1 = .ok 0 ∧
    (PlaceBet scenario 0 "b2" 3).2.bets.get "b1" = some 0 ∧
    (scenario.betMem 0).ID = "b1" ∧
    ((PlaceBet scenario 0 "b2" 3).2.betMem 0).ID = "b2" ∧
    (scenario.betMem 0).CreatedAt = some 2 ∧
    ((PlaceBet scenario 0 "b2" 3).2.betMem 0).CreatedAt = some 3 ∧
    (PlaceBet scenario 0 "b2" 3).2.betMem 0 ≠ scenario.betMem 0 := by
  have hp : (PlaceBet scenario 0 "b2" 3).1 = .ok 0 ∧
      (PlaceBet scenario 0 "b2" 3).2.bets.get "b1" = some 0 ∧
      ((PlaceBet scenario 0 "b2" 3).2.betMem 0).ID = "b2" ∧
      ((PlaceBet scenario 0 "b2" 3).2.betMem 0).CreatedAt = some 3 := by
    rw [scenario_eq]
    simp [PlaceBet, GoMap.get, GoMap.set, store_apply, StatusPlaced]
    norm_num
    simp [store_same]
  have hid : (scenario.betMem 0).ID = "b1" := by
    rw [scenario_eq]; simp [store_apply]
  refine ⟨?_, ?_, ?_, ?_, hp.1, hp.2.1, hid, hp.2.2.1, ?_, hp.2.2.2, ?_⟩
  · rw [scenario_eq]; simp [GoMap.get, store_apply]
  · rw [scenario_eq]; simp [store_apply]; norm_num
  · rw [scenario_eq]; simp [GoMap.get]
  · rw [scenario_eq]; simp [GoMap.get]
  · rw [scenario_eq]; simp [store_apply]
  · intro e
    have h2 := congrArg Bet.ID e
    rw [hp.2.2.1, hid] at h2
    exact absurd h2 (by decide)

/-! ## InMemoryBetRepository.UpdateBet -/

/-- An argument that carries a target other than `PLACED` is not the stored
record when that one is still `PLACED`. -/
theorem arg_ne_stored (r : InMemoryBetRepository) (bet existingBet : Ptr)
    (hPlaced : (r.betMem existingBet).Status = StatusPlaced)
    (hS : (r.betMem bet).Status = StatusWon ∨ (r.betMem bet).Status = StatusLost) :
    bet ≠ existingBet := by
  intro e
  subst e
  rw [hPlaced] at hS
  rcases hS with h | h <;> exact absurd h (by decide)

/-- The result of `UpdateBet` on a `PLACED` bet whose argument is another
record with a target that is not `WON`. -/
theorem UpdateBet_not_won (r : InMemoryBetRepository) (bet existingBet : Ptr) (now : Nat)
    (hGet : r.bets.get (r.betMem bet).ID = some existingBet)
    (hPlaced : (r.betMem existingBet).Status = StatusPlaced)
    (hne : bet ≠ existingBet)
    (hS : (r.betMem bet).Status ≠ StatusWon) :
    UpdateBet r bet now =
      (none,
       { r with
         betMem := store r.betMem existingBet
           ((r.betMem existingBet).settled (r.betMem bet).Status now) }) := by
  have hself : r.bets.set (r.betMem bet).ID existingBet = r.bets :=
    GoMap.set_get_self _ _ _ hGet
  simp [UpdateBet, hGet, hPlaced, store_same, store_other _ _ _ _ hne, hS, hself,
    store_store, Bet.settled]

/-- The result of `UpdateBet` with target `WON` on a `PLACED` bet whose owner
exists. -/
theorem UpdateBet_won (r : InMemoryBetRepository) (bet existingBet user : Ptr) (now : Nat)
    (hGet : r.bets.get (r.betMem bet).ID = some existingBet)
    (hPlaced : (r.betMem existingBet).Status = StatusPlaced)
    (hOwner : r.users.get (r.betMem existingBet).UserID = some user)
    (hS : (r.betMem bet).Status = StatusWon) :
    UpdateBet r bet now =
      (none,
       { r with
         betMem := store r.betMem existingBet ((r.betMem existingBet).settled StatusWon now),
         userMem := store r.userMem user
           ((r.userMem user).credited
             ((r.betMem existingBet).Amount * (r.betMem existingBet).Odds) now),
         users := r.users.set (r.userMem user).ID user }) := by
  have hne : bet ≠ existingBet := arg_ne_stored r bet existingBet hPlaced (Or.inl hS)
  have hself : r.bets.set (r.betMem bet).ID existingBet = r.bets :=
    GoMap.set_get_self _ _ _ hGet
  simp [UpdateBet, hGet, hPlaced, store_same, store_other _ _ _ _ hne, hS, hself, hOwner,
    store_store, Bet.settled, User.credited]

/-- The result of `UpdateBet` with target `WON` on a `PLACED` bet whose owner
is not in the user map: the error comes after the writes to the bet. -/
theorem UpdateBet_won_orphan (r : InMemoryBetRepository) (bet existingBet : Ptr) (now : Nat)
    (hGet : r.bets.get (r.betMem bet).ID = some existingBet)
    (hPlaced : (r.betMem existingBet).Status = StatusPlaced)
    (hOwner : r.users.get (r.betMem existingBet).UserID = none)
    (hS : (r.betMem bet).Status = StatusWon) :
    UpdateBet r bet now =
      (some (.Errorf ("internal error: user " ++ (r.betMem existingBet).UserID ++
        " not found for winning bet " ++ (r.betMem bet).ID)),
       { r with
         betMem := store r.betMem existingBet
           ((r.betMem existingBet).settled StatusWon now) }) := by
  have hne : bet ≠ existingBet := arg_ne_stored r bet existingBet hPlaced (Or.inl hS)
  have hself : r.bets.set (r.betMem bet).ID existingBet = r.bets :=
    GoMap.set_get_self _ _ _ hGet
  simp [UpdateBet, hGet, hPlaced, store_same, store_other _ _ _ _ hne, hS, hself, hOwner,
    store_store, Bet.settled]

/-- The result of `UpdateBet` on a bet whose stored status is not `PLACED`. -/
theorem UpdateBet_conflict (r : InMemoryBetRepository) (bet existingBet : Ptr) (now : Nat)
    (hGet : r.bets.get (r.betMem bet).ID = some existingBet)
    (hSettled : (r.betMem existingBet).Status ≠ StatusPlaced) :
    UpdateBet r bet now =
      (some (.ErrorConflict ("bet " ++ (r.betMem bet).ID ++ " already settled with status " ++
        (r.betMem existingBet).Status)), r) := by
  simp [UpdateBet, hGet, hSettled]

/-- C6: on a stored bet that is `PLACED` and whose owner exists, `UpdateBet`
with an argument record carrying the ID and a target `WON` or `LOST` succeeds,
sets the stored status to the target and records the settlement time; for
`WON` the balance of the owner grows by the stored amount times the stored
odds and every other user record is as before, for `LOST` the user memory and
the user map are as before; every other bet record and both bet maps are
unchanged. -/
theorem C6_updateBet_success (r : InMemoryBetRepository) (bet existingBet user : Ptr)
    (now : Nat)
    (hGet : r.bets.get (r.betMem bet).ID = some existingBet)
    (hPlaced : (r.betMem existingBet).Status = StatusPlaced)
    (hOwner : r.users.get (r.betMem existingBet).UserID = some user)
    (hS : (r.betMem bet).Status = StatusWon ∨ (r.betMem bet).Status = StatusLost) :
    (UpdateBet r bet now).1 = none ∧
    (UpdateBet r bet now).2.betMem existingBet =
      (r.betMem existingBet).settled (r.betMem bet).Status now ∧
    ((r.betMem bet).Status = StatusWon →
      ((UpdateBet r bet now).2.userMem user).Balance =
        (r.userMem user).Balance + (r.betMem existingBet).Amount * (r.betMem existingBet).Odds ∧
      (∀ q, q ≠ user → (UpdateBet r bet now).2.userMem q = r.userMem q) ∧
      (UpdateBet r bet now).2.users.get (r.betMem existingBet).UserID = some user ∧
      (∀ k, k ≠ (r.userMem user).ID → (UpdateBet r bet now).2.users.get k = r.users.get k)) ∧
    ((r.betMem bet).Status = StatusLost →
      (UpdateBet r bet now).2.userMem = r.userMem ∧ (UpdateBet r bet now).2.users = r.users) ∧
    (∀ q, q ≠ existingBet → (UpdateBet r bet now).2.betMem q = r.betMem q) ∧
    (UpdateBet r bet now).2.bets = r.bets ∧
    (UpdateBet r bet now).2.betsByEvent = r.betsByEvent := by
  have hne : bet ≠ existingBet := arg_ne_stored r bet existingBet hPlaced hS
  rcases hS with hW | hL
  · rw [UpdateBet_won r bet existingBet user now hGet hPlaced hOwner hW]
    refine ⟨rfl, ?_, ?_, ?_, ?_, rfl, rfl⟩
    · simp [store_same, hW]
    · intro _
      refine ⟨by simp [store_same, User.credited], ?_, ?_, ?_⟩
      · intro q hq; simp [store_other, hq]
      · simp only [GoMap.get_set]; split <;> simp [hOwner]
      · intro k hk; simp [GoMap.get_set, hk]
    · intro h; rw [hW] at h; exact absurd h (by decide)
    · intro q hq; simp [store_other, hq]
  · have hnw : (r.betMem bet).Status ≠ StatusWon := by rw [hL]; decide
    rw [UpdateBet_not_won r bet existingBet now hGet hPlaced hne hnw]
    refine ⟨rfl, ?_, ?_, ?_, ?_, rfl, rfl⟩
    · simp [store_same]
    · intro h; exact absurd h hnw
    · intro _; exact ⟨rfl, rfl⟩
    · intro q hq; simp [store_other, hq]

/-- C6 at a concrete store: bet `b1` of the scenario is settled as `WON`
through a separate record, and the balance goes from 900 to 900 + 100 * 2. -/
theorem C6_updateBet_success_witness :
    (UpdateBet settleStore 1 3).1 = none ∧
    ((UpdateBet settleStore 1 3).2.betMem 0).Status = StatusWon ∧
    ((UpdateBet settleStore 1 3).2.betMem 0).SettledAt = some 3 ∧
    ((UpdateBet settleStore 1 3).2.userMem 0).Balance = 1100 := by
  have hGet : settleStore.bets.get (settleStore.betMem 1).ID = some 0 := by
    rw [settleStore_eq]; simp [store_apply, GoMap.get]
  have hPlaced : (settleStore.betMem 0).Status = StatusPlaced := by
    rw [settleStore_eq]; simp [store_apply, StatusPlaced]
  have hOwner : settleStore.users.get (settleStore.betMem 0).UserID = some 0 := by
    rw [settleStore_eq]; simp [store_apply, GoMap.get]
  have hW : (settleStore.betMem 1).Status = StatusWon := by
    rw [settleStore_eq]; simp [store_apply, StatusWon]
  have h := C6_updateBet_success settleStore 1 0 0 3 hGet hPlaced hOwner (Or.inl hW)
  refine ⟨h.1, ?_, ?_, ?_⟩
  · rw [h.2.1]; exact hW
  · rw [h.2.1]; rfl
  · rw [(h.2.2.1 hW).1, settleStore_eq]
    simp [store_apply]
    norm_num

/-- C7: `UpdateBet` on a bet ID whose stored status is not `PLACED` fails
with `ErrorConflict` and returns the store as it was; hence of two calls in a
row with target `WON` on one `PLACED` bet whose owner exists, the first
succeeds, the second fails with `ErrorConflict`, and the balance of the owner
after both is the original balance plus amount times odds, once. -/
theorem C7_updateBet_conflict :
    (∀ (r : InMemoryBetRepository) (bet existingBet : Ptr) (now : Nat),
      r.bets.get (r.betMem bet).ID = some existingBet →
      (r.betMem existingBet).Status ≠ StatusPlaced →
      (UpdateBet r bet now).1 = some (.ErrorConflict ("bet " ++ (r.betMem bet).ID ++
        " already settled with status " ++ (r.betMem existingBet).Status)) ∧
      (UpdateBet r bet now).2 = r) ∧
    (∀ (r : InMemoryBetRepository) (bet existingBet user : Ptr) (now later : Nat),
      r.bets.get (r.betMem bet).ID = some existingBet →
      (r.betMem existingBet).Status = StatusPlaced →
      r.users.get (r.betMem existingBet).UserID = some user →
      (r.betMem bet).Status = StatusWon →
      (UpdateBet r bet now).1 = none ∧
      (UpdateBet (UpdateBet r bet now).2 bet later).1 =
        some (.ErrorConflict ("bet " ++ (r.betMem bet).ID ++
          " already settled with status " ++ StatusWon)) ∧
      (UpdateBet (UpdateBet r bet now).2 bet later).2 = (UpdateBet r bet now).2 ∧
      ((UpdateBet (UpdateBet r bet now).2 bet later).2.userMem user).Balance =
        (r.userMem user).Balance +
          (r.betMem existingBet).Amount * (r.betMem existingBet).Odds) := by
  constructor
  · intro r bet existingBet now hGet hSettled
    rw [UpdateBet_conflict r bet existingBet now hGet hSettled]
    exact ⟨rfl, rfl⟩
  · intro r bet existingBet user now later hGet hPlaced hOwner hW
    have hne : bet ≠ existingBet := arg_ne_stored r bet existingBet hPlaced (Or.inl hW)
    rw [UpdateBet_won r bet existingBet user now hGet hPlaced hOwner hW]
    have hGet2 : r.bets.get
        ((store r.betMem existingBet ((r.betMem existingBet).settled StatusWon now)) bet).ID =
        some existingBet := by
      rw [store_other _ _ _ _ hne]; exact hGet
    have hSettled : ((store r.betMem existingBet
        ((r.betMem existingBet).settled StatusWon now)) existingBet).Status ≠ StatusPlaced := by
      rw [store_same]; simp [Bet.settled]; decide
    refine ⟨rfl, ?_, ?_, ?_⟩
    · rw [UpdateBet_conflict _ bet existingBet later hGet2 hSettled]
      simp [store_same, store_other _ _ _ _ hne, Bet.settled]
    · rw [UpdateBet_conflict _ bet existingBet later hGet2 hSettled]
    · rw [UpdateBet_conflict _ bet existingBet later hGet2 hSettled]
      simp [store_same, User.credited]

/-- C7 at a concrete store: bet `b1` of the scenario is settled as `WON`
twice; the second call is a conflict and the balance is 1100, not 1300. -/
theorem C7_updateBet_conflict_witness :
    (UpdateBet settleStore 1 3).1 = none ∧
    (UpdateBet (UpdateBet settleStore 1 3).2 1 4).1 =
      some (.ErrorConflict "bet b1 already settled with status WON") ∧
    ((UpdateBet (UpdateBet settleStore 1 3).2 1 4).2.userMem 0).Balance = 1100 := by
  have hGet : settleStore.bets.get (settleStore.betMem 1).ID = some 0 := by
    rw [settleStore_eq]; simp [store_apply, GoMap.get]
  have hPlaced : (settleStore.betMem 0).Status = StatusPlaced := by
    rw [settleStore_eq]; simp [store_apply, StatusPlaced]
  have hOwner : settleStore.users.get (settleStore.betMem 0).UserID = some 0 := by
    rw [settleStore_eq]; simp [store_apply, GoMap.get]
  have hW : (settleStore.betMem 1).Status = StatusWon := by
    rw [settleStore_eq]; simp [store_apply, StatusWon]
  have hID : (settleStore.betMem 1).ID = "b1" := by
    rw [settleStore_eq]; simp [store_apply]
  have h := C7_updateBet_conflict.2 settleStore 1 0 0 3 4 hGet hPlaced hOwner hW
  refine ⟨h.1, ?_, ?_⟩
  · rw [h.2.1, hID]; rfl
  · rw [h.2.2.2, settleStore_eq]
    simp [store_apply]
    norm_num

/-- C9: in the store reached by creating `u1`, placing bet `b1`, and deleting
`u1` through the repository, `UpdateBet` with target `WON` on `b1` fails with
the internal error, but the stored bet, `PLACED` with no settlement time
before the call, is `WON` with settlement time 3 after it. -/
theorem C9_updateBet_orphan_writes_before_failing :
    (orphanStore.betMem 0).Status = StatusPlaced ∧
    (orphanStore.betMem 0).SettledAt = none ∧
    orphanStore.bets.get "b1" = some 0 ∧
    orphanStore.users.get (orphanStore.betMem 0).UserID = none ∧
    (UpdateBet orphanStore 1 3).1 =
      some (.Errorf "internal error: user u1 not found for winning bet b1") ∧
    ((UpdateBet orphanStore 1 3).2.betMem 0).Status = StatusWon ∧
    ((UpdateBet orphanStore 1 3).2.betMem 0).SettledAt = some 3 := by
  have hGet : orphanStore.bets.get (orphanStore.betMem 1).ID = some 0 := by
    rw [orphanStore_eq]; simp [store_apply, GoMap.get]
  have hPlaced : (orphanStore.betMem 0).Status = StatusPlaced := by
    rw [orphanStore_eq]; simp [store_apply, StatusPlaced]
  have hOwner : orphanStore.users.get (orphanStore.betMem 0).UserID = none := by
    rw [orphanStore_eq]; simp [store_apply, GoMap.get]
  have hW : (orphanStore.betMem 1).Status = StatusWon := by
    rw [orphanStore_eq]; simp [store_apply, StatusWon]
  rw [UpdateBet_won_orphan orphanStore 1 0 3 hGet hPlaced hOwner hW]
  refine ⟨hPlaced, ?_, ?_, hOwner, ?_, ?_, ?_⟩
  · rw [orphanStore_eq]; simp [store_apply]
  · rw [orphanStore_eq]; simp [GoMap.get]
  · rw [orphanStore_eq]; simp [store_apply]
  · simp [store_same, Bet.settled]
  · simp [store_same, Bet.settled]

/-! ## DeleteUser -/

/-- C10, as the code has it: for a non-empty ID, `DeleteUser` of the service
is `DeleteUser` of the repository; on a user that is in the user map it
succeeds whether or not the user owns `PLACED` bets, after which the user is
not in the map, every other key is as before, and no bet record, bet map or
user record is touched; on a user that is not in the map it fails with
`ErrorNotFound` and returns the store as it was. -/
theorem C10_deleteUser_removes (r : InMemoryBetRepository) (userID : String)
    (hID : userID ≠ "") :
    BetService.DeleteUser r userID = DeleteUser r userID ∧
    (∀ user, r.users.get userID = some user →
      (DeleteUser r userID).1 = none ∧
      (DeleteUser r userID).2.users.get userID = none ∧
      (∀ k, k ≠ userID → (DeleteUser r userID).2.users.get k = r.users.get k) ∧
      (DeleteUser r userID).2.betMem = r.betMem ∧
      (DeleteUser r userID).2.bets = r.bets ∧
      (DeleteUser r userID).2.betsByEvent = r.betsByEvent ∧
      (DeleteUser r userID).2.userMem = r.userMem) ∧
    (r.users.get userID = none →
      DeleteUser r userID = (some (.ErrorNotFound "User" userID), r)) := by
  refine ⟨by simp [BetService.DeleteUser, hID], ?_, ?_⟩
  · intro user hUser
    have hout : DeleteUser r userID = (none, { r with users := r.users.delete userID }) := by
      simp [DeleteUser, hUser]
    rw [hout]
    refine ⟨rfl, ?_, ?_, rfl, rfl, rfl, rfl⟩
    · simp [GoMap.get_delete]
    · intro k hk; simp [GoMap.get_delete, hk]
  · intro hNone
    simp [DeleteUser, hNone]

/-- C10 at the scenario: `u1`, owner of the `PLACED` bet `b1`, is deleted
and is gone. -/
theorem C10_deleteUser_removes_witness :
    (DeleteUser scenario "u1").1 = none ∧
    (DeleteUser scenario "u1").2.users.get "u1" = none :=
  have h := (C10_deleteUser_removes scenario "u1" (by decide)).2.1 0
    (by rw [scenario_eq]; simp [GoMap.get])
  ⟨h.1, h.2.1⟩

/-- C10 fails as stated: in the scenario user `u1` owns bet `b1`, which is
`PLACED`, yet `DeleteUser` through the service reports no error and removes
`u1`, leaving a `PLACED` bet whose owner is not in the user map. -/
theorem C10_deleteUser_counterexample :
    scenario.bets.get "b1" = some 0 ∧
    (scenario.betMem 0).Status = StatusPlaced ∧
    (scenario.betMem 0).UserID = "u1" ∧
    scenario.users.get "u1" = some 0 ∧
    (BetService.DeleteUser scenario "u1").1 = none ∧
    (BetService.DeleteUser scenario "u1").2.users.get "u1" = none ∧
    (BetService.DeleteUser scenario "u1").2.bets.get "b1" = some 0 ∧
    ((BetService.DeleteUser scenario "u1").2.betMem 0).Status = StatusPlaced := by
  rw [scenario_eq]
  simp [BetService.DeleteUser, DeleteUser, GoMap.get, GoMap.delete, store_apply, StatusPlaced]

/-! ## BetService.SettleBetsForEvent -/

/-- C8: when the event is unknown or none of its indexed bets is `PLACED`,
`SettleBetsForEvent` with result `win` or `lose` fails with `ErrorNotFound`
and returns the store as it was. -/
theorem C8_settle_nothing_open (r : InMemoryBetRepository) (eventID result : String)
    (now : Nat) (hRes : result = "win" ∨ result = "lose")
    (hNone : ∀ idx, r.betsByEvent.get eventID = some idx →
      ∀ p ∈ idx, (r.betMem p).Status ≠ StatusPlaced) :
    BetService.SettleBetsForEvent r eventID result now =
      (some (.ErrorNotFound "Placed Bets for Event" eventID), r) := by
  have hv : ¬ (result ≠ "win" ∧ result ≠ "lose") := by
    rcases hRes with h | h <;> simp [h]
  have hFind : FindBetsByEvent r eventID = .ok [] := by
    unfold FindBetsByEvent
    cases hg : r.betsByEvent.get eventID with
    | none => rfl
    | some idx =>
      have hnil : idx.filter (fun b => decide ((r.betMem b).Status = StatusPlaced)) = [] := by
        rw [List.filter_eq_nil_iff]
        intro p hp
        simpa using hNone idx hg p hp
      simp [hnil]
  simp only [BetService.SettleBetsForEvent, hv, if_false, hFind]
  simp

/-- C8 at the scenario: event `e2` has no bets. -/
theorem C8_settle_nothing_open_witness :
    BetService.SettleBetsForEvent scenario "e2" "win" 3 =
      (some (.ErrorNotFound "Placed Bets for Event" "e2"), scenario) :=
  C8_settle_nothing_open scenario "e2" "win" 3 (Or.inl rfl)
    (by rw [scenario_eq]; simp [GoMap.get])

/-- The settlement of event `e1` in the scenario with result `win`. -/
theorem settle_scenario_win :
    BetService.SettleBetsForEvent scenario "e1" "win" 3 =
      (some (.Wrapf "failed to settle bet b1: "
        (.ErrorConflict "bet b1 already settled with status WON")),
       { scenario with
         betMem := store scenario.betMem 0
           ⟨"b1", "u1", "e1", 2, 100, "WON", some 2, none⟩ }) := by
  rw [scenario_eq]
  simp [BetService.SettleBetsForEvent, FindBetsByEvent, BetService.settleStep,
    BetService.setStatus, UpdateBet, GoMap.get, store_same, StatusPlaced, StatusWon]

/-- C3: in the scenario of the specification (balance 900 after the stake),
`SettleBetsForEvent` with result `win` leaves the bet `WON` but credits
nothing: the balance is still 900, not 1100, and no settlement time is set. -/
theorem C3_settle_win_credits_nothing :
    (scenario.betMem 0).Status = StatusPlaced ∧
    (scenario.userMem 0).Balance = 900 ∧
    ((BetService.SettleBetsForEvent scenario "e1" "win" 3).2.betMem 0).Status = StatusWon ∧
    ((BetService.SettleBetsForEvent scenario "e1" "win" 3).2.betMem 0).SettledAt = none ∧
    ((BetService.SettleBetsForEvent scenario "e1" "win" 3).2.userMem 0).Balance = 900 := by
  rw [settle_scenario_win]
  refine ⟨?_, ?_, ?_, ?_, ?_⟩
  · rw [scenario_eq]; simp [store_same, StatusPlaced]
  · rw [scenario_eq]; simp [store_same]
  · simp [store_same, StatusWon]
  · simp [store_same]
  · rw [scenario_eq]; simp [store_same]

/-- C4: in the scenario of the specification, where event `e1` has one
`PLACED` bet whose owner exists, `SettleBetsForEvent` returns an error: the
conflict raised by `UpdateBet`, wrapped by `fmt.Errorf`. -/
theorem C4_settle_returns_error :
    FindBetsByEvent scenario "e1" = .ok [0] ∧
    scenario.users.get (scenario.betMem 0).UserID = some 0 ∧
    (BetService.SettleBetsForEvent scenario "e1" "win" 3).1 =
      some (.Wrapf "failed to settle bet b1: "
        (.ErrorConflict "bet b1 already settled with status WON")) ∧
    (BetService.SettleBetsForEvent scenario "e1" "lose" 3).1 =
      some (.Wrapf "failed to settle bet b1: "
        (.ErrorConflict "bet b1 already settled with status LOST")) := by
  refine ⟨?_, ?_, ?_, ?_⟩
  · rw [scenario_eq]; simp [FindBetsByEvent, GoMap.get, store_same, StatusPlaced]
  · rw [scenario_eq]; simp [GoMap.get, store_same]
  · rw [settle_scenario_win]
  · rw [scenario_eq]
    simp [BetService.SettleBetsForEvent, FindBetsByEvent, BetService.settleStep,
      BetService.setStatus, UpdateBet, GoMap.get, store_same, StatusPlaced, StatusLost]

/-- The result of `FindBetsByEvent` on an indexed event. -/
theorem FindBetsByEvent_indexed (r : InMemoryBetRepository) (eventID : String)
    (idx : List Ptr) (hIdx : r.betsByEvent.get eventID = some idx) :
    FindBetsByEvent r eventID =
      .ok (idx.filter (fun b => decide ((r.betMem b).Status = StatusPlaced))) := by
  unfold FindBetsByEvent
  simp only [hIdx]
  split
  · next h => rw [List.length_eq_zero.mp h]
  · rfl

/-- One turn of the settlement loop leaves the store that `UpdateBet` returns. -/
theorem settleStep_store (s : BetStatus) (now : Nat)
    (acc : Option Error × InMemoryBetRepository) (bet : Ptr) :
    (BetService.settleStep s now acc bet).2 =
      (UpdateBet (BetService.setStatus acc.2 bet s) bet now).2 := by
  unfold BetService.settleStep
  simp only []
  split
  · split <;> simp_all
  · simp_all

/-- With an argument that carries `LOST`, `UpdateBet` touches no user and
turns no `LOST` record into anything else. -/
theorem UpdateBet_lost_frame (r : InMemoryBetRepository) (bet : Ptr) (now : Nat)
    (hL : (r.betMem bet).Status = StatusLost) :
    (UpdateBet r bet now).2.userMem = r.userMem ∧
    (UpdateBet r bet now).2.users = r.users ∧
    (∀ q, (r.betMem q).Status = StatusLost →
      ((UpdateBet r bet now).2.betMem q).Status = StatusLost) := by
  cases hg : r.bets.get (r.betMem bet).ID with
  | none =>
    have hout : UpdateBet r bet now = (some (.ErrorNotFound "Bet" (r.betMem bet).ID), r) := by
      simp [UpdateBet, hg]
    rw [hout]
    exact ⟨rfl, rfl, fun _ h => h⟩
  | some existingBet =>
    by_cases hst : (r.betMem existingBet).Status = StatusPlaced
    · have hne : bet ≠ existingBet :=
        arg_ne_stored r bet existingBet hst (Or.inr hL)
      have hnw : (r.betMem bet).Status ≠ StatusWon := by rw [hL]; decide
      rw [UpdateBet_not_won r bet existingBet now hg hst hne hnw]
      refine ⟨rfl, rfl, ?_⟩
      intro q hq
      by_cases hqe : q = existingBet
      · subst hqe; simp [store_same, Bet.settled, hL]
      · simp [store_other _ _ _ _ hqe, hq]
    · rw [UpdateBet_conflict r bet existingBet now hg hst]
      exact ⟨rfl, rfl, fun _ h => h⟩

/-- One turn of the settlement loop with target `LOST`. -/
theorem settleStep_lost (now : Nat) (acc : Option Error × InMemoryBetRepository)
    (bet : Ptr) :
    (BetService.settleStep StatusLost now acc bet).2.userMem = acc.2.userMem ∧
    (BetService.settleStep StatusLost now acc bet).2.users = acc.2.users ∧
    (∀ q, ((acc.2.betMem q).Status = StatusLost ∨ q = bet) →
      ((BetService.settleStep StatusLost now acc bet).2.betMem q).Status = StatusLost) := by
  rw [settleStep_store]
  have h := UpdateBet_lost_frame (BetService.setStatus acc.2 bet StatusLost) bet now
    (by simp [BetService.setStatus, store_same])
  refine ⟨h.1, h.2.1, ?_⟩
  intro q hq
  apply h.2.2
  by_cases hqb : q = bet
  · subst hqb; simp [BetService.setStatus, store_same]
  · rcases hq with hq | hq
    · simp [BetService.setStatus, store_other _ _ _ _ hqb, hq]
    · exact absurd hq hqb

/-- The settlement loop with target `LOST` over a list of bets. -/
theorem settle_fold_lost (now : Nat) (l : List Ptr) :
    ∀ acc : Option Error × InMemoryBetRepository,
    (l.foldl (BetService.settleStep StatusLost now) acc).2.userMem = acc.2.userMem ∧
    (l.foldl (BetService.settleStep StatusLost now) acc).2.users = acc.2.users ∧
    (∀ q, ((acc.2.betMem q).Status = StatusLost ∨ q ∈ l) →
      ((l.foldl (BetService.settleStep StatusLost now) acc).2.betMem q).Status =
        StatusLost) := by
  induction l with
  | nil =>
    intro acc
    refine ⟨rfl, rfl, ?_⟩
    intro q hq
    rcases hq with hq | hq
    · exact hq
    · cases hq
  | cons p tl ih =>
    intro acc
    have hs := settleStep_lost now acc p
    have ht := ih (BetService.settleStep StatusLost now acc p)
    simp only [List.foldl_cons]
    refine ⟨ht.1.trans hs.1, ht.2.1.trans hs.2.1, ?_⟩
    intro q hq
    apply ht.2.2
    rcases hq with hq | hq
    · exact Or.inl (hs.2.2 q (Or.inl hq))
    · rcases List.mem_cons.mp hq with hq | hq
      · exact Or.inl (hs.2.2 q (Or.inr hq))
      · exact Or.inr hq

/-- C5: when the event has at least one `PLACED` bet in its index, after
`SettleBetsForEvent` with result `lose` every bet of the index that was
`PLACED` has status `LOST`, and the user memory and the user map, hence every
balance, are exactly as before the call. -/
theorem C5_settle_lose (r : InMemoryBetRepository) (eventID : String) (now : Nat)
    (idx : List Ptr) (hIdx : r.betsByEvent.get eventID = some idx)
    (hOpen : ∃ p ∈ idx, (r.betMem p).Status = StatusPlaced) :
    (∀ p ∈ idx, (r.betMem p).Status = StatusPlaced →
      ((BetService.SettleBetsForEvent r eventID "lose" now).2.betMem p).Status =
        StatusLost) ∧
    (BetService.SettleBetsForEvent r eventID "lose" now).2.userMem = r.userMem ∧
    (BetService.SettleBetsForEvent r eventID "lose" now).2.users = r.users := by
  obtain ⟨p0, hp0, hp0s⟩ := hOpen
  have hmem : ∀ p ∈ idx, (r.betMem p).Status = StatusPlaced →
      p ∈ idx.filter (fun b => decide ((r.betMem b).Status = StatusPlaced)) := by
    intro p hp hs
    exact List.mem_filter.mpr ⟨hp, by simpa using hs⟩
  have hlen : (idx.filter (fun b => decide ((r.betMem b).Status = StatusPlaced))).length ≠ 0 := by
    intro h
    have := hmem p0 hp0 hp0s
    rw [List.length_eq_zero.mp h] at this
    cases this
  have hout : BetService.SettleBetsForEvent r eventID "lose" now =
      (idx.filter (fun b => decide ((r.betMem b).Status = StatusPlaced))).foldl
        (BetService.settleStep StatusLost now) (none, r) := by
    simp only [BetService.SettleBetsForEvent, FindBetsByEvent_indexed r eventID idx hIdx]
    simp [hlen]
  rw [hout]
  have h := settle_fold_lost now
    (idx.filter (fun b => decide ((r.betMem b).Status = StatusPlaced))) (none, r)
  refine ⟨?_, h.1, h.2.1⟩
  intro p hp hs
  exact h.2.2 p (Or.inr (hmem p hp hs))

/-- C5 at the scenario: bet `b1` becomes `LOST` and the balance stays 900. -/
theorem C5_settle_lose_witness :
    ((BetService.SettleBetsForEvent scenario "e1" "lose" 3).2.betMem 0).Status = StatusLost ∧
    (BetService.SettleBetsForEvent scenario "e1" "lose" 3).2.userMem = scenario.userMem := by
  have hIdx : scenario.betsByEvent.get "e1" = some [0] := by
    rw [scenario_eq]; simp [GoMap.get]
  have hP : (scenario.betMem 0).Status = StatusPlaced := by
    rw [scenario_eq]; simp [store_same, StatusPlaced]
  have h := C5_settle_lose scenario "e1" 3 [0] hIdx ⟨0, by simp, hP⟩
  exact ⟨h.1 0 (by simp) hP, h.2.1⟩

/-! ## Failing calls that leave the store alone -/

/-- C13: when the `UserID` of the bet argument is not a key of the user map,
`PlaceBet` fails with `ErrorNotFound` for entity `User` and that ID, and the
store is returned as it was: no bet recorded or indexed, no user created. -/
theorem C13_placeBet_unknown_user (r : InMemoryBetRepository) (bet : Ptr)
    (newID : String) (now : Nat)
    (hUser : r.users.get (r.betMem bet).UserID = none) :
    PlaceBet r bet newID now = (.error (.ErrorNotFound "User" (r.betMem bet).UserID), r) := by
  simp [PlaceBet, hUser]

/-- C13 at the empty store, with the zero record as argument. -/
theorem C13_placeBet_unknown_user_witness :
    PlaceBet NewInMemoryBetRepository 0 "b1" 1 =
      (.error (.ErrorNotFound "User" (NewInMemoryBetRepository.betMem 0).UserID),
       NewInMemoryBetRepository) :=
  C13_placeBet_unknown_user NewInMemoryBetRepository 0 "b1" 1 (by decide)

/-- C14: with a result other than exactly `win` or `lose`,
`SettleBetsForEvent` fails with `ErrorBadRequest` and returns the store as it
was, whatever bets the event has. -/
theorem C14_settle_invalid_result (r : InMemoryBetRepository) (eventID result : String)
    (now : Nat) (hW : result ≠ "win") (hL : result ≠ "lose") :
    BetService.SettleBetsForEvent r eventID result now =
      (some (.ErrorBadRequest ("invalid settlement result \x27" ++ result ++
        "\x27, must be \x27win\x27 or \x27lose\x27") ""), r) := by
  simp [BetService.SettleBetsForEvent, hW, hL]

/-- C14 at the scenario: the result `draw` on event `e1`, which has an open
bet. -/
theorem C14_settle_invalid_result_witness :
    BetService.SettleBetsForEvent scenario "e1" "draw" 3 =
      (some (.ErrorBadRequest ("invalid settlement result \x27" ++ "draw" ++
        "\x27, must be \x27win\x27 or \x27lose\x27") ""), scenario) :=
  C14_settle_invalid_result scenario "e1" "draw" 3 (by decide) (by decide)

/-! ## User creation -/

/-- The result of `CreateUser` on an ID that is not in the user map. -/
theorem CreateUser_new (r : InMemoryBetRepository) (user : Ptr) (now : Nat)
    (hNone : r.users.get (r.userMem user).ID = none) :
    CreateUser r user now =
      (.ok user,
       { r with
         userMem := store r.userMem user
           ⟨(r.userMem user).ID,
            if (r.userMem user).Balance = 0 then 1000 else (r.userMem user).Balance,
            some now, some now⟩,
         users := r.users.set (r.userMem user).ID user }) := by
  by_cases hb : (r.userMem user).Balance = 0 <;> simp [CreateUser, hNone, hb]

/-- C19: `CreateUser` fails, and then with `ErrorConflict`, exactly when the
ID of the argument is already a key of the user map, and it then returns the
store as it was; otherwise it returns the argument, stored under its ID, with
the supplied balance, or 1000 when that is 0, and changes no other user
record, no other key of the user map and nothing about bets. -/
theorem C19_createUser (r : InMemoryBetRepository) (user : Ptr) (now : Nat) :
    ((∃ e, (CreateUser r user now).1 = .error e) ↔
      ∃ q, r.users.get (r.userMem user).ID = some q) ∧
    (∀ q, r.users.get (r.userMem user).ID = some q →
      CreateUser r user now =
        (.error (.ErrorConflict ("user with ID \x27" ++ (r.userMem user).ID ++
          "\x27 already exists")), r)) ∧
    (r.users.get (r.userMem user).ID = none →
      (CreateUser r user now).1 = .ok user ∧
      (CreateUser r user now).2.users.get (r.userMem user).ID = some user ∧
      ((CreateUser r user now).2.userMem user).ID = (r.userMem user).ID ∧
      ((CreateUser r user now).2.userMem user).Balance =
        (if (r.userMem user).Balance = 0 then 1000 else (r.userMem user).Balance) ∧
      (∀ q, q ≠ user → (CreateUser r user now).2.userMem q = r.userMem q) ∧
      (∀ k, k ≠ (r.userMem user).ID →
        (CreateUser r user now).2.users.get k = r.users.get k) ∧
      (CreateUser r user now).2.betMem = r.betMem ∧
      (CreateUser r user now).2.bets = r.bets ∧
      (CreateUser r user now).2.betsByEvent = r.betsByEvent) := by
  have hConf : ∀ q, r.users.get (r.userMem user).ID = some q →
      CreateUser r user now =
        (.error (.ErrorConflict ("user with ID \x27" ++ (r.userMem user).ID ++
          "\x27 already exists")), r) := by
    intro q hq
    simp [CreateUser, hq]
  refine ⟨?_, hConf, ?_⟩
  · constructor
    · rintro ⟨e, he⟩
      cases hg : r.users.get (r.userMem user).ID with
      | none =>
        rw [CreateUser_new r user now hg] at he
        cases he
      | some q => exact ⟨q, rfl⟩
    · rintro ⟨q, hq⟩
      rw [hConf q hq]
      exact ⟨_, rfl⟩
  · intro hNone
    rw [CreateUser_new r user now hNone]
    refine ⟨rfl, ?_, ?_, ?_, ?_, ?_, rfl, rfl, rfl⟩
    · simp [GoMap.get_set_same]
    · simp [store_same]
    · simp [store_same]
    · intro q hq; simp [store_other, hq]
    · intro k hk; simp [GoMap.get_set, hk]

/-- C19 at the scenario: a second `u1` is refused and the balance of 900 is
kept; a new `u2` with no balance given gets 1000. -/
theorem C19_createUser_witness :
    (CreateUser (newUser scenario ⟨"u1", 0, none, none⟩).2 1 5).1 =
      .error (.ErrorConflict "user with ID \x27u1\x27 already exists") ∧
    ((CreateUser (newUser scenario ⟨"u1", 0, none, none⟩).2 1 5).2.userMem 0).Balance = 900 ∧
    ((CreateUser (newUser scenario ⟨"u2", 0, none, none⟩).2 1 5).2.userMem 1).Balance = 1000 := by
  have hA : (newUser scenario ⟨"u1", 0, none, none⟩).2.users.get
      (((newUser scenario ⟨"u1", 0, none, none⟩).2.userMem 1).ID) = some 0 := by
    rw [scenario_eq]; simp [newUser, store_apply, GoMap.get]
  have hB : (newUser scenario ⟨"u2", 0, none, none⟩).2.users.get
      (((newUser scenario ⟨"u2", 0, none, none⟩).2.userMem 1).ID) = none := by
    rw [scenario_eq]; simp [newUser, store_apply, GoMap.get]
  have h1 := (C19_createUser (newUser scenario ⟨"u1", 0, none, none⟩).2 1 5).2.1 0 hA
  have h2 := (C19_createUser (newUser scenario ⟨"u2", 0, none, none⟩).2 1 5).2.2 hB
  refine ⟨?_, ?_, ?_⟩
  · rw [h1]; rw [scenario_eq]; simp [newUser, store_apply]
  · rw [h1]; rw [scenario_eq]; simp [newUser, store_apply]
  · rw [h2.2.2.2.1]; rw [scenario_eq]; simp [newUser, store_apply]

/-- The result of `FindOrCreateUser` on an ID that is not in the user map. -/
theorem FindOrCreateUser_new (r : InMemoryBetRepository) (userID : String) (now : Nat)
    (hNone : r.users.get userID = none) :
    FindOrCreateUser r userID now =
      (.ok r.nextUser,
       { r with
         userMem := store r.userMem r.nextUser ⟨userID, 1000, some now, some now⟩,
         nextUser := r.nextUser + 1,
         users := r.users.set userID r.nextUser }) := by
  have hID : ((newUser r { User.zero with ID := userID }).2.userMem
      (newUser r { User.zero with ID := userID }).1).ID = userID := by
    simp [newUser, store_same]
  have hNone2 : (newUser r { User.zero with ID := userID }).2.users.get
      ((newUser r { User.zero with ID := userID }).2.userMem
        (newUser r { User.zero with ID := userID }).1).ID = none := by
    rw [hID]; exact hNone
  have h := CreateUser_new _ _ now hNone2
  simp only [FindOrCreateUser, hNone, h]
  simp [newUser, store_same, store_store, User.zero]

/-- C20: run on its own, `FindOrCreateUser` never fails.  On an ID in the
user map it returns the stored user and the store as it was; on an ID not in
the map it returns a new record with that ID and balance 1000, stored under
the ID, and changes no other user record and no other key; and a second call
right after the first returns the same user and the same store. -/
theorem C20_findOrCreateUser (r : InMemoryBetRepository) (userID : String)
    (now later : Nat) :
    (∀ user, r.users.get userID = some user →
      FindOrCreateUser r userID now = (.ok user, r)) ∧
    (r.users.get userID = none →
      (FindOrCreateUser r userID now).1 = .ok r.nextUser ∧
      (FindOrCreateUser r userID now).2.users = r.users.set userID r.nextUser ∧
      (FindOrCreateUser r userID now).2.userMem r.nextUser =
        ⟨userID, 1000, some now, some now⟩ ∧
      (∀ q, q ≠ r.nextUser → (FindOrCreateUser r userID now).2.userMem q = r.userMem q) ∧
      (∀ k, k ≠ userID → (FindOrCreateUser r userID now).2.users.get k = r.users.get k) ∧
      (FindOrCreateUser r userID now).2.betMem = r.betMem ∧
      (FindOrCreateUser r userID now).2.bets = r.bets ∧
      (FindOrCreateUser r userID now).2.betsByEvent = r.betsByEvent) ∧
    (∃ user, (FindOrCreateUser r userID now).1 = .ok user ∧
      (FindOrCreateUser r userID now).2.users.get userID = some user ∧
      FindOrCreateUser (FindOrCreateUser r userID now).2 userID later =
        (.ok user, (FindOrCreateUser r userID now).2)) := by
  have hOld : ∀ (r0 : InMemoryBetRepository) (t : Nat) (user : Ptr),
      r0.users.get userID = some user → FindOrCreateUser r0 userID t = (.ok user, r0) := by
    intro r0 t user hu
    simp [FindOrCreateUser, hu]
  refine ⟨hOld r now, ?_, ?_⟩
  · intro hNone
    rw [FindOrCreateUser_new r userID now hNone]
    refine ⟨rfl, rfl, ?_, ?_, ?_, rfl, rfl, rfl⟩
    · simp [store_same]
    · intro q hq; simp [store_other, hq]
    · intro k hk; simp [GoMap.get_set, hk]
  · cases hg : r.users.get userID with
    | some user =>
      rw [hOld r now user hg]
      exact ⟨user, rfl, hg, hOld r later user hg⟩
    | none =>
      rw [FindOrCreateUser_new r userID now hg]
      refine ⟨r.nextUser, rfl, ?_, ?_⟩
      · simp [GoMap.get_set_same]
      · apply hOld
        simp [GoMap.get_set_same]

/-- C20 at the scenario: `u1` is found with its balance of 900, `u2` is
created with 1000, and a second call for `u2` changes nothing. -/
theorem C20_findOrCreateUser_witness :
    FindOrCreateUser scenario "u1" 5 = (.ok 0, scenario) ∧
    (FindOrCreateUser scenario "u2" 5).1 = .ok scenario.nextUser ∧
    (FindOrCreateUser scenario "u2" 5).2.userMem scenario.nextUser =
      ⟨"u2", 1000, some 5, some 5⟩ ∧
    (∃ user, (FindOrCreateUser scenario "u2" 5).1 = .ok user ∧
      (FindOrCreateUser scenario "u2" 5).2.users.get "u2" = some user ∧
      FindOrCreateUser (FindOrCreateUser scenario "u2" 5).2 "u2" 6 =
        (.ok user, (FindOrCreateUser scenario "u2" 5).2)) := by
  have h1 := (C20_findOrCreateUser scenario "u1" 5 6).1 0
    (by rw [scenario_eq]; simp [GoMap.get])
  have h2 := (C20_findOrCreateUser scenario "u2" 5 6).2.1
    (by rw [scenario_eq]; simp [GoMap.get])
  exact ⟨h1, h2.1, h2.2.2.1, (C20_findOrCreateUser scenario "u2" 5 6).2.2⟩

/-! ## The answer of the handler to a conflict -/

/-- C18: in the scenario the one attempt of the batch fails in `UpdateBet`
with `ErrorConflict`, yet the error that `SettleBetsForEvent` returns is the
`fmt.Errorf` wrapper, on which the type assertion to `*errors.ErrorConflict`
fails, and `AppHandler.SettleBet` answers with status 500, not 409. -/
theorem C18_conflict_answered_with_500 :
    (UpdateBet (BetService.setStatus scenario 0 StatusWon) 0 3).1 =
      some (.ErrorConflict "bet b1 already settled with status WON") ∧
    (BetService.SettleBetsForEvent scenario "e1" "win" 3).1 =
      some (.Wrapf "failed to settle bet b1: "
        (.ErrorConflict "bet b1 already settled with status WON")) ∧
    (Error.Wrapf "failed to settle bet b1: "
        (.ErrorConflict "bet b1 already settled with status WON")).isConflict = false ∧
    (AppHandler.SettleBet scenario "e1" (some ⟨"win"⟩) 3).1.status = 500 := by
  refine ⟨?_, ?_, rfl, ?_⟩
  · rw [scenario_eq]
    simp [BetService.setStatus, UpdateBet, GoMap.get, store_same, StatusPlaced, StatusWon]
  · rw [settle_scenario_win]
  · simp [AppHandler.SettleBet, SettleBetRequest.Validate, settle_scenario_win,
      Error.isNotFound, Error.isBadRequest, Error.isConflict]

/-! ## What UpdateBet and the settlement loop may write -/

/-- The bet memory after `UpdateBet`. -/
theorem UpdateBet_betMem (r : InMemoryBetRepository) (bet : Ptr) (now : Nat) :
    (UpdateBet r bet now).2.betMem =
      match r.bets.get (r.betMem bet).ID with
      | none => r.betMem
      | some e =>
        if (r.betMem e).Status = StatusPlaced then
          store r.betMem e ((r.betMem e).settled (r.betMem bet).Status now)
        else r.betMem := by
  cases hg : r.bets.get (r.betMem bet).ID with
  | none => simp [UpdateBet, hg]
  | some e =>
    by_cases hs : (r.betMem e).Status = StatusPlaced
    · simp only [UpdateBet, hg, hs, ne_eq, not_true_eq_false, if_false, if_true, store_same,
        store_store]
      split
      · split <;> rfl
      · rfl
    · simp [UpdateBet, hg, hs]

theorem settled_ID (r : InMemoryBetRepository) (bet e : Ptr) (st : BetStatus) (now : Nat) :
    (store r.betMem e ((r.betMem e).settled st now) bet).ID = (r.betMem bet).ID := by
  by_cases h : bet = e
  · subst h; simp [store_same, Bet.settled]
  · simp [store_other _ _ _ _ h]

/-- The maps of bets and the allocation marks are not changed by `UpdateBet`. -/
theorem UpdateBet_maps (r : InMemoryBetRepository) (bet : Ptr) (now : Nat) :
    (UpdateBet r bet now).2.bets = r.bets ∧
    (UpdateBet r bet now).2.betsByEvent = r.betsByEvent ∧
    (UpdateBet r bet now).2.nextBet = r.nextBet ∧
    (UpdateBet r bet now).2.nextUser = r.nextUser := by
  cases hg : r.bets.get (r.betMem bet).ID with
  | none => simp [UpdateBet, hg]
  | some e =>
    by_cases hs : (r.betMem e).Status = StatusPlaced
    · have hself : r.bets.set (r.betMem bet).ID e = r.bets := GoMap.set_get_self _ _ _ hg
      have hID := settled_ID r bet e (r.betMem bet).Status now
      simp only [Bet.settled] at hID
      simp only [UpdateBet, hg, hs, ne_eq, not_true_eq_false, if_false, if_true, store_same,
        store_store, hID, hself]
      split
      · split <;> simp
      · simp
    · simp [UpdateBet, hg, hs]

/-- A record that `UpdateBet` changes was `PLACED`, and the change is to its
status, now that of the argument, and to its settlement time. -/
theorem UpdateBet_cell (r : InMemoryBetRepository) (bet : Ptr) (now : Nat) (q : Ptr) :
    (UpdateBet r bet now).2.betMem q = r.betMem q ∨
    ((r.betMem q).Status = StatusPlaced ∧
      (UpdateBet r bet now).2.betMem q = (r.betMem q).settled (r.betMem bet).Status now) := by
  rw [UpdateBet_betMem]
  cases hg : r.bets.get (r.betMem bet).ID with
  | none => exact Or.inl rfl
  | some e =>
    simp only []
    by_cases hs : (r.betMem e).Status = StatusPlaced
    · rw [if_pos hs]
      by_cases hq : q = e
      · subst hq; exact Or.inr ⟨hs, by simp [store_same]⟩
      · exact Or.inl (by simp [store_other _ _ _ _ hq])
    · rw [if_neg hs]; exact Or.inl rfl

/-- The status of the argument record is the same after `UpdateBet`. -/
theorem UpdateBet_status_arg (r : InMemoryBetRepository) (bet : Ptr) (now : Nat) :
    ((UpdateBet r bet now).2.betMem bet).Status = (r.betMem bet).Status := by
  rcases UpdateBet_cell r bet now bet with h | ⟨_, h⟩
  · rw [h]
  · rw [h]; rfl

theorem setStatus_cell (r : InMemoryBetRepository) (bet : Ptr) (s : BetStatus) (q : Ptr) :
    (BetService.setStatus r bet s).betMem q =
      if q = bet then { r.betMem bet with Status := s } else r.betMem q := by
  simp [BetService.setStatus, store_apply]

/-- One attempt: every record keeps its status or takes the target, the bet
of the attempt has the target, a settlement time once set stays set, and the
index by event is as before. -/
theorem attempt_status (s : BetStatus) (now : Nat) (r : InMemoryBetRepository) (bet : Ptr) :
    (∀ q, ((BetService.attempt s now r bet).2.betMem q).Status = (r.betMem q).Status ∨
      ((BetService.attempt s now r bet).2.betMem q).Status = s) ∧
    ((BetService.attempt s now r bet).2.betMem bet).Status = s ∧
    (∀ q, (r.betMem q).SettledAt ≠ none →
      ((BetService.attempt s now r bet).2.betMem q).SettledAt ≠ none) ∧
    (BetService.attempt s now r bet).2.betsByEvent = r.betsByEvent := by
  have hArg : ((BetService.setStatus r bet s).betMem bet).Status = s := by
    simp [setStatus_cell]
  refine ⟨?_, ?_, ?_, ?_⟩
  · intro q
    rcases UpdateBet_cell (BetService.setStatus r bet s) bet now q with h | ⟨_, h⟩
    · unfold BetService.attempt
      rw [h, setStatus_cell]
      by_cases hq : q = bet
      · subst hq; simp
      · simp [hq]
    · unfold BetService.attempt
      rw [h, hArg]
      exact Or.inr rfl
  · unfold BetService.attempt
    rw [UpdateBet_status_arg, hArg]
  · intro q hq
    unfold BetService.attempt
    rcases UpdateBet_cell (BetService.setStatus r bet s) bet now q with h | ⟨_, h⟩
    · rw [h, setStatus_cell]
      by_cases hqb : q = bet
      · subst hqb; simpa using hq
      · simpa [hqb] using hq
    · rw [h]; simp [Bet.settled]
  · unfold BetService.attempt
    rw [(UpdateBet_maps _ bet now).2.1]
    rfl

/-- The whole batch: the same four facts for the store after all attempts. -/
theorem attemptStore_status (s : BetStatus) (now : Nat) (l : List Ptr) :
    ∀ r : InMemoryBetRepository,
    (∀ q, ((BetService.attemptStore s now r l).betMem q).Status = (r.betMem q).Status ∨
      ((BetService.attemptStore s now r l).betMem q).Status = s) ∧
    (∀ q, q ∈ l → ((BetService.attemptStore s now r l).betMem q).Status = s) ∧
    (∀ q, (r.betMem q).SettledAt ≠ none →
      ((BetService.attemptStore s now r l).betMem q).SettledAt ≠ none) ∧
    (BetService.attemptStore s now r l).betsByEvent = r.betsByEvent := by
  induction l with
  | nil =>
    intro r
    refine ⟨fun _ => Or.inl rfl, ?_, fun _ h => h, rfl⟩
    intro q hq; cases hq
  | cons b tl ih =>
    intro r
    have hs := attempt_status s now r b
    have ht := ih (BetService.attempt s now r b).2
    simp only [BetService.attemptStore]
    refine ⟨?_, ?_, ?_, ht.2.2.2.trans hs.2.2.2⟩
    · intro q
      rcases ht.1 q with h | h
      · rw [h]; exact hs.1 q
      · exact Or.inr h
    · intro q hq
      rcases List.mem_cons.mp hq with hq | hq
      · subst hq
        rcases ht.1 q with h | h
        · rw [h]; exact hs.2.1
        · exact h
      · exact ht.2.1 q hq
    · intro q hq
      exact ht.2.2.1 q (hs.2.2.1 q hq)

theorem attemptStore_append (s : BetStatus) (now : Nat) (l1 l2 : List Ptr) :
    ∀ r : InMemoryBetRepository,
    BetService.attemptStore s now r (l1 ++ l2) =
      BetService.attemptStore s now (BetService.attemptStore s now r l1) l2 := by
  induction l1 with
  | nil => intro r; rfl
  | cons b tl ih => intro r; simp [BetService.attemptStore, ih]

theorem attemptLog_length (s : BetStatus) (now : Nat) (l : List Ptr) :
    ∀ r : InMemoryBetRepository, (BetService.attemptLog s now r l).length = l.length := by
  induction l with
  | nil => intro r; rfl
  | cons b tl ih => intro r; simp [BetService.attemptLog, ih]

/-- The loop of `SettleBetsForEvent` is the batch of attempts: the store is
the one after all attempts and the error is the one kept from before or the
first failure of the batch. -/
theorem settle_fold_eq_attempts (s : BetStatus) (now : Nat) (l : List Ptr) :
    ∀ acc : Option Error × InMemoryBetRepository,
    l.foldl (BetService.settleStep s now) acc =
      ((match acc.1 with
        | some e => some e
        | none => BetService.firstFailure (BetService.attemptLog s now acc.2 l)),
       BetService.attemptStore s now acc.2 l) := by
  induction l with
  | nil =>
    intro acc
    obtain ⟨a, r⟩ := acc
    cases a <;> rfl
  | cons b tl ih =>
    intro acc
    obtain ⟨a, r⟩ := acc
    simp only [List.foldl_cons, ih]
    have hstep : BetService.settleStep s now (a, r) b =
        ((match a, (BetService.attempt s now r b).1 with
          | some e, _ => some e
          | none, some err =>
            some (.Wrapf ("failed to settle bet " ++
              ((BetService.attempt s now r b).2.betMem b).ID ++ ": ") err)
          | none, none => none),
         (BetService.attempt s now r b).2) := by
      unfold BetService.settleStep BetService.attempt
      rcases hU : UpdateBet (BetService.setStatus r b s) b now with ⟨e, r2⟩
      cases e <;> cases a <;> simp [hU]
    rw [hstep]
    simp only [BetService.attemptStore, BetService.attemptLog]
    cases a with
    | some e => rfl
    | none =>
      cases hA : (BetService.attempt s now r b).1 with
      | none => simp [BetService.firstFailure]
      | some err => simp [BetService.firstFailure]

theorem firstFailure_none (log : List (String × Option Error)) :
    BetService.firstFailure log = none ↔ ∀ x ∈ log, x.2 = none := by
  induction log with
  | nil => simp [BetService.firstFailure]
  | cons hd tl ih =>
    obtain ⟨id, e⟩ := hd
    cases e with
    | none => simp [BetService.firstFailure, ih]
    | some err => simp [BetService.firstFailure]

theorem firstFailure_first (pre post : List (String × Option Error)) (id : String)
    (err : Error) (hpre : ∀ x ∈ pre, x.2 = none) :
    BetService.firstFailure (pre ++ (id, some err) :: post) =
      some (.Wrapf ("failed to settle bet " ++ id ++ ": ") err) := by
  induction pre with
  | nil => rfl
  | cons hd tl ih =>
    obtain ⟨i, e⟩ := hd
    have he : e = none := hpre (i, e) (by simp)
    subst he
    simp only [List.cons_append, BetService.firstFailure]
    exact ih (fun x hx => hpre x (by simp [hx]))

theorem settleStatusOf_ne_placed (result : String) :
    BetService.settleStatusOf result ≠ StatusPlaced := by
  unfold BetService.settleStatusOf
  split <;> decide

/-- With a valid result and a non-empty answer of `FindBetsByEvent`, the
call is the batch of attempts on that answer. -/
theorem settle_eq_attempts (r : InMemoryBetRepository) (eventID result : String)
    (now : Nat) (l : List Ptr) (hRes : result = "win" ∨ result = "lose")
    (hFind : FindBetsByEvent r eventID = .ok l) (hl : l ≠ []) :
    BetService.SettleBetsForEvent r eventID result now =
      (BetService.firstFailure
        (BetService.attemptLog (BetService.settleStatusOf result) now r l),
       BetService.attemptStore (BetService.settleStatusOf result) now r l) := by
  have hv : ¬ (result ≠ "win" ∧ result ≠ "lose") := by
    rcases hRes with h | h <;> simp [h]
  have hlen : l.length ≠ 0 := fun h => hl (List.length_eq_zero.mp h)
  simp only [BetService.SettleBetsForEvent, hv, if_false, hFind, hlen]
  rw [settle_fold_eq_attempts]
  rfl

/-- When no indexed bet of the event is `PLACED`, `FindBetsByEvent` answers
with the empty slice and the settlement is refused with the store as it was. -/
theorem settle_none_open (r : InMemoryBetRepository) (eventID result : String)
    (now : Nat) (hRes : result = "win" ∨ result = "lose")
    (hNone : ∀ idx, r.betsByEvent.get eventID = some idx →
      ∀ p ∈ idx, (r.betMem p).Status ≠ StatusPlaced) :
    FindBetsByEvent r eventID = .ok [] ∧
    BetService.SettleBetsForEvent r eventID result now =
      (some (.ErrorNotFound "Placed Bets for Event" eventID), r) := by
  have hv : ¬ (result ≠ "win" ∧ result ≠ "lose") := by
    rcases hRes with h | h <;> simp [h]
  have hFind : FindBetsByEvent r eventID = .ok [] := by
    cases hg : r.betsByEvent.get eventID with
    | none => simp [FindBetsByEvent, hg]
    | some idx =>
      rw [FindBetsByEvent_indexed r eventID idx hg]
      have hnil : idx.filter (fun b => decide ((r.betMem b).Status = StatusPlaced)) = [] := by
        rw [List.filter_eq_nil_iff]
        intro p hp
        simpa using hNone idx hg p hp
      rw [hnil]
  refine ⟨hFind, ?_⟩
  simp only [BetService.SettleBetsForEvent, hv, if_false, hFind]
  simp

/-- C15: after `SettleBetsForEvent` with a valid result on an event with at
least one `PLACED` bet in its index, `FindBetsByEvent` on the event returns
the empty slice, and a second `SettleBetsForEvent` with any valid result
fails with `ErrorNotFound` and returns the store as the first call left it. -/
theorem C15_settle_again_not_found (r : InMemoryBetRepository)
    (eventID result again : String) (now later : Nat) (idx : List Ptr)
    (hRes : result = "win" ∨ result = "lose")
    (hAgain : again = "win" ∨ again = "lose")
    (hIdx : r.betsByEvent.get eventID = some idx)
    (hOpen : ∃ p ∈ idx, (r.betMem p).Status = StatusPlaced) :
    FindBetsByEvent (BetService.SettleBetsForEvent r eventID result now).2 eventID = .ok [] ∧
    BetService.SettleBetsForEvent (BetService.SettleBetsForEvent r eventID result now).2
        eventID again later =
      (some (.ErrorNotFound "Placed Bets for Event" eventID),
       (BetService.SettleBetsForEvent r eventID result now).2) := by
  obtain ⟨p0, hp0, hp0s⟩ := hOpen
  have hFind := FindBetsByEvent_indexed r eventID idx hIdx
  have hp0m : p0 ∈ idx.filter (fun b => decide ((r.betMem b).Status = StatusPlaced)) :=
    List.mem_filter.mpr ⟨hp0, by simpa using hp0s⟩
  have hl : idx.filter (fun b => decide ((r.betMem b).Status = StatusPlaced)) ≠ [] := by
    intro h; rw [h] at hp0m; cases hp0m
  rw [settle_eq_attempts r eventID result now _ hRes hFind hl]
  have hst := attemptStore_status (BetService.settleStatusOf result) now
    (idx.filter (fun b => decide ((r.betMem b).Status = StatusPlaced))) r
  apply settle_none_open _ eventID again later hAgain
  intro idx2 hIdx2 p hp
  rw [hst.2.2.2, hIdx] at hIdx2
  cases hIdx2
  by_cases hps : (r.betMem p).Status = StatusPlaced
  · have hpm : p ∈ idx.filter (fun b => decide ((r.betMem b).Status = StatusPlaced)) :=
      List.mem_filter.mpr ⟨hp, by simpa using hps⟩
    rw [hst.2.1 p hpm]
    exact settleStatusOf_ne_placed result
  · rcases hst.1 p with h | h
    · rw [h]; exact hps
    · rw [h]; exact settleStatusOf_ne_placed result

/-- C15 at the scenario: after `win` on `e1`, a second call with `lose` is
refused and changes nothing. -/
theorem C15_settle_again_not_found_witness :
    FindBetsByEvent (BetService.SettleBetsForEvent scenario "e1" "win" 3).2 "e1" = .ok [] ∧
    BetService.SettleBetsForEvent (BetService.SettleBetsForEvent scenario "e1" "win" 3).2
        "e1" "lose" 4 =
      (some (.ErrorNotFound "Placed Bets for Event" "e1"),
       (BetService.SettleBetsForEvent scenario "e1" "win" 3).2) :=
  C15_settle_again_not_found scenario "e1" "win" "lose" 3 4 [0] (Or.inl rfl) (Or.inr rfl)
    (by rw [scenario_eq]; simp [GoMap.get])
    ⟨0, by simp, by rw [scenario_eq]; simp [store_same, StatusPlaced]⟩

/-- C17: with a valid result and a non-empty answer `l` of `FindBetsByEvent`,
`SettleBetsForEvent` makes the attempt on every bet of `l`, in the order of
`l` and whatever earlier attempts returned; it returns no error exactly when
no attempt failed, and otherwise the error of the first failing attempt,
wrapped in a text that names the ID of that bet; and a record that is settled
after some first part of the batch (it has the target status, or it has a
settlement time) is still so after the whole batch. -/
theorem C17_settle_batch (r : InMemoryBetRepository) (eventID result : String)
    (now : Nat) (l : List Ptr) (hRes : result = "win" ∨ result = "lose")
    (hFind : FindBetsByEvent r eventID = .ok l) (hl : l ≠ []) :
    BetService.SettleBetsForEvent r eventID result now =
      (BetService.firstFailure
        (BetService.attemptLog (BetService.settleStatusOf result) now r l),
       BetService.attemptStore (BetService.settleStatusOf result) now r l) ∧
    (BetService.attemptLog (BetService.settleStatusOf result) now r l).length = l.length ∧
    ((BetService.SettleBetsForEvent r eventID result now).1 = none ↔
      ∀ x ∈ BetService.attemptLog (BetService.settleStatusOf result) now r l, x.2 = none) ∧
    (∀ pre post id err,
      BetService.attemptLog (BetService.settleStatusOf result) now r l =
        pre ++ (id, some err) :: post →
      (∀ x ∈ pre, x.2 = none) →
      (BetService.SettleBetsForEvent r eventID result now).1 =
        some (.Wrapf ("failed to settle bet " ++ id ++ ": ") err)) ∧
    (∀ l1 l2 q, l = l1 ++ l2 →
      (((BetService.attemptStore (BetService.settleStatusOf result) now r l1).betMem q).Status =
          BetService.settleStatusOf result →
        ((BetService.SettleBetsForEvent r eventID result now).2.betMem q).Status =
          BetService.settleStatusOf result) ∧
      (((BetService.attemptStore (BetService.settleStatusOf result) now r l1).betMem q).SettledAt
          ≠ none →
        ((BetService.SettleBetsForEvent r eventID result now).2.betMem q).SettledAt ≠ none)) := by
  have hEq := settle_eq_attempts r eventID result now l hRes hFind hl
  refine ⟨hEq, attemptLog_length _ now l r, ?_, ?_, ?_⟩
  · rw [hEq]; exact firstFailure_none _
  · intro pre post id err hlog hpre
    rw [hEq]
    simp only []
    rw [hlog]
    exact firstFailure_first pre post id err hpre
  · intro l1 l2 q hsplit
    rw [hEq]
    simp only []
    rw [hsplit, attemptStore_append]
    have hst := attemptStore_status (BetService.settleStatusOf result) now l2
      (BetService.attemptStore (BetService.settleStatusOf result) now r l1)
    constructor
    · intro hq
      rcases hst.1 q with h | h
      · rw [h]; exact hq
      · exact h
    · exact hst.2.2.1 q

/-- C17 at the scenario: the batch on `e1` has one attempt, which fails, and
the error returned names bet `b1` and wraps the conflict. -/
theorem C17_settle_batch_witness :
    (BetService.attemptLog (BetService.settleStatusOf "win") 3 scenario [0]).length = 1 ∧
    BetService.SettleBetsForEvent scenario "e1" "win" 3 =
      (BetService.firstFailure
        (BetService.attemptLog (BetService.settleStatusOf "win") 3 scenario [0]),
       BetService.attemptStore (BetService.settleStatusOf "win") 3 scenario [0]) := by
  have h := C17_settle_batch scenario "e1" "win" 3 [0] (Or.inl rfl)
    (by rw [scenario_eq]; simp [FindBetsByEvent, GoMap.get, store_same, StatusPlaced])
    (by simp)
  exact ⟨h.2.1, h.1⟩

/-! ## Amounts are never negative -/


theorem nonneg_store_user (r : InMemoryBetRepository) (h : AmountsNonneg r) (p : Ptr) (u : User)
    (hu : 0 ≤ u.Balance) : AmountsNonneg { r with userMem := store r.userMem p u } := by
  refine ⟨?_, h.2⟩
  intro q
  by_cases hq : q = p
  · subst hq; simpa [store_same] using hu
  · simpa [store_other _ _ _ _ hq] using h.1 q

theorem nonneg_store_bet (r : InMemoryBetRepository) (h : AmountsNonneg r) (p : Ptr) (b : Bet)
    (hb : 0 ≤ b.Amount ∧ 0 ≤ b.Odds) : AmountsNonneg { r with betMem := store r.betMem p b } := by
  refine ⟨h.1, ?_⟩
  intro q
  by_cases hq : q = p
  · subst hq; simpa [store_same] using hb
  · simpa [store_other _ _ _ _ hq] using h.2 q

theorem nonneg_of_mem_eq (r r' : InMemoryBetRepository) (h : AmountsNonneg r)
    (hu : r'.userMem = r.userMem) (hb : r'.betMem = r.betMem) : AmountsNonneg r' := by
  unfold AmountsNonneg
  rw [hu, hb]
  exact h

theorem nonneg_PlaceBet (r : InMemoryBetRepository) (bet : Ptr) (newID : String) (now : Nat)
    (h : AmountsNonneg r) : AmountsNonneg (PlaceBet r bet newID now).2 := by
  unfold PlaceBet
  split
  · exact h
  · next user hu =>
    split
    · exact h
    · next hlt =>
      have hle := not_lt.mp hlt
      refine ⟨?_, ?_⟩
      · intro q
        by_cases hq : q = user
        · subst hq; simp [store_same]; exact hle
        · simp [store_other _ _ _ _ hq]; exact h.1 q
      · intro q
        by_cases hq : q = bet
        · subst hq; simp [store_same]; exact h.2 q
        · simp [store_other _ _ _ _ hq]; exact h.2 q

theorem nonneg_UpdateBet (r : InMemoryBetRepository) (bet : Ptr) (now : Nat)
    (h : AmountsNonneg r) : AmountsNonneg (UpdateBet r bet now).2 := by
  have hb : ∀ p, 0 ≤ ((UpdateBet r bet now).2.betMem p).Amount ∧
      0 ≤ ((UpdateBet r bet now).2.betMem p).Odds := by
    intro p
    rcases UpdateBet_cell r bet now p with hc | ⟨_, hc⟩
    · rw [hc]; exact h.2 p
    · rw [hc]; exact h.2 p
  refine ⟨?_, hb⟩
  unfold UpdateBet
  split
  · exact h.1
  · next e he =>
    split
    · exact h.1
    · simp only [store_same, store_store]
      split
      · split
        · exact h.1
        · next user hu =>
          intro q
          by_cases hq : q = user
          · subst hq
            simp only [store_same]
            have h1 := h.1 q
            have h2 := h.2 e
            have := mul_nonneg h2.1 h2.2
            linarith
          · simp only [store_other _ _ _ _ hq]; exact h.1 q
      · exact h.1


theorem nonneg_newUser (r : InMemoryBetRepository) (u : User) (h : AmountsNonneg r)
    (hu : 0 ≤ u.Balance) : AmountsNonneg (newUser r u).2 := by
  have := nonneg_store_user r h r.nextUser u hu
  exact ⟨this.1, this.2⟩

theorem nonneg_newBet (r : InMemoryBetRepository) (b : Bet) (h : AmountsNonneg r)
    (hb : 0 ≤ b.Amount ∧ 0 ≤ b.Odds) : AmountsNonneg (newBet r b).2 := by
  have := nonneg_store_bet r h r.nextBet b hb
  exact ⟨this.1, this.2⟩

theorem nonneg_CreateUser (r : InMemoryBetRepository) (user : Ptr) (now : Nat)
    (h : AmountsNonneg r) : AmountsNonneg (CreateUser r user now).2 := by
  cases hg : r.users.get (r.userMem user).ID with
  | some q =>
    have : CreateUser r user now = (.error (.ErrorConflict ("user with ID \x27" ++
        (r.userMem user).ID ++ "\x27 already exists")), r) := by simp [CreateUser, hg]
    rw [this]; exact h
  | none =>
    rw [CreateUser_new r user now hg]
    refine ⟨?_, h.2⟩
    intro q
    by_cases hq : q = user
    · subst hq
      simp only [store_same]
      split
      · norm_num
      · exact h.1 q
    · simp only [store_other _ _ _ _ hq]; exact h.1 q

theorem nonneg_FindOrCreateUser (r : InMemoryBetRepository) (userID : String) (now : Nat)
    (h : AmountsNonneg r) : AmountsNonneg (FindOrCreateUser r userID now).2 := by
  cases hg : r.users.get userID with
  | some q =>
    have : FindOrCreateUser r userID now = (.ok q, r) := by simp [FindOrCreateUser, hg]
    rw [this]; exact h
  | none =>
    rw [FindOrCreateUser_new r userID now hg]
    have := nonneg_store_user r h r.nextUser ⟨userID, 1000, some now, some now⟩ (by norm_num)
    exact ⟨this.1, this.2⟩

theorem nonneg_UpdateUser (r : InMemoryBetRepository) (user : Ptr) (now : Nat)
    (h : AmountsNonneg r) : AmountsNonneg (UpdateUser r user now).2 := by
  unfold UpdateUser
  split
  · exact h
  · next e he =>
    have := nonneg_store_user r h e { r.userMem e with UpdatedAt := some now } (h.1 e)
    exact ⟨this.1, this.2⟩

theorem nonneg_DeleteUser (r : InMemoryBetRepository) (userID : String)
    (h : AmountsNonneg r) : AmountsNonneg (DeleteUser r userID).2 := by
  unfold DeleteUser
  split
  · exact h
  · exact ⟨h.1, h.2⟩

theorem nonneg_attempt (s : BetStatus) (now : Nat) (r : InMemoryBetRepository) (bet : Ptr)
    (h : AmountsNonneg r) : AmountsNonneg (BetService.attempt s now r bet).2 := by
  unfold BetService.attempt
  apply nonneg_UpdateBet
  have := nonneg_store_bet r h bet { r.betMem bet with Status := s } (h.2 bet)
  exact ⟨this.1, this.2⟩

theorem nonneg_attemptStore (s : BetStatus) (now : Nat) (l : List Ptr) :
    ∀ r : InMemoryBetRepository, AmountsNonneg r →
      AmountsNonneg (BetService.attemptStore s now r l) := by
  induction l with
  | nil => intro r h; exact h
  | cons b tl ih =>
    intro r h
    exact ih _ (nonneg_attempt s now r b h)



theorem FindOrCreateUser_ok (r : InMemoryBetRepository) (userID : String) (now : Nat) :
    ∃ user, FindOrCreateUser r userID now = (.ok user, (FindOrCreateUser r userID now).2) := by
  cases hg : r.users.get userID with
  | some q =>
    have : FindOrCreateUser r userID now = (.ok q, r) := by simp [FindOrCreateUser, hg]
    exact ⟨q, by rw [this]⟩
  | none =>
    rw [FindOrCreateUser_new r userID now hg]
    exact ⟨_, rfl⟩

theorem service_PlaceBet_invalid (r : InMemoryBetRepository) (req : PlaceBetRequest)
    (newID : String) (now : Nat) (hv : req.Validate = false) :
    BetService.PlaceBet r req newID now =
      (.error (.ErrorBadRequest "validation failed: " ""), r) := by
  simp [BetService.PlaceBet, hv]

theorem service_PlaceBet_store (r : InMemoryBetRepository) (req : PlaceBetRequest)
    (newID : String) (now : Nat) (hv : req.Validate = true) :
    (BetService.PlaceBet r req newID now).2 =
      (PlaceBet (newBet (FindOrCreateUser r req.UserID now).2 (betOfRequest req)).2
        (FindOrCreateUser r req.UserID now).2.nextBet newID now).2 := by
  obtain ⟨user, hu⟩ := FindOrCreateUser_ok r req.UserID now
  generalize (FindOrCreateUser r req.UserID now).2 = r1 at hu
  unfold BetService.PlaceBet
  simp only [hv, Bool.not_true, Bool.false_eq_true, if_false, hu]
  simp only [newBet, betOfRequest]
  split
  · split
    · simp_all
    · split <;> simp_all
  · simp_all


theorem nonneg_service_PlaceBet (r : InMemoryBetRepository) (req : PlaceBetRequest)
    (newID : String) (now : Nat) (h : AmountsNonneg r) :
    AmountsNonneg (BetService.PlaceBet r req newID now).2 := by
  cases hv : req.Validate with
  | false => rw [service_PlaceBet_invalid r req newID now hv]; exact h
  | true =>
    rw [service_PlaceBet_store r req newID now hv]
    simp only [PlaceBetRequest.Validate, Bool.and_eq_true, decide_eq_true_eq] at hv
    apply nonneg_PlaceBet
    apply nonneg_newBet
    · exact nonneg_FindOrCreateUser r req.UserID now h
    · exact ⟨le_of_lt hv.2, le_of_lt (lt_trans zero_lt_one hv.1.1.2)⟩

theorem service_Settle_store (r : InMemoryBetRepository) (eventID result : String)
    (now : Nat) :
    (BetService.SettleBetsForEvent r eventID result now).2 = r ∨
    ∃ l, FindBetsByEvent r eventID = .ok l ∧ l ≠ [] ∧
      (result = "win" ∨ result = "lose") ∧
      (BetService.SettleBetsForEvent r eventID result now).2 =
        BetService.attemptStore (BetService.settleStatusOf result) now r l := by
  by_cases hv : result ≠ "win" ∧ result ≠ "lose"
  · left; simp [BetService.SettleBetsForEvent, hv]
  · have hRes : result = "win" ∨ result = "lose" := by
      by_cases hw : result = "win"
      · exact Or.inl hw
      · right
        by_contra hl
        exact hv ⟨hw, hl⟩
    cases hF : FindBetsByEvent r eventID with
    | error e =>
      left
      simp only [BetService.SettleBetsForEvent, hv, if_false, hF]
      split <;> rfl
    | ok l =>
      by_cases hl : l = []
      · left
        subst hl
        simp [BetService.SettleBetsForEvent, hv, hF]
      · right
        refine ⟨l, rfl, hl, hRes, ?_⟩
        rw [settle_eq_attempts r eventID result now l hRes hF hl]

theorem nonneg_service_Settle (r : InMemoryBetRepository) (eventID result : String)
    (now : Nat) (h : AmountsNonneg r) :
    AmountsNonneg (BetService.SettleBetsForEvent r eventID result now).2 := by
  rcases service_Settle_store r eventID result now with h1 | ⟨l, _, _, _, h1⟩
  · rw [h1]; exact h
  · rw [h1]; exact nonneg_attemptStore _ now l r h

theorem service_CreateUser_store (r : InMemoryBetRepository) (req : CreateUserRequest)
    (now : Nat) :
    (BetService.CreateUser r req now).2 = r ∨
    (BetService.CreateUser r req now).2 =
      (CreateUser (newUser r { User.zero with ID := req.UserID }).2 r.nextUser now).2 := by
  unfold BetService.CreateUser
  split
  · left; rfl
  · right
    simp only [newUser]
    split
    · split <;> simp_all
    · simp_all

theorem nonneg_service_CreateUser (r : InMemoryBetRepository) (req : CreateUserRequest)
    (now : Nat) (h : AmountsNonneg r) :
    AmountsNonneg (BetService.CreateUser r req now).2 := by
  rcases service_CreateUser_store r req now with h1 | h1
  · rw [h1]; exact h
  · rw [h1]
    apply nonneg_CreateUser
    apply nonneg_newUser _ _ h
    simp [User.zero]

theorem service_UpdateUser_store (r : InMemoryBetRepository) (userID : String) (now : Nat) :
    (BetService.UpdateUser r userID now).2 = r ∨
    ∃ user, r.users.get userID = some user ∧
      (BetService.UpdateUser r userID now).2 = (UpdateUser r user now).2 := by
  unfold BetService.UpdateUser
  split
  · left; rfl
  · cases hg : r.users.get userID with
    | none => left; simp [GetUser, hg]
    | some user =>
      right
      refine ⟨user, rfl, ?_⟩
      simp only [GetUser, hg]
      split <;> simp_all

theorem nonneg_service_UpdateUser (r : InMemoryBetRepository) (userID : String) (now : Nat)
    (h : AmountsNonneg r) : AmountsNonneg (BetService.UpdateUser r userID now).2 := by
  rcases service_UpdateUser_store r userID now with h1 | ⟨user, _, h1⟩
  · rw [h1]; exact h
  · rw [h1]; exact nonneg_UpdateUser r user now h

theorem nonneg_service_DeleteUser (r : InMemoryBetRepository) (userID : String)
    (h : AmountsNonneg r) : AmountsNonneg (BetService.DeleteUser r userID).2 := by
  unfold BetService.DeleteUser
  split
  · exact h
  · exact nonneg_DeleteUser r userID h

theorem nonneg_run (r : InMemoryBetRepository) (o : ServiceOp) (h : AmountsNonneg r) :
    AmountsNonneg (o.run r) := by
  cases o with
  | PlaceBet req newID now => exact nonneg_service_PlaceBet r req newID now h
  | SettleBetsForEvent e res now => exact nonneg_service_Settle r e res now h
  | CreateUser req now => exact nonneg_service_CreateUser r req now h
  | GetUser _ => exact h
  | ListUsers => exact h
  | UpdateUser u now => exact nonneg_service_UpdateUser r u now h
  | DeleteUser u => exact nonneg_service_DeleteUser r u h
  | GetUserBalance _ => exact h

theorem nonneg_foldl (ops : List ServiceOp) :
    ∀ r : InMemoryBetRepository, AmountsNonneg r → AmountsNonneg (ops.foldl ServiceOp.run r) := by
  induction ops with
  | nil => intro r h; exact h
  | cons o tl ih => intro r h; exact ih _ (nonneg_run r o h)

theorem nonneg_empty : AmountsNonneg NewInMemoryBetRepository := by
  refine ⟨fun q => ?_, fun p => ?_⟩ <;> simp [NewInMemoryBetRepository, User.zero, Bet.zero]

/-- C11: in every store reached from the empty store by calls of the
methods of `BetService`, with any arguments, identifiers and clock readings,
the balance of every user in the user map is not negative; so is the balance
of every user record in memory. -/
theorem C11_balances_nonneg (ops : List ServiceOp) :
    (∀ k q, (serviceRun ops).users.get k = some q →
      0 ≤ ((serviceRun ops).userMem q).Balance) ∧
    (∀ q, 0 ≤ ((serviceRun ops).userMem q).Balance) :=
  ⟨fun _ q _ => (nonneg_foldl ops NewInMemoryBetRepository nonneg_empty).1 q,
   (nonneg_foldl ops NewInMemoryBetRepository nonneg_empty).1⟩

/-- C11 after the calls of the scenario: `u1` is stored at address 0 and its
balance is not negative. -/
theorem C11_balances_nonneg_witness :
    (serviceRun [.CreateUser ⟨"u1", "Ann"⟩ 1, .PlaceBet ⟨"u1", "e1", 2, 100⟩ "b1" 2]).users.get
        "u1" = some 0 ∧
    0 ≤ ((serviceRun [.CreateUser ⟨"u1", "Ann"⟩ 1,
      .PlaceBet ⟨"u1", "e1", 2, 100⟩ "b1" 2]).userMem 0).Balance := by
  have hrun : serviceRun [.CreateUser ⟨"u1", "Ann"⟩ 1, .PlaceBet ⟨"u1", "e1", 2, 100⟩ "b1" 2] =
      scenario := rfl
  have hget : (serviceRun [.CreateUser ⟨"u1", "Ann"⟩ 1,
      .PlaceBet ⟨"u1", "e1", 2, 100⟩ "b1" 2]).users.get "u1" = some 0 := by
    rw [hrun, scenario_eq]; simp [GoMap.get]
  exact ⟨hget, (C11_balances_nonneg _).1 "u1" 0 hget⟩


/-! ## The index by event and the bets map -/

theorem BetIndexInv_of_same (r r' : InMemoryBetRepository) (h : BetIndexInv r)
    (hs : SameBets r r') : BetIndexInv r' := by
  obtain ⟨h1, h2, h3, h4⟩ := hs
  constructor
  · rw [h2, h4]; exact h.below
  · rw [h1, h2]; exact h.keyed
  · rw [h1, h2, h3]; exact h.indexed
  · rw [h3]; exact h.nodup
  · rw [h1, h3]; exact h.event
  · rw [h1, h2, h3]; exact h.stored

theorem same_CreateUser (r : InMemoryBetRepository) (user : Ptr) (now : Nat) :
    SameBets r (CreateUser r user now).2 := by
  unfold CreateUser
  split
  · exact ⟨rfl, rfl, rfl, rfl⟩
  · exact ⟨rfl, rfl, rfl, rfl⟩

theorem same_UpdateUser (r : InMemoryBetRepository) (user : Ptr) (now : Nat) :
    SameBets r (UpdateUser r user now).2 := by
  unfold UpdateUser
  split
  · exact ⟨rfl, rfl, rfl, rfl⟩
  · exact ⟨rfl, rfl, rfl, rfl⟩

theorem same_DeleteUser (r : InMemoryBetRepository) (userID : String) :
    SameBets r (DeleteUser r userID).2 := by
  unfold DeleteUser
  split
  · exact ⟨rfl, rfl, rfl, rfl⟩
  · exact ⟨rfl, rfl, rfl, rfl⟩

theorem same_newUser (r : InMemoryBetRepository) (u : User) :
    SameBets r (newUser r u).2 := ⟨rfl, rfl, rfl, rfl⟩

theorem same_FindOrCreateUser (r : InMemoryBetRepository) (userID : String) (now : Nat) :
    SameBets r (FindOrCreateUser r userID now).2 := by
  cases hg : r.users.get userID with
  | some q =>
    have : FindOrCreateUser r userID now = (.ok q, r) := by simp [FindOrCreateUser, hg]
    rw [this]; exact ⟨rfl, rfl, rfl, rfl⟩
  | none =>
    rw [FindOrCreateUser_new r userID now hg]
    exact ⟨rfl, rfl, rfl, rfl⟩

theorem inv_empty : BetIndexInv NewInMemoryBetRepository := by
  constructor <;> intro a b h <;> simp [NewInMemoryBetRepository, GoMap.get] at h

theorem inv_newBet (r : InMemoryBetRepository) (b : Bet) (h : BetIndexInv r) :
    BetIndexInv (newBet r b).2 := by
  have hcell : ∀ k p, r.bets.get k = some p → (newBet r b).2.betMem p = r.betMem p := by
    intro k p hp
    have := h.below k p hp
    simp [newBet, store_other _ _ _ _ (Nat.ne_of_lt this)]
  have hcell2 : ∀ e idx, r.betsByEvent.get e = some idx → ∀ p ∈ idx,
      (newBet r b).2.betMem p = r.betMem p := by
    intro e idx hi p hp
    exact hcell _ p (h.stored e idx hi p hp)
  constructor
  · intro k p hp
    exact Nat.lt_succ_of_lt (h.below k p hp)
  · intro k p hp
    have hp' : r.bets.get k = some p := hp
    rw [hcell k p hp']; exact h.keyed k p hp'
  · intro k p hp
    have hp' : r.bets.get k = some p := hp
    rw [hcell k p hp']; exact h.indexed k p hp'
  · intro e idx hi; exact h.nodup e idx hi
  · intro e idx hi p hp
    have hi' : r.betsByEvent.get e = some idx := hi
    rw [hcell2 e idx hi' p hp]; exact h.event e idx hi' p hp
  · intro e idx hi p hp
    have hi' : r.betsByEvent.get e = some idx := hi
    rw [hcell2 e idx hi' p hp]; exact h.stored e idx hi' p hp

theorem inv_UpdateBet (r : InMemoryBetRepository) (bet : Ptr) (now : Nat)
    (h : BetIndexInv r) : BetIndexInv (UpdateBet r bet now).2 := by
  obtain ⟨hb, hi, hn, _⟩ := UpdateBet_maps r bet now
  have hID : ∀ p, ((UpdateBet r bet now).2.betMem p).ID = (r.betMem p).ID ∧
      ((UpdateBet r bet now).2.betMem p).EventID = (r.betMem p).EventID := by
    intro p
    rcases UpdateBet_cell r bet now p with hc | ⟨_, hc⟩
    · rw [hc]; exact ⟨rfl, rfl⟩
    · rw [hc]; exact ⟨rfl, rfl⟩
  constructor
  · rw [hb, hn]; exact h.below
  · intro k p hp; rw [hb] at hp; rw [(hID p).1]; exact h.keyed k p hp
  · intro k p hp; rw [hb] at hp; rw [(hID p).2, hi]; exact h.indexed k p hp
  · rw [hi]; exact h.nodup
  · intro e idx hg p hp; rw [hi] at hg; rw [(hID p).2]; exact h.event e idx hg p hp
  · intro e idx hg p hp; rw [hi] at hg; rw [(hID p).1, hb]; exact h.stored e idx hg p hp


/-- The bet side of the store after `PlaceBet`: as before when the call
fails, and with the new record written, stored and indexed when it succeeds. -/
theorem PlaceBet_bets (r : InMemoryBetRepository) (bet : Ptr) (newID : String) (now : Nat) :
    SameBets r (PlaceBet r bet newID now).2 ∨
    ((PlaceBet r bet newID now).1 = .ok bet ∧
      (PlaceBet r bet newID now).2.betMem = store r.betMem bet
        { r.betMem bet with ID := newID, Status := StatusPlaced, CreatedAt := some now } ∧
      (PlaceBet r bet newID now).2.bets = r.bets.set newID bet ∧
      (PlaceBet r bet newID now).2.betsByEvent = r.betsByEvent.set (r.betMem bet).EventID
        ((r.betsByEvent.get (r.betMem bet).EventID).getD [] ++ [bet]) ∧
      (PlaceBet r bet newID now).2.nextBet = r.nextBet) := by
  unfold PlaceBet
  split
  · exact Or.inl ⟨rfl, rfl, rfl, rfl⟩
  · split
    · exact Or.inl ⟨rfl, rfl, rfl, rfl⟩
    · right
      simp [store_same]

theorem inv_PlaceBet (r : InMemoryBetRepository) (bet : Ptr) (newID : String) (now : Nat)
    (h : BetIndexInv r) (hb : bet < r.nextBet) (hNew : ∀ k, r.bets.get k ≠ some bet)
    (hID : r.bets.get newID = none) : BetIndexInv (PlaceBet r bet newID now).2 := by
  rcases PlaceBet_bets r bet newID now with hs | ⟨_, hm, hbets, hidx, hn⟩
  · exact BetIndexInv_of_same r _ h hs
  · have hne : ∀ k p, r.bets.get k = some p → p ≠ bet := by
      intro k p hp e; subst e; exact hNew k hp
    have hkey : ∀ k p, r.bets.get k = some p → k ≠ newID := by
      intro k p hp e; subst e; rw [hID] at hp; cases hp
    have hnotin : ∀ e idx, r.betsByEvent.get e = some idx → bet ∉ idx := by
      intro e idx hi hmem
      exact hNew _ (h.stored e idx hi bet hmem)
    constructor
    · intro k p hp
      rw [hbets, GoMap.get_set] at hp
      rw [hn]
      split at hp
      · cases hp; exact hb
      · exact h.below k p hp
    · intro k p hp
      rw [hbets, GoMap.get_set] at hp
      rw [hm]
      split at hp
      · next hk => cases hp; simp [store_same, hk]
      · rw [store_other _ _ _ _ (hne k p hp)]; exact h.keyed k p hp
    · intro k p hp
      rw [hbets, GoMap.get_set] at hp
      rw [hm, hidx]
      split at hp
      · cases hp
        simp [store_same, GoMap.get_set_same]
      · rw [store_other _ _ _ _ (hne k p hp)]
        obtain ⟨idx, hi, hmem⟩ := h.indexed k p hp
        rw [GoMap.get_set]
        split
        · next he =>
          rw [he] at hi
          exact ⟨_, rfl, by simp [hi, hmem]⟩
        · exact ⟨idx, hi, hmem⟩
    · intro e idx hi
      rw [hidx, GoMap.get_set] at hi
      split at hi
      · cases hi
        cases hg : r.betsByEvent.get (r.betMem bet).EventID with
        | none => simp
        | some old =>
          simp only [Option.getD_some]
          rw [List.nodup_append]
          refine ⟨h.nodup _ old hg, by simp, ?_⟩
          intro a ha hb2
          have : a = bet := by simpa using hb2
          subst this
          exact hnotin _ old hg ha
      · exact h.nodup e idx hi
    · intro e idx hi p hp
      rw [hidx, GoMap.get_set] at hi
      rw [hm]
      split at hi
      · next he =>
        cases hi
        rcases List.mem_append.mp hp with hp | hp
        · cases hg : r.betsByEvent.get (r.betMem bet).EventID with
          | none => rw [hg] at hp; simp at hp
          | some old =>
            rw [hg] at hp
            simp only [Option.getD_some] at hp
            have hpb : p ≠ bet := fun e2 => hnotin _ old hg (e2 ▸ hp)
            rw [store_other _ _ _ _ hpb, he]
            exact h.event _ old hg p hp
        · have : p = bet := by simpa using hp
          subst this
          simp [store_same, he]
      · have hpb : p ≠ bet := fun e2 => hnotin e idx hi (e2 ▸ hp)
        rw [store_other _ _ _ _ hpb]
        exact h.event e idx hi p hp
    · intro e idx hi p hp
      rw [hidx, GoMap.get_set] at hi
      rw [hm, hbets]
      have hold : ∀ e' old, r.betsByEvent.get e' = some old → p ∈ old →
          (r.bets.set newID bet).get (store r.betMem bet
            { r.betMem bet with ID := newID, Status := StatusPlaced, CreatedAt := some now }
            p).ID = some p := by
        intro e' old hg hp2
        have hpb : p ≠ bet := fun e2 => hnotin e' old hg (e2 ▸ hp2)
        rw [store_other _ _ _ _ hpb]
        have hst := h.stored e' old hg p hp2
        rw [GoMap.get_set_other _ _ _ _ (hkey _ p hst)]
        exact hst
      split at hi
      · cases hi
        rcases List.mem_append.mp hp with hp | hp
        · cases hg : r.betsByEvent.get (r.betMem bet).EventID with
          | none => rw [hg] at hp; simp at hp
          | some old =>
            rw [hg] at hp
            simp only [Option.getD_some] at hp
            exact hold _ old hg hp
        · have : p = bet := by simpa using hp
          subst this
          simp [store_same, GoMap.get_set_same]
      · exact hold e idx hi hp

theorem mem_of_inv (r : InMemoryBetRepository) (h : BetIndexInv r) : BetIndexMem r :=
  ⟨h.below, h.indexed, h.event, h.stored⟩

theorem BetIndexMem_of_same (r r' : InMemoryBetRepository) (h : BetIndexMem r)
    (hs : SameBets r r') : BetIndexMem r' := by
  obtain ⟨h1, h2, h3, h4⟩ := hs
  constructor
  · rw [h2, h4]; exact h.below
  · rw [h1, h2, h3]; exact h.indexed
  · rw [h1, h3]; exact h.event
  · rw [h1, h2, h3]; exact h.stored

theorem mem_empty : BetIndexMem NewInMemoryBetRepository := by
  constructor <;> intro a b h <;> simp [NewInMemoryBetRepository, GoMap.get] at h

theorem mem_newBet (r : InMemoryBetRepository) (b : Bet) (h : BetIndexMem r) :
    BetIndexMem (newBet r b).2 := by
  have hcell : ∀ k p, r.bets.get k = some p → (newBet r b).2.betMem p = r.betMem p := by
    intro k p hp
    have := h.below k p hp
    simp [newBet, store_other _ _ _ _ (Nat.ne_of_lt this)]
  have hcell2 : ∀ e idx, r.betsByEvent.get e = some idx → ∀ p ∈ idx,
      (newBet r b).2.betMem p = r.betMem p := by
    intro e idx hi p hp
    exact hcell _ p (h.stored e idx hi p hp)
  constructor
  · intro k p hp
    exact Nat.lt_succ_of_lt (h.below k p hp)
  · intro k p hp
    have hp' : r.bets.get k = some p := hp
    rw [hcell k p hp']; exact h.indexed k p hp'
  · intro e idx hi p hp
    have hi' : r.betsByEvent.get e = some idx := hi
    rw [hcell2 e idx hi' p hp]; exact h.event e idx hi' p hp
  · intro e idx hi p hp
    have hi' : r.betsByEvent.get e = some idx := hi
    rw [hcell2 e idx hi' p hp]; exact h.stored e idx hi' p hp

theorem mem_UpdateBet (r : InMemoryBetRepository) (bet : Ptr) (now : Nat)
    (h : BetIndexMem r) : BetIndexMem (UpdateBet r bet now).2 := by
  obtain ⟨hb, hi, hn, _⟩ := UpdateBet_maps r bet now
  have hID : ∀ p, ((UpdateBet r bet now).2.betMem p).ID = (r.betMem p).ID ∧
      ((UpdateBet r bet now).2.betMem p).EventID = (r.betMem p).EventID := by
    intro p
    rcases UpdateBet_cell r bet now p with hc | ⟨_, hc⟩
    · rw [hc]; exact ⟨rfl, rfl⟩
    · rw [hc]; exact ⟨rfl, rfl⟩
  constructor
  · rw [hb, hn]; exact h.below
  · intro k p hp; rw [hb] at hp; rw [(hID p).2, hi]; exact h.indexed k p hp
  · intro e idx hg p hp; rw [hi] at hg; rw [(hID p).2]; exact h.event e idx hg p hp
  · intro e idx hg p hp; rw [hi] at hg; rw [(hID p).1, hb]; exact h.stored e idx hg p hp

/-- The records of the bets map and of the index stay the same ones after
`PlaceBet` on any record that exists, stored or not, with an unused ID. -/
theorem mem_PlaceBet (r : InMemoryBetRepository) (bet : Ptr) (newID : String) (now : Nat)
    (h : BetIndexMem r) (hb : bet < r.nextBet) (hID : r.bets.get newID = none) :
    BetIndexMem (PlaceBet r bet newID now).2 := by
  rcases PlaceBet_bets r bet newID now with hs | ⟨_, hm, hbets, hidx, hn⟩
  · exact BetIndexMem_of_same r _ h hs
  · have hkey : ∀ k p, r.bets.get k = some p → k ≠ newID := by
      intro k p hp e; subst e; rw [hID] at hp; cases hp
    have hEv : ∀ p, (store r.betMem bet
        { r.betMem bet with ID := newID, Status := StatusPlaced, CreatedAt := some now }
        p).EventID = (r.betMem p).EventID := by
      intro p
      by_cases hp : p = bet
      · subst hp; simp [store_same]
      · rw [store_other _ _ _ _ hp]
    constructor
    · intro k p hp
      rw [hbets, GoMap.get_set] at hp
      rw [hn]
      split at hp
      · cases hp; exact hb
      · exact h.below k p hp
    · intro k p hp
      rw [hbets, GoMap.get_set] at hp
      rw [hm, hidx, hEv]
      split at hp
      · cases hp
        simp [GoMap.get_set_same]
      · obtain ⟨idx, hi, hmem⟩ := h.indexed k p hp
        rw [GoMap.get_set]
        split
        · next he =>
          rw [he] at hi
          exact ⟨_, rfl, by simp [hi, hmem]⟩
        · exact ⟨idx, hi, hmem⟩
    · intro e idx hi p hp
      rw [hidx, GoMap.get_set] at hi
      rw [hm, hEv]
      split at hi
      · next he =>
        cases hi
        rcases List.mem_append.mp hp with hp | hp
        · cases hg : r.betsByEvent.get (r.betMem bet).EventID with
          | none => rw [hg] at hp; simp at hp
          | some old =>
            rw [hg] at hp
            simp only [Option.getD_some] at hp
            rw [he]
            exact h.event _ old hg p hp
        · have : p = bet := by simpa using hp
          subst this
          simp [he]
      · exact h.event e idx hi p hp
    · intro e idx hi p hp
      rw [hidx, GoMap.get_set] at hi
      rw [hm, hbets]
      have hold : ∀ e' old, r.betsByEvent.get e' = some old → p ∈ old →
          (r.bets.set newID bet).get (store r.betMem bet
            { r.betMem bet with ID := newID, Status := StatusPlaced, CreatedAt := some now }
            p).ID = some p := by
        intro e' old hg hp2
        by_cases hpb : p = bet
        · subst hpb
          simp [store_same, GoMap.get_set_same]
        · rw [store_other _ _ _ _ hpb]
          have hst := h.stored e' old hg p hp2
          rw [GoMap.get_set_other _ _ _ _ (hkey _ p hst)]
          exact hst
      split at hi
      · cases hi
        rcases List.mem_append.mp hp with hp | hp
        · cases hg : r.betsByEvent.get (r.betMem bet).EventID with
          | none => rw [hg] at hp; simp at hp
          | some old =>
            rw [hg] at hp
            simp only [Option.getD_some] at hp
            exact hold _ old hg hp
        · have : p = bet := by simpa using hp
          subst this
          simp [store_same, GoMap.get_set_same]
      · exact hold e idx hi hp

/-- Every store reached through the operations of the repository keeps the
records of the bets map and of the index the same ones. -/
theorem mem_reachable (r : InMemoryBetRepository) (h : RepoReachable r) : BetIndexMem r := by
  induction h with
  | empty => exact mem_empty
  | allocBet r b _ ih => exact mem_newBet r b ih
  | allocUser r u _ ih => exact BetIndexMem_of_same r _ ih (same_newUser r u)
  | placeBet r bet newID now _ hb hID ih => exact mem_PlaceBet r bet newID now ih hb hID
  | updateBet r bet now _ ih => exact mem_UpdateBet r bet now ih
  | createUser r user now _ ih => exact BetIndexMem_of_same r _ ih (same_CreateUser r user now)
  | updateUser r user now _ ih => exact BetIndexMem_of_same r _ ih (same_UpdateUser r user now)
  | deleteUser r userID _ ih => exact BetIndexMem_of_same r _ ih (same_DeleteUser r userID)
  | findOrCreateUser r userID now _ ih =>
    exact BetIndexMem_of_same r _ ih (same_FindOrCreateUser r userID now)

/-- A store reached without placing a bet twice holds every stored bet under
its own ID and has no record twice in an index. -/
theorem inv_reachable (r : InMemoryBetRepository) (h : RepoReachableOnce r) :
    BetIndexInv r := by
  induction h with
  | empty => exact inv_empty
  | allocBet r b _ ih => exact inv_newBet r b ih
  | allocUser r u _ ih => exact BetIndexInv_of_same r _ ih (same_newUser r u)
  | placeBet r bet newID now _ hb hID hNew ih =>
    rcases hNew with hNew | hFail
    · exact inv_PlaceBet r bet newID now ih hb hNew hID
    · rcases PlaceBet_bets r bet newID now with hs | ⟨hok, _⟩
      · exact BetIndexInv_of_same r _ ih hs
      · exact absurd hok hFail
  | updateBet r bet now _ ih => exact inv_UpdateBet r bet now ih
  | createUser r user now _ ih => exact BetIndexInv_of_same r _ ih (same_CreateUser r user now)
  | updateUser r user now _ ih => exact BetIndexInv_of_same r _ ih (same_UpdateUser r user now)
  | deleteUser r userID _ ih => exact BetIndexInv_of_same r _ ih (same_DeleteUser r userID)
  | findOrCreateUser r userID now _ ih =>
    exact BetIndexInv_of_same r _ ih (same_FindOrCreateUser r userID now)

/-- A run that places no bet twice is a run of the repository. -/
theorem reachable_of_once (r : InMemoryBetRepository) (h : RepoReachableOnce r) :
    RepoReachable r := by
  induction h with
  | empty => exact RepoReachable.empty
  | allocBet r b _ ih => exact RepoReachable.allocBet r b ih
  | allocUser r u _ ih => exact RepoReachable.allocUser r u ih
  | placeBet r bet newID now _ hb hID _ ih => exact RepoReachable.placeBet r bet newID now ih hb hID
  | updateBet r bet now _ ih => exact RepoReachable.updateBet r bet now ih
  | createUser r user now _ ih => exact RepoReachable.createUser r user now ih
  | updateUser r user now _ ih => exact RepoReachable.updateUser r user now ih
  | deleteUser r userID _ ih => exact RepoReachable.deleteUser r userID ih
  | findOrCreateUser r userID now _ ih => exact RepoReachable.findOrCreateUser r userID now ih

/-- C16, as the code has it: in every store reached from the empty one
through the operations of the repository, `FindBetsByEvent` returns no error
but a list whose members are exactly the stored bets whose `EventID` is the
event and whose status is `PLACED`; the list is empty when the event is not in
the index or no stored bet of the event is `PLACED`; and each such bet is in
the list once when the store was reached without a successful `PlaceBet` on a
record that was stored already (such a call appends the record to the index a
second time).  The call is a function of the store and returns no store: it
changes nothing. -/
theorem C16_findBetsByEvent (r : InMemoryBetRepository) (hr : RepoReachable r)
    (eventID : String) :
    ∃ l, FindBetsByEvent r eventID = .ok l ∧
      (∀ p, p ∈ l ↔ ((∃ k, r.bets.get k = some p) ∧ (r.betMem p).EventID = eventID ∧
        (r.betMem p).Status = StatusPlaced)) ∧
      (r.betsByEvent.get eventID = none → l = []) ∧
      ((∀ k p, r.bets.get k = some p → (r.betMem p).EventID = eventID →
        (r.betMem p).Status ≠ StatusPlaced) → l = []) ∧
      (RepoReachableOnce r → l.Nodup) := by
  have h := mem_reachable r hr
  have key : ∃ l, FindBetsByEvent r eventID = .ok l ∧
      (∀ p, p ∈ l ↔ ((∃ k, r.bets.get k = some p) ∧ (r.betMem p).EventID = eventID ∧
        (r.betMem p).Status = StatusPlaced)) ∧
      (r.betsByEvent.get eventID = none → l = []) ∧
      (RepoReachableOnce r → l.Nodup) := by
    cases hg : r.betsByEvent.get eventID with
    | none =>
      refine ⟨[], by simp [FindBetsByEvent, hg], ?_, fun _ => rfl, fun _ => List.nodup_nil⟩
      intro p
      constructor
      · intro hp; cases hp
      · rintro ⟨⟨k, hk⟩, he, _⟩
        obtain ⟨idx, hi, _⟩ := h.indexed k p hk
        rw [he, hg] at hi
        cases hi
    | some idx =>
      refine ⟨_, FindBetsByEvent_indexed r eventID idx hg, ?_, ?_,
        fun ho => ((inv_reachable r ho).nodup eventID idx hg).filter _⟩
      swap
      · intro hn; cases hn
      intro p
      rw [List.mem_filter]
      constructor
      · rintro ⟨hp, hs⟩
        exact ⟨⟨_, h.stored eventID idx hg p hp⟩, h.event eventID idx hg p hp, by simpa using hs⟩
      · rintro ⟨⟨k, hk⟩, he, hs⟩
        obtain ⟨idx2, hi, hmem⟩ := h.indexed k p hk
        rw [he, hg] at hi
        cases hi
        exact ⟨hmem, by simpa using hs⟩
  obtain ⟨l, hF, hM, hE, hN⟩ := key
  refine ⟨l, hF, hM, hE, ?_, hN⟩
  intro hnone
  apply List.eq_nil_iff_forall_not_mem.mpr
  intro p hp
  obtain ⟨⟨k, hk⟩, he, hs⟩ := (hM p).mp hp
  exact hnone k p hk he hs


/-- A call of `PlaceBet` that does not return its argument leaves the store
as it is. -/
theorem PlaceBet_failed (r : InMemoryBetRepository) (bet : Ptr) (newID : String) (now : Nat)
    (h : (PlaceBet r bet newID now).1 ≠ .ok bet) : (PlaceBet r bet newID now).2 = r := by
  cases hu : r.users.get (r.betMem bet).UserID with
  | none => simp [PlaceBet, hu]
  | some user =>
    by_cases hlt : (r.userMem user).Balance < (r.betMem bet).Amount
    · simp [PlaceBet, hu, hlt]
    · exact absurd (by simp [PlaceBet, hu, hlt]) h

/-- A call of `PlaceBet` that returns its argument has written the ID, the
status `PLACED` and the creation time into that record. -/
theorem PlaceBet_ok_cell (r : InMemoryBetRepository) (bet : Ptr) (newID : String) (now : Nat)
    (h : (PlaceBet r bet newID now).1 = .ok bet) :
    (PlaceBet r bet newID now).2.betMem bet =
      { r.betMem bet with ID := newID, Status := StatusPlaced, CreatedAt := some now } := by
  cases hu : r.users.get (r.betMem bet).UserID with
  | none => simp [PlaceBet, hu] at h
  | some user =>
    by_cases hlt : (r.userMem user).Balance < (r.betMem bet).Amount
    · simp [PlaceBet, hu, hlt] at h
    · simp [PlaceBet, hu, hlt, store_same]

theorem repoScenario_eq : repoScenario =
    { betMem := store (fun _ => Bet.zero) 0 ⟨"b1", "u1", "e1", 2, 100, "PLACED", some 2, none⟩,
      userMem := store (fun _ => User.zero) 0 ⟨"u1", 900, some 1, some 2⟩,
      nextBet := 1, nextUser := 1, bets := [("b1", 0)], betsByEvent := [("e1", [0])],
      users := [("u1", 0)] } := by
  rw [repoScenario, FindOrCreateUser_new NewInMemoryBetRepository "u1" 1 rfl]
  simp [PlaceBet, newBet, newUser, NewInMemoryBetRepository, GoMap.get, GoMap.set,
    store_same, Bet.zero, User.zero, StatusPlaced]
  norm_num
  constructor
  · funext q
    simp [store_apply]
    split <;> rfl
  · funext q
    simp [store_apply]
    split <;> rfl

theorem twiceStore_eq : twiceStore =
    { betMem := store (fun _ => Bet.zero) 0 ⟨"b2", "u1", "e1", 2, 100, "PLACED", some 3, none⟩,
      userMem := store (fun _ => User.zero) 0 ⟨"u1", 800, some 1, some 3⟩,
      nextBet := 1, nextUser := 1, bets := [("b1", 0), ("b2", 0)],
      betsByEvent := [("e1", [0, 0])], users := [("u1", 0)] } := by
  rw [twiceStore, repoScenario_eq]
  simp [PlaceBet, GoMap.get, GoMap.set, store_same, store_store, StatusPlaced]
  norm_num

theorem wonStore_eq : wonStore =
    { betMem := store (store (store (fun _ => Bet.zero) 0
        ⟨"b1", "u1", "e1", 2, 100, "PLACED", some 2, none⟩) 1
        ⟨"b1", "", "", 0, 0, "WON", none, none⟩) 0
        ⟨"b1", "u1", "e1", 2, 100, "WON", some 2, some 3⟩,
      userMem := store (store (fun _ => User.zero) 0 ⟨"u1", 900, some 1, some 2⟩) 0
        ⟨"u1", 1100, some 1, some 3⟩,
      nextBet := 2, nextUser := 1, bets := [("b1", 0)], betsByEvent := [("e1", [0])],
      users := [("u1", 0)] } := by
  rw [wonStore, settleStore_eq]
  simp [UpdateBet, GoMap.get, GoMap.set, store_apply, StatusPlaced, StatusWon]
  norm_num
  rw [store_store]

/-- The store `repoScenario` is reached through the repository with no bet
placed twice. -/
theorem repoScenario_once : RepoReachableOnce repoScenario :=
  RepoReachableOnce.placeBet _ _ "b1" 2
    (RepoReachableOnce.allocBet _ _
      (RepoReachableOnce.findOrCreateUser _ "u1" 1 RepoReachableOnce.empty))
    (Nat.lt_succ_self _)
    (by rw [show (newBet (FindOrCreateUser NewInMemoryBetRepository "u1" 1).2
          ⟨"", "u1", "e1", 2, 100, "", none, none⟩).2.bets =
          (FindOrCreateUser NewInMemoryBetRepository "u1" 1).2.bets from rfl,
        (same_FindOrCreateUser NewInMemoryBetRepository "u1" 1).2.1]; rfl)
    (Or.inl (by
      intro k
      rw [show (newBet (FindOrCreateUser NewInMemoryBetRepository "u1" 1).2
          ⟨"", "u1", "e1", 2, 100, "", none, none⟩).2.bets =
          (FindOrCreateUser NewInMemoryBetRepository "u1" 1).2.bets from rfl,
        (same_FindOrCreateUser NewInMemoryBetRepository "u1" 1).2.1]
      simp [NewInMemoryBetRepository, GoMap.get]))

theorem blankStore_eq : blankStore =
    { betMem := store (store (fun _ => Bet.zero) 0
        ⟨"b1", "u1", "e1", 2, 100, "PLACED", some 2, none⟩) 1
        ⟨"b1", "", "", 0, 0, "", none, none⟩,
      userMem := store (fun _ => User.zero) 0 ⟨"u1", 900, some 1, some 2⟩,
      nextBet := 2, nextUser := 1, bets := [("b1", 0)], betsByEvent := [("e1", [0])],
      users := [("u1", 0)] } := by
  rw [blankStore, scenario_eq]
  simp [newBet, Bet.zero]

/-- One attempt leaves alone every record that is not the bet of the attempt
and is not `PLACED`. -/
theorem attempt_frame (s : BetStatus) (now : Nat) (r : InMemoryBetRepository)
    (bet q : Ptr) (hq : q ≠ bet) (hs : (r.betMem q).Status ≠ StatusPlaced) :
    (BetService.attempt s now r bet).2.betMem q = r.betMem q := by
  have hset : (BetService.setStatus r bet s).betMem q = r.betMem q := by
    simp [setStatus_cell, hq]
  unfold BetService.attempt
  rcases UpdateBet_cell (BetService.setStatus r bet s) bet now q with h | ⟨hp, _⟩
  · rw [h, hset]
  · rw [hset] at hp; exact absurd hp hs

theorem attemptStore_frame (s : BetStatus) (now : Nat) (l : List Ptr) (q : Ptr) :
    ∀ r : InMemoryBetRepository, q ∉ l → (r.betMem q).Status ≠ StatusPlaced →
      (BetService.attemptStore s now r l).betMem q = r.betMem q := by
  induction l with
  | nil => intro r _ _; rfl
  | cons b tl ih =>
    intro r hq hs
    have hqb : q ≠ b := fun e => hq (by simp [e])
    have hqt : q ∉ tl := fun e => hq (by simp [e])
    have hf := attempt_frame s now r b q hqb hs
    simp only [BetService.attemptStore]
    rw [ih _ hqt (by rw [hf]; exact hs), hf]

theorem settleStatusOf_cases (result : String) :
    BetService.settleStatusOf result = StatusWon ∨
    BetService.settleStatusOf result = StatusLost := by
  unfold BetService.settleStatusOf
  split
  · exact Or.inl rfl
  · exact Or.inr rfl

/-- What `SettleBetsForEvent` may do to a record: one that is not `PLACED`
is left as it is, and one whose status changes ends `WON` or `LOST`. -/
theorem service_Settle_cell (r : InMemoryBetRepository) (eventID result : String)
    (now : Nat) (q : Ptr) :
    ((r.betMem q).Status ≠ StatusPlaced →
      (BetService.SettleBetsForEvent r eventID result now).2.betMem q = r.betMem q) ∧
    (((BetService.SettleBetsForEvent r eventID result now).2.betMem q).Status ≠
        (r.betMem q).Status →
      ((BetService.SettleBetsForEvent r eventID result now).2.betMem q).Status = StatusWon ∨
      ((BetService.SettleBetsForEvent r eventID result now).2.betMem q).Status = StatusLost) := by
  rcases service_Settle_store r eventID result now with h1 | ⟨l, hF, _, _, h1⟩
  · rw [h1]
    exact ⟨fun _ => rfl, fun h => absurd rfl h⟩
  · rw [h1]
    constructor
    · intro hs
      apply attemptStore_frame _ now l q r _ hs
      intro hmem
      have hl : ∃ idx, r.betsByEvent.get eventID = some idx ∧
          l = idx.filter (fun b => decide ((r.betMem b).Status = StatusPlaced)) := by
        cases hg : r.betsByEvent.get eventID with
        | none =>
          simp [FindBetsByEvent, hg] at hF
          subst hF; cases hmem
        | some idx =>
          rw [FindBetsByEvent_indexed r eventID idx hg] at hF
          cases hF
          exact ⟨idx, rfl, rfl⟩
      obtain ⟨idx, _, hl⟩ := hl
      rw [hl, List.mem_filter] at hmem
      exact hs (by simpa using hmem.2)
    · intro hch
      rcases (attemptStore_status (BetService.settleStatusOf result) now l r).1 q with h | h
      · exact absurd h hch
      · rw [h]; exact settleStatusOf_cases result

/-- The bet memory after `BetService.PlaceBet` differs from the one before at
most at the address of the record the call builds. -/
theorem service_PlaceBet_cell (r : InMemoryBetRepository) (req : PlaceBetRequest)
    (newID : String) (now : Nat) (q : Ptr) (hq : q ≠ r.nextBet) :
    (BetService.PlaceBet r req newID now).2.betMem q = r.betMem q := by
  cases hv : req.Validate with
  | false => rw [service_PlaceBet_invalid r req newID now hv]
  | true =>
    rw [service_PlaceBet_store r req newID now hv]
    obtain ⟨hm, _, _, hn⟩ := same_FindOrCreateUser r req.UserID now
    have hq1 : q ≠ (FindOrCreateUser r req.UserID now).2.nextBet := by rw [hn]; exact hq
    have hnew : (newBet (FindOrCreateUser r req.UserID now).2 (betOfRequest req)).2.betMem q =
        r.betMem q := by
      simp [newBet, store_other _ _ _ _ hq1, hm]
    rcases PlaceBet_bets (newBet (FindOrCreateUser r req.UserID now).2 (betOfRequest req)).2
      (FindOrCreateUser r req.UserID now).2.nextBet newID now with hs | ⟨_, hb, _⟩
    · rw [hs.1, hnew]
    · rw [hb, store_other _ _ _ _ hq1, hnew]

/-- The bet memory is the same after every call of `BetService` but
`PlaceBet` and `SettleBetsForEvent`. -/
theorem run_user_ops (r : InMemoryBetRepository) (o : ServiceOp)
    (hP : ∀ req newID now, o ≠ .PlaceBet req newID now)
    (hS : ∀ e res now, o ≠ .SettleBetsForEvent e res now) :
    (o.run r).betMem = r.betMem := by
  cases o with
  | PlaceBet req newID now => exact absurd rfl (hP req newID now)
  | SettleBetsForEvent e res now => exact absurd rfl (hS e res now)
  | CreateUser req now =>
    rcases service_CreateUser_store r req now with h1 | h1
    · simp only [ServiceOp.run]; rw [h1]
    · simp only [ServiceOp.run]; rw [h1, (same_CreateUser _ _ _).1]; rfl
  | GetUser _ => rfl
  | ListUsers => rfl
  | UpdateUser u now =>
    rcases service_UpdateUser_store r u now with h1 | ⟨user, _, h1⟩
    · simp only [ServiceOp.run]; rw [h1]
    · simp only [ServiceOp.run]; rw [h1, (same_UpdateUser _ _ _).1]
  | DeleteUser u =>
    simp only [ServiceOp.run, BetService.DeleteUser]
    split
    · rfl
    · rw [(same_DeleteUser _ _).1]
  | GetUserBalance _ => rfl

/-- C12, as the code has it: a stored bet that is `WON` or `LOST` is the
same record after any call of `BetService` (on a store whose stored bets lie
below the allocation mark), after `UpdateBet` with any argument and after the
user operations; a stored bet whose status a call of `BetService` changes was
`PLACED` and ends `WON` or `LOST`; `PlaceBet` of the repository, with any
argument, leaves every record but the one it received as it is, changes
nothing at all when it fails, and when it succeeds gives the record it
received the status `PLACED`, whatever status that record had; a record whose
status `UpdateBet` changes was `PLACED` and ends with the status the argument
carries, whatever that is. -/
theorem C12_status_moves :
    (∀ (r : InMemoryBetRepository) (o : ServiceOp),
      (∀ k p, r.bets.get k = some p → p < r.nextBet) →
      ∀ k q, r.bets.get k = some q →
        (((r.betMem q).Status = StatusWon ∨ (r.betMem q).Status = StatusLost) →
          (o.run r).betMem q = r.betMem q) ∧
        (((o.run r).betMem q).Status ≠ (r.betMem q).Status →
          (r.betMem q).Status = StatusPlaced ∧
          (((o.run r).betMem q).Status = StatusWon ∨
            ((o.run r).betMem q).Status = StatusLost))) ∧
    (∀ (r : InMemoryBetRepository) (bet : Ptr) (newID : String) (now : Nat),
      (∀ q, q ≠ bet → (PlaceBet r bet newID now).2.betMem q = r.betMem q) ∧
      ((PlaceBet r bet newID now).1 ≠ .ok bet → (PlaceBet r bet newID now).2 = r) ∧
      ((PlaceBet r bet newID now).1 = .ok bet →
        ((PlaceBet r bet newID now).2.betMem bet).Status = StatusPlaced)) ∧
    (∀ (r : InMemoryBetRepository) (bet : Ptr) (now : Nat) (q : Ptr),
      ((r.betMem q).Status ≠ StatusPlaced → (UpdateBet r bet now).2.betMem q = r.betMem q) ∧
      (((UpdateBet r bet now).2.betMem q).Status ≠ (r.betMem q).Status →
        (r.betMem q).Status = StatusPlaced ∧
        ((UpdateBet r bet now).2.betMem q).Status = (r.betMem bet).Status)) ∧
    (∀ (r : InMemoryBetRepository) (user : Ptr) (userID : String) (now : Nat),
      (CreateUser r user now).2.betMem = r.betMem ∧
      (UpdateUser r user now).2.betMem = r.betMem ∧
      (DeleteUser r userID).2.betMem = r.betMem ∧
      (FindOrCreateUser r userID now).2.betMem = r.betMem) := by
  refine ⟨?_, ?_, ?_, ?_⟩
  · intro r o hAlloc k q hq
    have hne : q ≠ r.nextBet := Nat.ne_of_lt (hAlloc k q hq)
    have hsame : (o.run r).betMem q = r.betMem q →
        (((r.betMem q).Status = StatusWon ∨ (r.betMem q).Status = StatusLost) →
          (o.run r).betMem q = r.betMem q) ∧
        (((o.run r).betMem q).Status ≠ (r.betMem q).Status →
          (r.betMem q).Status = StatusPlaced ∧
          (((o.run r).betMem q).Status = StatusWon ∨
            ((o.run r).betMem q).Status = StatusLost)) := by
      intro h
      exact ⟨fun _ => h, fun hch => absurd (by rw [h]) hch⟩
    by_cases hP : ∃ req newID now, o = .PlaceBet req newID now
    · obtain ⟨req, newID, now, rfl⟩ := hP
      exact hsame (service_PlaceBet_cell r req newID now q hne)
    · by_cases hS : ∃ e res now, o = .SettleBetsForEvent e res now
      · obtain ⟨e, res, now, rfl⟩ := hS
        have hc := service_Settle_cell r e res now q
        simp only [ServiceOp.run]
        constructor
        · intro hst
          apply hc.1
          rcases hst with h | h <;> rw [h] <;> decide
        · intro hch
          refine ⟨?_, hc.2 hch⟩
          by_contra hnp
          exact hch (by rw [hc.1 hnp])
      · apply hsame
        rw [run_user_ops r o (fun a b c e => hP ⟨a, b, c, e⟩) (fun a b c e => hS ⟨a, b, c, e⟩)]
  · intro r bet newID now
    refine ⟨?_, ?_, ?_⟩
    · intro q hqb
      rcases PlaceBet_bets r bet newID now with hs | ⟨_, hb, _⟩
      · rw [hs.1]
      · rw [hb, store_other _ _ _ _ hqb]
    · exact PlaceBet_failed r bet newID now
    · intro hok
      rw [PlaceBet_ok_cell r bet newID now hok]
  · intro r bet now q
    rcases UpdateBet_cell r bet now q with h | ⟨hp, h⟩
    · exact ⟨fun _ => h, fun hch => absurd (by rw [h]) hch⟩
    · exact ⟨fun hs => absurd hp hs, fun _ => ⟨hp, by rw [h]; rfl⟩⟩
  · intro r user userID now
    exact ⟨(same_CreateUser r user now).1, (same_UpdateUser r user now).1,
      (same_DeleteUser r userID).1, (same_FindOrCreateUser r userID now).1⟩

/-- C12 fails as stated, twice.  In the scenario bet `b1` is stored and
`PLACED`; `UpdateBet` with the record `&model.Bet{ID: "b1"}`, whose status is
the empty string, succeeds, and the stored status is then the empty string,
neither `WON` nor `LOST`.  And once `b1` is settled as `WON`, `PlaceBet` on
the stored record itself, the pointer that the first `PlaceBet` returned,
succeeds and sets the status of the settled bet back to `PLACED`, with the ID
`b2` in the record that is still stored under `b1`. -/
theorem C12_status_counterexample :
    (blankStore.bets.get "b1" = some 0 ∧
      (blankStore.betMem 0).Status = StatusPlaced ∧
      (UpdateBet blankStore 1 3).1 = none ∧
      ((UpdateBet blankStore 1 3).2.betMem 0).Status = "" ∧
      ((UpdateBet blankStore 1 3).2.betMem 0).Status ≠ StatusWon ∧
      ((UpdateBet blankStore 1 3).2.betMem 0).Status ≠ StatusLost) ∧
    (wonStore.bets.get "b1" = some 0 ∧
      (wonStore.betMem 0).Status = StatusWon ∧
      wonStore.bets.get "b2" = none ∧
      (PlaceBet wonStore 0 "b2" 4).1 = .ok 0 ∧
      (PlaceBet wonStore 0 "b2" 4).2.bets.get "b1" = some 0 ∧
      ((PlaceBet wonStore 0 "b2" 4).2.betMem 0).Status = StatusPlaced ∧
      ((PlaceBet wonStore 0 "b2" 4).2.betMem 0).Status ≠ (wonStore.betMem 0).Status ∧
      ((PlaceBet wonStore 0 "b2" 4).2.betMem 0).ID = "b2") := by
  have hout : ((UpdateBet blankStore 1 3).1 = none ∧
      ((UpdateBet blankStore 1 3).2.betMem 0).Status = "") := by
    rw [blankStore_eq]
    simp [UpdateBet, GoMap.get, GoMap.set, store_apply, StatusPlaced, StatusWon]
  have hp : (PlaceBet wonStore 0 "b2" 4).1 = .ok 0 ∧
      (PlaceBet wonStore 0 "b2" 4).2.bets.get "b1" = some 0 ∧
      ((PlaceBet wonStore 0 "b2" 4).2.betMem 0).Status = StatusPlaced ∧
      ((PlaceBet wonStore 0 "b2" 4).2.betMem 0).ID = "b2" := by
    rw [wonStore_eq]
    simp [PlaceBet, GoMap.get, GoMap.set, store_apply, StatusPlaced]
    norm_num
    simp [store_same]
  have hw : (wonStore.betMem 0).Status = StatusWon := by
    rw [wonStore_eq]; simp [store_apply, StatusWon]
  refine ⟨⟨?_, ?_, hout.1, hout.2, ?_, ?_⟩, ?_, hw, ?_, hp.1, hp.2.1, hp.2.2.1, ?_, hp.2.2.2⟩
  · rw [blankStore_eq]; simp [GoMap.get]
  · rw [blankStore_eq]; simp [store_apply, StatusPlaced]
  · rw [hout.2]; decide
  · rw [hout.2]; decide
  · rw [wonStore_eq]; simp [GoMap.get]
  · rw [wonStore_eq]; simp [GoMap.get]
  · rw [hp.2.2.1, hw]; decide

/-- C12 at concrete stores: after the failed settlement of the scenario bet
`b1` is `WON`, and a later `PlaceBet` of the service leaves the record as it
is; and in the scenario `UpdateBet` with a separate record carrying `WON`
changes the status of `b1` from `PLACED` to the status of the argument. -/
theorem C12_status_moves_witness :
    (ServiceOp.run (BetService.SettleBetsForEvent scenario "e1" "win" 3).2
        (.PlaceBet ⟨"u1", "e1", 2, 10⟩ "b2" 4)).betMem 0 =
      (BetService.SettleBetsForEvent scenario "e1" "win" 3).2.betMem 0 ∧
    (settleStore.betMem 0).Status = StatusPlaced ∧
    ((UpdateBet settleStore 1 3).2.betMem 0).Status = (settleStore.betMem 1).Status := by
  have hA : ∀ k p, (BetService.SettleBetsForEvent scenario "e1" "win" 3).2.bets.get k = some p →
      p < (BetService.SettleBetsForEvent scenario "e1" "win" 3).2.nextBet := by
    intro k p
    rw [settle_scenario_win, scenario_eq]
    simp only [GoMap.get]
    split
    · intro h; cases h; decide
    · intro h; cases h
  have hG : (BetService.SettleBetsForEvent scenario "e1" "win" 3).2.bets.get "b1" = some 0 := by
    rw [settle_scenario_win, scenario_eq]; simp [GoMap.get]
  have hW : ((BetService.SettleBetsForEvent scenario "e1" "win" 3).2.betMem 0).Status =
      StatusWon := by
    rw [settle_scenario_win]; simp [store_same, StatusWon]
  have hCh : ((UpdateBet settleStore 1 3).2.betMem 0).Status ≠ (settleStore.betMem 0).Status := by
    rw [settleStore_eq]
    simp [UpdateBet, GoMap.get, GoMap.set, store_apply, StatusPlaced, StatusWon]
  have h1 := (C12_status_moves.1 (BetService.SettleBetsForEvent scenario "e1" "win" 3).2
    (.PlaceBet ⟨"u1", "e1", 2, 10⟩ "b2" 4) hA "b1" 0 hG).1 (Or.inl hW)
  have h2 := (C12_status_moves.2.2.1 settleStore 1 3 0).2 hCh
  exact ⟨h1, h2.1, h2.2⟩

/-- C16 at a store reached through the repository, with no bet placed
twice: the answer for `e1`. -/
theorem C16_findBetsByEvent_witness :
    RepoReachable repoScenario ∧ RepoReachableOnce repoScenario ∧
    ∃ l, FindBetsByEvent repoScenario "e1" = .ok l ∧
      (∀ p, p ∈ l ↔ ((∃ k, repoScenario.bets.get k = some p) ∧
        (repoScenario.betMem p).EventID = "e1" ∧
        (repoScenario.betMem p).Status = StatusPlaced)) ∧
      (repoScenario.betsByEvent.get "e1" = none → l = []) ∧
      ((∀ k p, repoScenario.bets.get k = some p → (repoScenario.betMem p).EventID = "e1" →
        (repoScenario.betMem p).Status ≠ StatusPlaced) → l = []) ∧
      (RepoReachableOnce repoScenario → l.Nodup) :=
  ⟨reachable_of_once _ repoScenario_once, repoScenario_once,
    C16_findBetsByEvent repoScenario (reachable_of_once _ repoScenario_once) "e1"⟩

/-- C16 fails as stated: from the empty store, `FindOrCreateUser` for `u1`,
`PlaceBet` on a new record and `PlaceBet` once more on the pointer that the
first call returned give a store with one bet, stored under `b1` and under
`b2`, whose index for `e1` holds that bet twice; `FindBetsByEvent` returns it
twice, so no answer of it holds each stored bet once. -/
theorem C16_placedTwice_counterexample :
    RepoReachable twiceStore ∧
    (∀ k p, twiceStore.bets.get k = some p → p = 0) ∧
    FindBetsByEvent twiceStore "e1" = .ok [0, 0] ∧
    ¬ ∃ l, FindBetsByEvent twiceStore "e1" = .ok l ∧ l.Nodup := by
  have hF : FindBetsByEvent twiceStore "e1" = .ok [0, 0] := by
    rw [twiceStore_eq]
    simp [FindBetsByEvent, GoMap.get, store_apply, StatusPlaced]
  refine ⟨?_, ?_, hF, ?_⟩
  · exact RepoReachable.placeBet repoScenario 0 "b2" 3
      (reachable_of_once _ repoScenario_once)
      (by rw [repoScenario_eq]; decide) (by rw [repoScenario_eq]; simp [GoMap.get])
  · intro k p
    rw [twiceStore_eq]
    simp only [GoMap.get]
    split
    · intro h; cases h; rfl
    · split
      · intro h; cases h; rfl
      · intro h; cases h
  · rintro ⟨l, hl, hn⟩
    rw [hF] at hl
    cases hl
    simp at hn


/-! ## BetService.PlaceBet -/

/-- The result of `PlaceBet` when the owner exists and can pay the stake. -/
theorem PlaceBet_success (r : InMemoryBetRepository) (bet user : Ptr) (newID : String)
    (now : Nat) (hUser : r.users.get (r.betMem bet).UserID = some user)
    (hBal : (r.betMem bet).Amount ≤ (r.userMem user).Balance) :
    PlaceBet r bet newID now =
      (.ok bet,
       { r with
         betMem := store r.betMem bet
           ⟨newID, (r.betMem bet).UserID, (r.betMem bet).EventID, (r.betMem bet).Odds,
            (r.betMem bet).Amount, StatusPlaced, some now, (r.betMem bet).SettledAt⟩,
         bets := r.bets.set newID bet,
         betsByEvent := r.betsByEvent.set (r.betMem bet).EventID
           ((r.betsByEvent.get (r.betMem bet).EventID).getD [] ++ [bet]),
         userMem := store r.userMem user
           ⟨(r.userMem user).ID, (r.userMem user).Balance - (r.betMem bet).Amount,
            (r.userMem user).CreatedAt, some now⟩,
         users := r.users.set (r.userMem user).ID user }) := by
  have hlt : ¬ (r.userMem user).Balance < (r.betMem bet).Amount := not_lt.mpr hBal
  simp [PlaceBet, hUser, hlt, store_same]

/-- The result of `PlaceBet` when the owner exists and cannot pay the stake. -/
theorem PlaceBet_short (r : InMemoryBetRepository) (bet user : Ptr) (newID : String)
    (now : Nat) (hUser : r.users.get (r.betMem bet).UserID = some user)
    (hBal : (r.userMem user).Balance < (r.betMem bet).Amount) :
    PlaceBet r bet newID now =
      (.error (.ErrorBadRequest
        ("insufficient balance: current " ++ fmt2 (r.userMem user).Balance ++
          ", required " ++ fmt2 (r.betMem bet).Amount) ""), r) := by
  simp [PlaceBet, hUser, hBal]

/-- A valid request: what `BetService.PlaceBet` returns in terms of the call
of the repository on the record it builds. -/
theorem service_PlaceBet_valid (r : InMemoryBetRepository) (req : PlaceBetRequest)
    (newID : String) (now : Nat) (hv : req.Validate = true) :
    BetService.PlaceBet r req newID now =
      ((match (PlaceBet (newBet (FindOrCreateUser r req.UserID now).2 (betOfRequest req)).2
          (FindOrCreateUser r req.UserID now).2.nextBet newID now).1 with
        | .ok createdBet => .ok createdBet
        | .error err =>
          if err.isBadRequest then .error err
          else if err.isNotFound then .error err
          else .error (.Wrapf "failed to place bet: " err)),
       (PlaceBet (newBet (FindOrCreateUser r req.UserID now).2 (betOfRequest req)).2
          (FindOrCreateUser r req.UserID now).2.nextBet newID now).2) := by
  obtain ⟨user, hu⟩ := FindOrCreateUser_ok r req.UserID now
  generalize (FindOrCreateUser r req.UserID now).2 = r1 at hu
  unfold BetService.PlaceBet
  simp only [hv, Bool.not_true, Bool.false_eq_true, if_false, hu]
  simp only [newBet, betOfRequest]
  split
  · next err r3 h =>
    simp only [h]
    split
    · rfl
    · split <;> rfl
  · next b r3 h => simp only [h]

theorem validate_iff (req : PlaceBetRequest) :
    req.Validate = true ↔
      req.UserID ≠ "" ∧ req.EventID ≠ "" ∧ 1 < req.Odds ∧ 0 < req.Amount := by
  simp only [PlaceBetRequest.Validate, Bool.and_eq_true, decide_eq_true_eq]
  constructor
  · rintro ⟨⟨⟨⟨⟨h1, h2⟩, _⟩, h4⟩, _⟩, h6⟩
    exact ⟨h1, h2, h4, h6⟩
  · rintro ⟨h1, h2, h4, h6⟩
    exact ⟨⟨⟨⟨⟨h1, h2⟩, ne_of_gt (lt_trans zero_lt_one h4)⟩, h4⟩, ne_of_gt h6⟩, h6⟩

/-- C21: a request with odds not above 1, an amount not above 0, an empty
user ID or an empty event ID is refused by `BetService.PlaceBet` with
`ErrorBadRequest`, and the store is returned as it was: no user created, no
balance changed, no bet recorded. -/
theorem C21_placeBet_rejects_invalid (r : InMemoryBetRepository) (req : PlaceBetRequest)
    (newID : String) (now : Nat)
    (hBad : ¬ (1 < req.Odds) ∨ ¬ (0 < req.Amount) ∨ req.UserID = "" ∨ req.EventID = "") :
    BetService.PlaceBet r req newID now =
      (.error (.ErrorBadRequest "validation failed: " ""), r) := by
  apply service_PlaceBet_invalid
  cases hv : req.Validate with
  | false => rfl
  | true =>
    obtain ⟨h1, h2, h3, h4⟩ := (validate_iff req).mp hv
    rcases hBad with h | h | h | h
    · exact absurd h3 h
    · exact absurd h4 h
    · exact absurd h h1
    · exact absurd h h2

/-- C21 at the scenario: odds of exactly 1 are refused. -/
theorem C21_placeBet_rejects_invalid_witness :
    BetService.PlaceBet scenario ⟨"u1", "e1", 1, 100⟩ "b2" 3 =
      (.error (.ErrorBadRequest "validation failed: " ""), scenario) :=
  C21_placeBet_rejects_invalid scenario ⟨"u1", "e1", 1, 100⟩ "b2" 3
    (Or.inl (by simp))


/-- The store in which `BetService.PlaceBet` calls the repository when the
user of the request is not in the user map: the user is created with balance
1000 and the record of the bet is built. -/
theorem service_PlaceBet_prepared (r : InMemoryBetRepository) (req : PlaceBetRequest)
    (now : Nat) (hNone : r.users.get req.UserID = none) :
    (newBet (FindOrCreateUser r req.UserID now).2 (betOfRequest req)).2 =
      { r with
        betMem := store r.betMem r.nextBet (betOfRequest req),
        nextBet := r.nextBet + 1,
        userMem := store r.userMem r.nextUser ⟨req.UserID, 1000, some now, some now⟩,
        nextUser := r.nextUser + 1,
        users := r.users.set req.UserID r.nextUser } ∧
    (FindOrCreateUser r req.UserID now).2.nextBet = r.nextBet := by
  rw [FindOrCreateUser_new r req.UserID now hNone]
  exact ⟨rfl, rfl⟩

/-- C22: for a valid request with an amount of at most 1000 that names a user
not in the user map, `BetService.PlaceBet` succeeds: the user is created and
stored under the ID, the balance after the call is 1000 minus the amount, and
the bet returned is stored under the generated ID, is `PLACED`, and carries
the user, event, odds and amount of the request. -/
theorem C22_placeBet_creates_user (r : InMemoryBetRepository) (req : PlaceBetRequest)
    (newID : String) (now : Nat)
    (hU : req.UserID ≠ "") (hE : req.EventID ≠ "") (hO : 1 < req.Odds)
    (hA : 0 < req.Amount) (hMax : req.Amount ≤ 1000)
    (hNone : r.users.get req.UserID = none) :
    (BetService.PlaceBet r req newID now).1 = .ok r.nextBet ∧
    (BetService.PlaceBet r req newID now).2.betMem r.nextBet =
      ⟨newID, req.UserID, req.EventID, req.Odds, req.Amount, StatusPlaced, some now, none⟩ ∧
    (BetService.PlaceBet r req newID now).2.bets.get newID = some r.nextBet ∧
    (BetService.PlaceBet r req newID now).2.users.get req.UserID = some r.nextUser ∧
    (BetService.PlaceBet r req newID now).2.userMem r.nextUser =
      ⟨req.UserID, 1000 - req.Amount, some now, some now⟩ := by
  have hv : req.Validate = true := (validate_iff req).mpr ⟨hU, hE, hO, hA⟩
  obtain ⟨hprep, hnb⟩ := service_PlaceBet_prepared r req now hNone
  rw [service_PlaceBet_valid r req newID now hv, hnb, hprep]
  have hUser : ({ r with
        betMem := store r.betMem r.nextBet (betOfRequest req),
        nextBet := r.nextBet + 1,
        userMem := store r.userMem r.nextUser ⟨req.UserID, 1000, some now, some now⟩,
        nextUser := r.nextUser + 1,
        users := r.users.set req.UserID r.nextUser } : InMemoryBetRepository).users.get
      (({ r with
        betMem := store r.betMem r.nextBet (betOfRequest req),
        nextBet := r.nextBet + 1,
        userMem := store r.userMem r.nextUser ⟨req.UserID, 1000, some now, some now⟩,
        nextUser := r.nextUser + 1,
        users := r.users.set req.UserID r.nextUser } : InMemoryBetRepository).betMem
          r.nextBet).UserID = some r.nextUser := by
    simp [store_same, betOfRequest, GoMap.get_set_same]
  rw [PlaceBet_success _ r.nextBet r.nextUser newID now hUser
    (by simpa [store_same, betOfRequest] using hMax)]
  refine ⟨rfl, ?_, ?_, ?_, ?_⟩
  · simp [store_same, betOfRequest, Bet.zero]
  · simp [GoMap.get_set_same]
  · simp [store_same, GoMap.get_set_same]
  · simp [store_same, betOfRequest]

/-- C22 at the empty store: `u1` stakes 100 at odds 2 on `e1`. -/
theorem C22_placeBet_creates_user_witness :
    (BetService.PlaceBet NewInMemoryBetRepository ⟨"u1", "e1", 2, 100⟩ "b1" 1).1 =
      .ok NewInMemoryBetRepository.nextBet ∧
    (BetService.PlaceBet NewInMemoryBetRepository ⟨"u1", "e1", 2, 100⟩ "b1" 1).2.userMem
        NewInMemoryBetRepository.nextUser =
      ⟨"u1", 1000 - 100, some 1, some 1⟩ := by
  have h := C22_placeBet_creates_user NewInMemoryBetRepository ⟨"u1", "e1", 2, 100⟩ "b1" 1
    (by decide) (by decide) (by norm_num) (by norm_num) (by norm_num) (by decide)
  exact ⟨h.1, h.2.2.2.2⟩

/-- C27: for a valid request with an amount above 1000 that names a user not
in the user map, `BetService.PlaceBet` fails with `ErrorBadRequest`
(insufficient balance) and records no bet, neither in the bets map nor in the
index; yet the store is not the one before the call: the user is now stored
under the ID, with balance 1000. -/
theorem C27_failed_placeBet_keeps_user (r : InMemoryBetRepository) (req : PlaceBetRequest)
    (newID : String) (now : Nat)
    (hU : req.UserID ≠ "") (hE : req.EventID ≠ "") (hO : 1 < req.Odds)
    (hA : 1000 < req.Amount) (hNone : r.users.get req.UserID = none) :
    (BetService.PlaceBet r req newID now).1 =
      .error (.ErrorBadRequest ("insufficient balance: current " ++ fmt2 1000 ++
        ", required " ++ fmt2 req.Amount) "") ∧
    (BetService.PlaceBet r req newID now).2.bets = r.bets ∧
    (BetService.PlaceBet r req newID now).2.betsByEvent = r.betsByEvent ∧
    (BetService.PlaceBet r req newID now).2.users.get req.UserID = some r.nextUser ∧
    (BetService.PlaceBet r req newID now).2.userMem r.nextUser =
      ⟨req.UserID, 1000, some now, some now⟩ ∧
    (BetService.PlaceBet r req newID now).2.users ≠ r.users := by
  have hpos : 0 < req.Amount := lt_trans (by norm_num) hA
  have hv : req.Validate = true := (validate_iff req).mpr ⟨hU, hE, hO, hpos⟩
  obtain ⟨hprep, hnb⟩ := service_PlaceBet_prepared r req now hNone
  rw [service_PlaceBet_valid r req newID now hv, hnb, hprep]
  have hUser : ({ r with
        betMem := store r.betMem r.nextBet (betOfRequest req),
        nextBet := r.nextBet + 1,
        userMem := store r.userMem r.nextUser ⟨req.UserID, 1000, some now, some now⟩,
        nextUser := r.nextUser + 1,
        users := r.users.set req.UserID r.nextUser } : InMemoryBetRepository).users.get
      (({ r with
        betMem := store r.betMem r.nextBet (betOfRequest req),
        nextBet := r.nextBet + 1,
        userMem := store r.userMem r.nextUser ⟨req.UserID, 1000, some now, some now⟩,
        nextUser := r.nextUser + 1,
        users := r.users.set req.UserID r.nextUser } : InMemoryBetRepository).betMem
          r.nextBet).UserID = some r.nextUser := by
    simp [store_same, betOfRequest, GoMap.get_set_same]
  rw [PlaceBet_short _ r.nextBet r.nextUser newID now hUser
    (by simpa [store_same, betOfRequest] using hA)]
  refine ⟨?_, rfl, rfl, ?_, ?_, ?_⟩
  · simp [store_same, betOfRequest, Error.isBadRequest]
  · simp [GoMap.get_set_same]
  · simp [store_same]
  · intro h
    have h2 : (r.users.set req.UserID r.nextUser).get req.UserID = r.users.get req.UserID := by
      simp only [] at h
      rw [h]
    rw [GoMap.get_set_same, hNone] at h2
    cases h2

/-- C27 at the empty store: `u9` stakes 5000; the call fails and `u9` is
stored with balance 1000. -/
theorem C27_failed_placeBet_keeps_user_witness :
    (BetService.PlaceBet NewInMemoryBetRepository ⟨"u9", "e1", 2, 5000⟩ "b1" 1).1 =
      .error (.ErrorBadRequest ("insufficient balance: current " ++ fmt2 1000 ++
        ", required " ++ fmt2 5000) "") ∧
    (BetService.PlaceBet NewInMemoryBetRepository ⟨"u9", "e1", 2, 5000⟩ "b1" 1).2.bets =
      NewInMemoryBetRepository.bets ∧
    (BetService.PlaceBet NewInMemoryBetRepository ⟨"u9", "e1", 2, 5000⟩ "b1" 1).2.userMem
        NewInMemoryBetRepository.nextUser = ⟨"u9", 1000, some 1, some 1⟩ := by
  have h := C27_failed_placeBet_keeps_user NewInMemoryBetRepository ⟨"u9", "e1", 2, 5000⟩
    "b1" 1 (by decide) (by decide) (by norm_num) (by norm_num) (by decide)
  exact ⟨h.1, h.2.1, h.2.2.2.2.1⟩


/-! ## UpdateUser -/

/-- The result of `UpdateUser` when the ID of the argument is in the user
map. -/
theorem UpdateUser_found (r : InMemoryBetRepository) (user existingUser : Ptr) (now : Nat)
    (hGet : r.users.get (r.userMem user).ID = some existingUser) :
    UpdateUser r user now =
      (.ok existingUser,
       { r with
         userMem := store r.userMem existingUser
           ⟨(r.userMem existingUser).ID, (r.userMem existingUser).Balance,
            (r.userMem existingUser).CreatedAt, some now⟩ }) := by
  have hID : (store r.userMem existingUser
      ⟨(r.userMem existingUser).ID, (r.userMem existingUser).Balance,
       (r.userMem existingUser).CreatedAt, some now⟩ user).ID = (r.userMem user).ID := by
    by_cases h : user = existingUser
    · subst h; simp [store_same]
    · simp [store_other _ _ _ _ h]
  have hself : r.users.set (r.userMem user).ID existingUser = r.users :=
    GoMap.set_get_self _ _ _ hGet
  simp only [UpdateUser, hGet, hID, hself]

/-- C23: `UpdateUser` of the repository on an ID in the user map returns the
stored user and changes only its modification time: its ID, balance and
creation time, every other user record, the user map and everything about
bets are as before; on an ID not in the map it fails with `ErrorNotFound` and
returns the store as it was.  `UpdateUser` of the service does the same for a
non-empty ID whose user is stored under its own ID. -/
theorem C23_updateUser_touches_timestamp :
    (∀ (r : InMemoryBetRepository) (user existingUser : Ptr) (now : Nat),
      r.users.get (r.userMem user).ID = some existingUser →
      (UpdateUser r user now).1 = .ok existingUser ∧
      (UpdateUser r user now).2.userMem existingUser =
        ⟨(r.userMem existingUser).ID, (r.userMem existingUser).Balance,
         (r.userMem existingUser).CreatedAt, some now⟩ ∧
      (∀ q, q ≠ existingUser → (UpdateUser r user now).2.userMem q = r.userMem q) ∧
      (UpdateUser r user now).2.users = r.users ∧
      (UpdateUser r user now).2.betMem = r.betMem ∧
      (UpdateUser r user now).2.bets = r.bets ∧
      (UpdateUser r user now).2.betsByEvent = r.betsByEvent) ∧
    (∀ (r : InMemoryBetRepository) (user : Ptr) (now : Nat),
      r.users.get (r.userMem user).ID = none →
      UpdateUser r user now = (.error (.ErrorNotFound "User" (r.userMem user).ID), r)) ∧
    (∀ (r : InMemoryBetRepository) (userID : String) (p : Ptr) (now : Nat),
      userID ≠ "" → r.users.get userID = some p → (r.userMem p).ID = userID →
      BetService.UpdateUser r userID now = (.ok p, (UpdateUser r p now).2) ∧
      ((BetService.UpdateUser r userID now).2.userMem p).Balance = (r.userMem p).Balance) ∧
    (∀ (r : InMemoryBetRepository) (userID : String) (now : Nat),
      userID ≠ "" → r.users.get userID = none →
      BetService.UpdateUser r userID now = (.error (.ErrorNotFound "User" userID), r)) := by
  refine ⟨?_, ?_, ?_, ?_⟩
  · intro r user existingUser now hGet
    rw [UpdateUser_found r user existingUser now hGet]
    refine ⟨rfl, ?_, ?_, rfl, rfl, rfl, rfl⟩
    · simp [store_same]
    · intro q hq; simp [store_other _ _ _ _ hq]
  · intro r user now hNone
    simp [UpdateUser, hNone]
  · intro r userID p now hID hGet hKey
    have hGet2 : r.users.get (r.userMem p).ID = some p := by rw [hKey]; exact hGet
    have hout : BetService.UpdateUser r userID now = (.ok p, (UpdateUser r p now).2) := by
      simp only [BetService.UpdateUser, hID, if_false, GetUser, hGet,
        UpdateUser_found r p p now hGet2]
    refine ⟨hout, ?_⟩
    rw [hout, UpdateUser_found r p p now hGet2]
    simp [store_same]
  · intro r userID now hID hNone
    simp [BetService.UpdateUser, hID, GetUser, hNone]

/-- C23 at the scenario: an update of `u1` at time 9 keeps the balance of
900 and the creation time and sets the modification time. -/
theorem C23_updateUser_touches_timestamp_witness :
    BetService.UpdateUser scenario "u1" 9 = (.ok 0, (UpdateUser scenario 0 9).2) ∧
    (UpdateUser scenario 0 9).2.userMem 0 =
      ⟨(scenario.userMem 0).ID, (scenario.userMem 0).Balance,
       (scenario.userMem 0).CreatedAt, some 9⟩ := by
  have hG : scenario.users.get "u1" = some 0 := by rw [scenario_eq]; simp [GoMap.get]
  have hK : (scenario.userMem 0).ID = "u1" := by rw [scenario_eq]; simp [store_same]
  have h1 := C23_updateUser_touches_timestamp.2.2.1 scenario "u1" 0 9 (by decide) hG hK
  have h2 := C23_updateUser_touches_timestamp.1 scenario 0 0 9 (by rw [hK]; exact hG)
  exact ⟨h1.1, h2.2.1⟩

/-! ## The body of the answer 500 -/

/-- The settlement of event `e1` in the scenario with result `lose`. -/
theorem settle_scenario_lose :
    (BetService.SettleBetsForEvent scenario "e1" "lose" 3).1 =
      some (.Wrapf "failed to settle bet b1: "
        (.ErrorConflict "bet b1 already settled with status LOST")) := by
  rw [scenario_eq]
  simp [BetService.SettleBetsForEvent, FindBetsByEvent, BetService.settleStep,
    BetService.setStatus, UpdateBet, GoMap.get, store_same, StatusPlaced, StatusLost]

/-- C24: in the scenario the two requests `win` and `lose` on event `e1`
both end in an error outside the three kinds and in the answer 500, and the
two bodies are not the same: each holds the text of its error. -/
theorem C24_answer_500_carries_error_text :
    (AppHandler.SettleBet scenario "e1" (some ⟨"win"⟩) 3).1 =
      ⟨500, [("error", "Failed to settle all bets for event e1, potential partial success: " ++
        "failed to settle bet b1: conflict: bet b1 already settled with status WON")]⟩ ∧
    (AppHandler.SettleBet scenario "e1" (some ⟨"lose"⟩) 3).1 =
      ⟨500, [("error", "Failed to settle all bets for event e1, potential partial success: " ++
        "failed to settle bet b1: conflict: bet b1 already settled with status LOST")]⟩ ∧
    (AppHandler.SettleBet scenario "e1" (some ⟨"win"⟩) 3).1.body ≠
      (AppHandler.SettleBet scenario "e1" (some ⟨"lose"⟩) 3).1.body := by
  have hW : (AppHandler.SettleBet scenario "e1" (some ⟨"win"⟩) 3).1 =
      ⟨500, [("error", "Failed to settle all bets for event e1, potential partial success: " ++
        "failed to settle bet b1: conflict: bet b1 already settled with status WON")]⟩ := by
    simp [AppHandler.SettleBet, SettleBetRequest.Validate, settle_scenario_win,
      Error.isNotFound, Error.isBadRequest, Error.isConflict, Error.errorString]
  have hL : (AppHandler.SettleBet scenario "e1" (some ⟨"lose"⟩) 3).1 =
      ⟨500, [("error", "Failed to settle all bets for event e1, potential partial success: " ++
        "failed to settle bet b1: conflict: bet b1 already settled with status LOST")]⟩ := by
    have h := settle_scenario_lose
    rcases hS : BetService.SettleBetsForEvent scenario "e1" "lose" 3 with ⟨e, r1⟩
    rw [hS] at h
    simp only [] at h
    subst h
    simp [AppHandler.SettleBet, SettleBetRequest.Validate, hS,
      Error.isNotFound, Error.isBadRequest, Error.isConflict, Error.errorString]
  refine ⟨hW, hL, ?_⟩
  rw [hW, hL]
  decide


/-! ## Two settlements of one event -/

/-- C25: two calls of `SettleBetsForEvent` with result `win` on event `e1`
of the scenario, in two of their interleavings.  When the first call runs to
its end before the second starts, the first returns the wrapped conflict and
the second `ErrorNotFound`.  When both calls have fetched the open bets
before either writes, each of the two attempts on bet `b1` ends in
`ErrorConflict`.  In both cases no attempt succeeds and the balance of the
owner stays 900: it is credited not once but never. -/
theorem C25_two_settlements_no_success :
    (BetService.SettleBetsForEvent scenario "e1" "win" 3).1 =
      some (.Wrapf "failed to settle bet b1: "
        (.ErrorConflict "bet b1 already settled with status WON")) ∧
    (BetService.SettleBetsForEvent
        (BetService.SettleBetsForEvent scenario "e1" "win" 3).2 "e1" "win" 4).1 =
      some (.ErrorNotFound "Placed Bets for Event" "e1") ∧
    ((BetService.SettleBetsForEvent
        (BetService.SettleBetsForEvent scenario "e1" "win" 3).2 "e1" "win" 4).2.userMem
          0).Balance = 900 ∧
    FindBetsByEvent scenario "e1" = .ok [0] ∧
    (BetService.attempt StatusWon 3 scenario 0).1 =
      some (.ErrorConflict "bet b1 already settled with status WON") ∧
    (BetService.attempt StatusWon 4 (BetService.attempt StatusWon 3 scenario 0).2 0).1 =
      some (.ErrorConflict "bet b1 already settled with status WON") ∧
    ((BetService.attempt StatusWon 4 (BetService.attempt StatusWon 3 scenario 0).2 0).2.userMem
        0).Balance = 900 := by
  have hA : BetService.attempt StatusWon 3 scenario 0 =
      (some (.ErrorConflict "bet b1 already settled with status WON"),
       { scenario with
         betMem := store scenario.betMem 0
           ⟨"b1", "u1", "e1", 2, 100, "WON", some 2, none⟩ }) := by
    rw [scenario_eq]
    simp [BetService.attempt, BetService.setStatus, UpdateBet, GoMap.get, store_same,
      StatusPlaced, StatusWon]
  have hB : BetService.attempt StatusWon 4
      { scenario with
        betMem := store scenario.betMem 0
          ⟨"b1", "u1", "e1", 2, 100, "WON", some 2, none⟩ } 0 =
      (some (.ErrorConflict "bet b1 already settled with status WON"),
       { scenario with
         betMem := store scenario.betMem 0
           ⟨"b1", "u1", "e1", 2, 100, "WON", some 2, none⟩ }) := by
    rw [scenario_eq]
    simp [BetService.attempt, BetService.setStatus, UpdateBet, GoMap.get, store_same,
      store_store, StatusPlaced, StatusWon]
  have hN : BetService.SettleBetsForEvent
      { scenario with
        betMem := store scenario.betMem 0
          ⟨"b1", "u1", "e1", 2, 100, "WON", some 2, none⟩ } "e1" "win" 4 =
      (some (.ErrorNotFound "Placed Bets for Event" "e1"),
       { scenario with
         betMem := store scenario.betMem 0
           ⟨"b1", "u1", "e1", 2, 100, "WON", some 2, none⟩ }) := by
    apply (settle_none_open _ "e1" "win" 4 (Or.inl rfl) _).2
    intro idx hidx p hp
    rw [scenario_eq] at hidx
    simp [GoMap.get] at hidx
    subst hidx
    have : p = 0 := by simpa using hp
    subst this
    simp [store_same, StatusPlaced]
  rw [settle_scenario_win, hN, hA, hB]
  refine ⟨rfl, rfl, ?_, ?_, rfl, rfl, ?_⟩
  · rw [scenario_eq]; simp [store_same]
  · rw [scenario_eq]; simp [FindBetsByEvent, GoMap.get, store_same, StatusPlaced]
  · rw [scenario_eq]; simp [store_same]


/-! ## Concurrent callers of FindOrCreateUser -/

/-- The critical sections of one caller, run one after the other with no
other caller between them, are the method `FindOrCreateUser`. -/
theorem Caller_steps_alone (r : InMemoryBetRepository) (userID : String) (now : Nat) :
    let s1 := Caller.step userID now r .start
    let s2 := Caller.step userID now s1.2 s1.1
    let s3 := Caller.step userID now s2.2 s2.1
    s3 = (.returned (FindOrCreateUser r userID now).1, (FindOrCreateUser r userID now).2) := by
  cases hg : r.users.get userID with
  | some user =>
    have : FindOrCreateUser r userID now = (.ok user, r) := by simp [FindOrCreateUser, hg]
    simp [Caller.step, hg, this]
  | none =>
    rw [FindOrCreateUser_new r userID now hg]
    have hID : ((newUser r { User.zero with ID := userID }).2.userMem
        (newUser r { User.zero with ID := userID }).1).ID = userID := by
      simp [newUser, store_same]
    have hNone2 : (newUser r { User.zero with ID := userID }).2.users.get
        ((newUser r { User.zero with ID := userID }).2.userMem
          (newUser r { User.zero with ID := userID }).1).ID = none := by
      rw [hID]; exact hg
    have h := CreateUser_new _ _ now hNone2
    simp only [Caller.step, hg, h]
    simp [newUser, store_same, store_store, User.zero]


theorem step_start_none (r : InMemoryBetRepository) (userID : String) (now : Nat)
    (h : r.users.get userID = none) :
    Caller.step userID now r .start = (.creating, r) := by
  simp [Caller.step, h]

theorem step_lookup_some (r : InMemoryBetRepository) (userID : String) (now : Nat) (p : Ptr)
    (h : r.users.get userID = some p) :
    Caller.step userID now r .start = (.returned (.ok p), r) ∧
    Caller.step userID now r .rechecking = (.returned (.ok p), r) := by
  simp [Caller.step, h]

theorem step_creating_none (r : InMemoryBetRepository) (userID : String) (now : Nat)
    (h : r.users.get userID = none) :
    Caller.step userID now r .creating =
      (.returned (.ok r.nextUser),
       { r with
         userMem := store r.userMem r.nextUser ⟨userID, 1000, some now, some now⟩,
         nextUser := r.nextUser + 1,
         users := r.users.set userID r.nextUser }) := by
  have hID : ((newUser r { User.zero with ID := userID }).2.userMem
      (newUser r { User.zero with ID := userID }).1).ID = userID := by
    simp [newUser, store_same]
  have hNone2 : (newUser r { User.zero with ID := userID }).2.users.get
      ((newUser r { User.zero with ID := userID }).2.userMem
        (newUser r { User.zero with ID := userID }).1).ID = none := by
    rw [hID]; exact h
  have hc := CreateUser_new _ _ now hNone2
  simp only [Caller.step, hc]
  simp [newUser, store_same, store_store, User.zero]

theorem step_creating_some (r : InMemoryBetRepository) (userID : String) (now : Nat) (p : Ptr)
    (h : r.users.get userID = some p) :
    Caller.step userID now r .creating =
      (.rechecking, (newUser r { User.zero with ID := userID }).2) := by
  have hID : ((newUser r { User.zero with ID := userID }).2.userMem
      (newUser r { User.zero with ID := userID }).1).ID = userID := by
    simp [newUser, store_same]
  have hSome : (newUser r { User.zero with ID := userID }).2.users.get
      ((newUser r { User.zero with ID := userID }).2.userMem
        (newUser r { User.zero with ID := userID }).1).ID = some p := by
    rw [hID]; exact h
  have hc : CreateUser (newUser r { User.zero with ID := userID }).2
      (newUser r { User.zero with ID := userID }).1 now =
      (.error (.ErrorConflict ("user with ID \x27" ++
        ((newUser r { User.zero with ID := userID }).2.userMem
          (newUser r { User.zero with ID := userID }).1).ID ++ "\x27 already exists")),
       (newUser r { User.zero with ID := userID }).2) := by
    simp only [CreateUser, hSome]
  simp only [Caller.step, hc, Error.isConflict, if_true]

theorem Sys.Inv_init (r0 : InMemoryBetRepository) (userID : String) (n : Nat) :
    Sys.Inv r0 userID n (Sys.init r0 n) := by
  refine ⟨by simp [Sys.init], Or.inl ⟨rfl, rfl, ?_⟩⟩
  intro c hc
  simp only [Sys.init, List.mem_replicate] at hc
  exact Or.inl hc.2

theorem Sys.step_some (userID : String) (s : Sys) (e : Nat × Nat) (c : Caller)
    (hc : s.callers[e.1]? = some c) :
    Sys.step userID s e =
      { repo := (c.step userID e.2 s.repo).2,
        callers := s.callers.set e.1 (c.step userID e.2 s.repo).1,
        creations := s.creations +
          (if c.created (c.step userID e.2 s.repo).1 then 1 else 0) } := by
  simp only [Sys.step, hc]

theorem Sys.step_none (userID : String) (s : Sys) (e : Nat × Nat)
    (hc : s.callers[e.1]? = none) : Sys.step userID s e = s := by
  simp only [Sys.step, hc]

theorem Sys.Inv_step (r0 : InMemoryBetRepository) (userID : String) (n : Nat)
    (hNone : r0.users.get userID = none) (s : Sys) (e : Nat × Nat)
    (h : Sys.Inv r0 userID n s) : Sys.Inv r0 userID n (Sys.step userID s e) := by
  cases hc : s.callers[e.1]? with
  | none => rw [Sys.step_none userID s e hc]; exact h
  | some c =>
    have hmem : c ∈ s.callers := List.getElem?_mem hc
    obtain ⟨hlen, hcase⟩ := h
    rw [Sys.step_some userID s e c hc]
    refine ⟨by simp [hlen], ?_⟩
    rcases hcase with ⟨hu, hcr, hall⟩ | ⟨p, hu, hcr, hp, hid, hbal, hall⟩
    · have hget : s.repo.users.get userID = none := by rw [hu]; exact hNone
      rcases hall c hmem with rfl | rfl
      · left
        rw [step_start_none s.repo userID e.2 hget]
        refine ⟨hu, by simp [Caller.created, hcr], ?_⟩
        intro c' hc'
        rcases List.mem_or_eq_of_mem_set hc' with h1 | h1
        · exact hall c' h1
        · exact Or.inr h1
      · right
        rw [step_creating_none s.repo userID e.2 hget]
        refine ⟨s.repo.nextUser, by simp [hu], by simp [Caller.created, hcr],
          by simp, by simp [store_same], by simp [store_same], ?_⟩
        intro c' hc'
        rcases List.mem_or_eq_of_mem_set hc' with h1 | h1
        · rcases hall c' h1 with h2 | h2
          · exact Or.inl h2
          · exact Or.inr (Or.inl h2)
        · exact Or.inr (Or.inr (Or.inr h1))
    · have hget : s.repo.users.get userID = some p := by
        rw [hu]; exact GoMap.get_set_same _ _ _
      right
      rcases hall c hmem with rfl | rfl | rfl | rfl
      · rw [(step_lookup_some s.repo userID e.2 p hget).1]
        refine ⟨p, hu, by simp [Caller.created, hcr], hp, hid, hbal, ?_⟩
        intro c' hc'
        rcases List.mem_or_eq_of_mem_set hc' with h1 | h1
        · exact hall c' h1
        · exact Or.inr (Or.inr (Or.inr h1))
      · rw [step_creating_some s.repo userID e.2 p hget]
        have hne : p ≠ s.repo.nextUser := Nat.ne_of_lt hp
        refine ⟨p, hu, by simp [Caller.created, hcr], ?_, ?_, ?_, ?_⟩
        · exact Nat.lt_succ_of_lt hp
        · simpa [newUser, store_other _ _ _ _ hne] using hid
        · simpa [newUser, store_other _ _ _ _ hne] using hbal
        · intro c' hc'
          rcases List.mem_or_eq_of_mem_set hc' with h1 | h1
          · exact hall c' h1
          · exact Or.inr (Or.inr (Or.inl h1))
      · rw [(step_lookup_some s.repo userID e.2 p hget).2]
        refine ⟨p, hu, by simp [Caller.created, hcr], hp, hid, hbal, ?_⟩
        intro c' hc'
        rcases List.mem_or_eq_of_mem_set hc' with h1 | h1
        · exact hall c' h1
        · exact Or.inr (Or.inr (Or.inr h1))
      · refine ⟨p, hu, by simp [Caller.step, Caller.created, hcr], hp, hid, hbal, ?_⟩
        intro c' hc'
        rcases List.mem_or_eq_of_mem_set hc' with h1 | h1
        · exact hall c' h1
        · exact Or.inr (Or.inr (Or.inr h1))

theorem Sys.Inv_run (r0 : InMemoryBetRepository) (userID : String) (n : Nat)
    (hNone : r0.users.get userID = none) (schedule : List (Nat × Nat)) :
    ∀ s, Sys.Inv r0 userID n s → Sys.Inv r0 userID n (Sys.run userID s schedule) := by
  induction schedule with
  | nil => intro s h; exact h
  | cons e tl ih =>
    intro s h
    exact ih _ (Sys.Inv_step r0 userID n hNone s e h)


/-- Every critical section brings its caller nearer to the return. -/
theorem Caller.step_rank (userID : String) (now : Nat) (r : InMemoryBetRepository)
    (c : Caller) : (c.step userID now r).1.rank ≤ c.rank - 1 := by
  cases c with
  | start =>
    simp only [Caller.step]
    split <;> simp [Caller.rank]
  | creating =>
    simp only [Caller.step]
    split
    · simp [Caller.rank]
    · split <;> simp [Caller.rank]
  | rechecking =>
    simp only [Caller.step]
    split <;> simp [Caller.rank]
  | returned res => simp [Caller.step, Caller.rank]

theorem Sys.step_caller (userID : String) (s : Sys) (e : Nat × Nat) (i : Nat) (c : Caller)
    (hc : s.callers[i]? = some c) :
    ∃ c2, (Sys.step userID s e).callers[i]? = some c2 ∧
      c2.rank ≤ c.rank - (if e.1 = i then 1 else 0) := by
  by_cases hei : e.1 = i
  · subst hei
    rw [Sys.step_some userID s e c hc]
    have hlt : e.1 < s.callers.length := by
      obtain ⟨h, _⟩ := List.getElem?_eq_some.mp hc
      exact h
    refine ⟨(c.step userID e.2 s.repo).1, ?_, ?_⟩
    · simp [List.getElem?_set, hlt]
    · simpa using Caller.step_rank userID e.2 s.repo c
  · refine ⟨c, ?_, by simp [hei]⟩
    cases hd : s.callers[e.1]? with
    | none => rw [Sys.step_none userID s e hd]; exact hc
    | some d =>
      rw [Sys.step_some userID s e d hd]
      simp only []
      rw [List.getElem?_set_ne hei]
      exact hc

theorem Sys.run_caller (userID : String) (schedule : List (Nat × Nat)) :
    ∀ (s : Sys) (i : Nat) (c : Caller), s.callers[i]? = some c →
      ∃ c2, (Sys.run userID s schedule).callers[i]? = some c2 ∧
        c2.rank ≤ c.rank - (schedule.map Prod.fst).count i := by
  induction schedule with
  | nil =>
    intro s i c hc
    exact ⟨c, hc, by simp⟩
  | cons e tl ih =>
    intro s i c hc
    obtain ⟨c1, hc1, hr1⟩ := Sys.step_caller userID s e i c hc
    obtain ⟨c2, hc2, hr2⟩ := ih (Sys.step userID s e) i c1 hc1
    refine ⟨c2, hc2, ?_⟩
    simp only [List.map_cons, List.count_cons, beq_iff_eq]
    omega

theorem Caller.rank_zero (c : Caller) (h : c.rank = 0) : ∃ res, c = .returned res := by
  cases c with
  | start => simp [Caller.rank] at h
  | creating => simp [Caller.rank] at h
  | rechecking => simp [Caller.rank] at h
  | returned res => exact ⟨res, rfl⟩

/-- C26: `n` callers run `FindOrCreateUser` at the same time for an ID that
is not in the user map, their critical sections interleaved by any schedule.
At every moment at most one call of `CreateUser` has succeeded, the user map
is the first one or the first one with the ID added, and every caller that
has returned has returned, without error, the one record stored under the
ID, which has the ID and balance 1000.  When the schedule gives every caller
its three critical sections, all `n` callers have returned that same record
and exactly one call of `CreateUser` has succeeded. -/
theorem C26_concurrent_findOrCreateUser (r : InMemoryBetRepository) (userID : String)
    (n : Nat) (hNone : r.users.get userID = none) :
    (∀ schedule : List (Nat × Nat),
      (Sys.run userID (Sys.init r n) schedule).creations ≤ 1 ∧
      ((Sys.run userID (Sys.init r n) schedule).repo.users = r.users ∨
        ∃ p, (Sys.run userID (Sys.init r n) schedule).repo.users = r.users.set userID p) ∧
      (∀ (i : Nat) (res : Except Error Ptr),
        (Sys.run userID (Sys.init r n) schedule).callers[i]? = some (Caller.returned res) →
        ∃ p, res = .ok p ∧
          (Sys.run userID (Sys.init r n) schedule).repo.users.get userID = some p ∧
          ((Sys.run userID (Sys.init r n) schedule).repo.userMem p).ID = userID ∧
          ((Sys.run userID (Sys.init r n) schedule).repo.userMem p).Balance = 1000 ∧
          (Sys.run userID (Sys.init r n) schedule).creations = 1)) ∧
    (∀ schedule : List (Nat × Nat), 0 < n →
      (∀ i, i < n → 3 ≤ (schedule.map Prod.fst).count i) →
      ∃ p, (Sys.run userID (Sys.init r n) schedule).callers =
          List.replicate n (Caller.returned (.ok p)) ∧
        (Sys.run userID (Sys.init r n) schedule).repo.users = r.users.set userID p ∧
        ((Sys.run userID (Sys.init r n) schedule).repo.userMem p).ID = userID ∧
        ((Sys.run userID (Sys.init r n) schedule).repo.userMem p).Balance = 1000 ∧
        (Sys.run userID (Sys.init r n) schedule).creations = 1) := by
  have hInv : ∀ schedule, Sys.Inv r userID n (Sys.run userID (Sys.init r n) schedule) :=
    fun schedule => Sys.Inv_run r userID n hNone schedule _ (Sys.Inv_init r userID n)
  constructor
  · intro schedule
    obtain ⟨_, hcase⟩ := hInv schedule
    rcases hcase with ⟨hu, hcr, hall⟩ | ⟨p, hu, hcr, _, hid, hbal, hall⟩
    · refine ⟨by omega, Or.inl hu, ?_⟩
      intro i res hi
      rcases hall _ (List.getElem?_mem hi) with h | h <;> cases h
    · refine ⟨by omega, Or.inr ⟨p, hu⟩, ?_⟩
      intro i res hi
      rcases hall _ (List.getElem?_mem hi) with h | h | h | h
      · cases h
      · cases h
      · cases h
      · cases h
        exact ⟨p, rfl, by rw [hu]; exact GoMap.get_set_same _ _ _, hid, hbal, hcr⟩
  · intro schedule hn hFair
    obtain ⟨hlen, hcase⟩ := hInv schedule
    have hret : ∀ c ∈ (Sys.run userID (Sys.init r n) schedule).callers,
        ∃ res, c = Caller.returned res := by
      intro c hc
      obtain ⟨i, hi⟩ := List.mem_iff_getElem?.mp hc
      have hin : i < n := by
        obtain ⟨h, _⟩ := List.getElem?_eq_some.mp hi
        rw [hlen] at h; exact h
      have h0 : (Sys.init r n).callers[i]? = some Caller.start := by
        simp [Sys.init, List.getElem?_replicate, hin]
      obtain ⟨c2, hc2, hr⟩ := Sys.run_caller userID schedule (Sys.init r n) i Caller.start h0
      rw [hi] at hc2
      cases hc2
      apply Caller.rank_zero
      have := hFair i hin
      have h3 : Caller.start.rank = 3 := rfl
      rw [h3] at hr
      omega
    have hne : (Sys.run userID (Sys.init r n) schedule).callers ≠ [] := by
      intro h
      rw [h] at hlen
      simp at hlen
      omega
    obtain ⟨c0, hc0⟩ := List.exists_mem_of_ne_nil _ hne
    rcases hcase with ⟨_, _, hall⟩ | ⟨p, hu, hcr, _, hid, hbal, hall⟩
    · obtain ⟨res, hres⟩ := hret c0 hc0
      rcases hall c0 hc0 with h | h <;> rw [hres] at h <;> cases h
    · refine ⟨p, ?_, hu, hid, hbal, hcr⟩
      rw [List.eq_replicate_iff]
      refine ⟨hlen, ?_⟩
      intro c hc
      obtain ⟨res, hres⟩ := hret c hc
      rcases hall c hc with h | h | h | h
      · rw [hres] at h; cases h
      · rw [hres] at h; cases h
      · rw [hres] at h; cases h
      · exact h

/-- C26 for two callers on the empty store whose critical sections
alternate: both return the same record and one creation has succeeded. -/
theorem C26_concurrent_findOrCreateUser_witness :
    ∃ p, (Sys.run "u1" (Sys.init NewInMemoryBetRepository 2)
        [(0, 1), (1, 2), (0, 3), (1, 4), (0, 5), (1, 6)]).callers =
          List.replicate 2 (Caller.returned (.ok p)) ∧
      (Sys.run "u1" (Sys.init NewInMemoryBetRepository 2)
        [(0, 1), (1, 2), (0, 3), (1, 4), (0, 5), (1, 6)]).repo.users =
          NewInMemoryBetRepository.users.set "u1" p ∧
      ((Sys.run "u1" (Sys.init NewInMemoryBetRepository 2)
        [(0, 1), (1, 2), (0, 3), (1, 4), (0, 5), (1, 6)]).repo.userMem p).ID = "u1" ∧
      ((Sys.run "u1" (Sys.init NewInMemoryBetRepository 2)
        [(0, 1), (1, 2), (0, 3), (1, 4), (0, 5), (1, 6)]).repo.userMem p).Balance = 1000 ∧
      (Sys.run "u1" (Sys.init NewInMemoryBetRepository 2)
        [(0, 1), (1, 2), (0, 3), (1, 4), (0, 5), (1, 6)]).creations = 1 :=
  (C26_concurrent_findOrCreateUser NewInMemoryBetRepository "u1" 2 (by decide)).2
    [(0, 1), (1, 2), (0, 3), (1, 4), (0, 5), (1, 6)] (by decide)
    (by
      intro i hi
      interval_cases i <;> decide)

end BetSettlement
